import Mathlib

/-!
# Zytronic `zyconfig` protocol engine: frame codec

A shallow embedding of `protocol.c`, `usb.c` and `services.c` of the
`anztec-zyconfig` recipe.  Bytes (`uint8_t`) and 16-bit words (`uint16_t`) are
natural numbers, truncated with `%` exactly where the C code truncates; C `int`
values are integers.  A C array is a list; an access outside the array is a
fault, modelled by `none`.
-/

set_option maxRecDepth 8000

namespace Zytronic

/-! ## Machine integers -/

/-- Conversion of a `size_t` to `int` as in `(int)len`: the value is reduced to
32 bits and read as a two's-complement number. -/
def castInt (n : Nat) : Int :=
  if n % 2 ^ 32 < 2 ^ 31 then ((n % 2 ^ 32 : Nat) : Int) else ((n % 2 ^ 32 : Nat) : Int) - 2 ^ 32

/-- Conversion to `uint8_t`, as done by every assignment through a `uint8_t *`. -/
def u8 (v : Nat) : Nat := v % 256

/-- Conversion to `uint16_t`, the cast `(uint16_t)( ... )`. -/
def u16 (v : Nat) : Nat := v % 65536

/-! ## `zul_getCRC` (protocol.c, lines 158-181) -/

/-- Body of the inner loop of `zul_getCRC`:
`if ((crc & 0x8000U) > 0) crc = (uint16_t)((crc << 1) ^ 0x1021U); else crc = (uint16_t)(crc << 1);` -/
def crcBitStep (crc : Nat) : Nat :=
  if (crc &&& 0x8000) > 0 then u16 ((crc <<< 1) ^^^ 0x1021) else u16 (crc <<< 1)

/-- The loop `for (j = 0; j < 8; j++)`, with `n` iterations still to run. -/
def crcBitLoop : Nat → Nat → Nat
  | 0, crc => crc
  | n + 1, crc => crcBitLoop n (crcBitStep crc)

/-- The loop `for (i = 0; i < (int)len; i++)` of `zul_getCRC`, with `n`
iterations still to run, the counter at `i` and the register at `crc`.
Reading `buf[i]` outside the array is a fault. -/
def crcByteLoop (buf : List Nat) : Nat → Nat → Nat → Option Nat
  | 0, _, crc => some crc
  | n + 1, i, crc =>
    match buf[i]? with
    | none => none
    | some b => crcByteLoop buf n (i + 1) (crcBitLoop 8 (u16 (crc ^^^ (b <<< 8))))

/-- The function `uint16_t zul_getCRC(uint8_t *buf, size_t len)`. -/
def zul_getCRC (buf : List Nat) (len : Nat) : Option Nat :=
  crcByteLoop buf (castInt len).toNat 0 0

/-! ## Reference CRC-16, polynomial 0x1021, initial value 0 -/

/-- One left shift of the 16-bit register: the polynomial is XORed in when the
top bit was set before the shift; arithmetic is modulo `2 ^ 16`. -/
def crc16_shift (r : Nat) : Nat :=
  if r / 2 ^ 15 % 2 = 1 then (2 * r % 2 ^ 16) ^^^ 0x1021 else 2 * r % 2 ^ 16

/-- One message byte: XOR it into the high byte of the register, then shift
eight times. -/
def crc16_byte (r b : Nat) : Nat :=
  crc16_shift^[8] ((r ^^^ (b * 2 ^ 8)) % 2 ^ 16)

/-- Reference bitwise CRC-16 with polynomial 0x1021, initial register 0, no
reflection and no final XOR. -/
def crc16_reference (b : List Nat) : Nat :=
  b.foldl crc16_byte 0


/-! ## Frame assembly (protocol.c) -/

/-- A `uint8_t *` argument: `none` is the `NULL` pointer, `some a` points at the
first element of the array `a`. -/
abbrev Ptr := Option (List Nat)

/-- The assignment `buffer[i] = v` through a `uint8_t *`.  Outside the array it
is a fault. -/
def store (buffer : List Nat) (i : Nat) (v : Nat) : Option (List Nat) :=
  if i < buffer.length then some (buffer.set i (u8 v)) else none

/-- Zytronic Control Collection: the HID report ID. -/
def ZCC : Nat := 0x05
/-- Start of frame. -/
def STX : Nat := 0x02
/-- End of frame. -/
def ETX : Nat := 0x03

/-- Packet ID of a request from the host (`enum packetIDs`). -/
def MasterRequest : Nat := 102
/-- Packet ID of a reply from the controller (`enum packetIDs`). -/
def SlaveResponse : Nat := 106

/-! The message codes of `enum messageCodes`. -/

def ReadViaSpi : Nat := 37
def RestoreDefaults : Nat := 41
def ResetController : Nat := 61
def ForceEqualisation : Nat := 62
def SetRawMode : Nat := 64
def SetParam : Nat := 77
def GetParam : Nat := 78
def GetVersionString : Nat := 79
def SetSilentTouchMode : Nat := 83
def StartBootLoader : Nat := 99
def GetStatus : Nat := 113
def SetTouchMode : Nat := 63
def GetSingleTouch100 : Nat := 65
def GetSingleRawData100 : Nat := 66
def OLD_GetVersions : Nat := 73
def Old_GetSysReport : Nat := 76
def DisableFlashWrite : Nat := 0x82
def EnableFlashWrite : Nat := 0x83
def ForceFlashWrite : Nat := 0x84
def SetVirtualButton : Nat := 151
def GetVirtualButton : Nat := 152
def ClearVirtualButton : Nat := 153

/-- The function `msb_16`: `(uint8_t)((val >> 8) & 0x00ff)`. -/
def msb_16 (val : Nat) : Nat := u8 ((u16 (val >>> 8)) &&& 0x00ff)

/-- The function `lsb_16`: `(uint8_t)(val & 0x00ff)`. -/
def lsb_16 (val : Nat) : Nat := u8 (val &&& 0x00ff)

/-- The function `lsb_int`: `(uint8_t)(val & 0xff)` on a two's-complement `int`. -/
def lsb_int (val : Int) : Nat := (val % 256).toNat

/-- The payload loop of `framePayload`,
`for (i=0; i<payloadLen; i++) { ptr++; *ptr = payload[i]; }`,
with `n` iterations still to run.  `ptr` is the offset of the write pointer
from `buffer`. -/
def payloadLoop (payload : List Nat) : Nat → Nat → Nat → List Nat → Option (Nat × List Nat)
  | 0, _, ptr, buffer => some (ptr, buffer)
  | n + 1, i, ptr, buffer =>
    match payload[i]? with
    | none => none
    | some d =>
      match store buffer (ptr + 1) d with
      | none => none
      | some buffer1 => payloadLoop payload n (i + 1) (ptr + 1) buffer1

/-- The function `framePayload(buffer, bufLen, payload, payloadLen)`.  The
result is `none` when the code reads or writes outside an array; otherwise it
is the returned `bool` together with the buffer as the call leaves it. -/
def framePayload (buffer : Ptr) (bufLen : Int) (payload : List Nat) (payloadLen : Int) :
    Option (Bool × Ptr) :=
  match buffer with
  | none => some (false, none)
  | some buf =>
    if bufLen < 7 + payloadLen then some (false, some buf)
    else do
      let buf ← store buf 0 ZCC
      let buf ← store buf 1 STX
      let lenPtr := 2
      let buf ← store buf 3 MasterRequest
      let (ptr, buf) ← payloadLoop payload payloadLen.toNat 0 3 buf
      let packetLen : Int := (ptr : Int) - 1
      let buf ← store buf lenPtr (lsb_int (packetLen + 2))
      let crcVal ← zul_getCRC (buf.drop 2) packetLen.toNat
      let buf ← store buf (ptr + 1) (lsb_16 crcVal)
      let buf ← store buf (ptr + 2) (msb_16 crcVal)
      let buf ← store buf (ptr + 3) ETX
      some (true, some buf)

/-- The shape shared by the encoders: the `NULL` test, the test of `bufLen`
against the encoder's own minimum, then `framePayload` on the local `payload`
array with the `payloadLen` the encoder has counted. -/
def encodeWith (minLen : Int) (buffer : Ptr) (bufLen : Int) (msg : List Nat × Int) :
    Option (Bool × Ptr) :=
  match buffer with
  | none => some (false, none)
  | some _ => if bufLen < minLen then some (false, buffer) else framePayload buffer bufLen msg.1 msg.2

/-- The function `zul_encodeSingleByteMessage`: `framePayload(buffer, bufLen, &byte, 1)`
behind the guards `buffer == NULL` and `bufLen < 8`. -/
def zul_encodeSingleByteMessage (buffer : Ptr) (bufLen : Int) (byte : Nat) : Option (Bool × Ptr) :=
  encodeWith 8 buffer bufLen ([byte], 1)

def zul_encodeRestoreDefaults (buffer : Ptr) (bufLen : Int) : Option (Bool × Ptr) :=
  zul_encodeSingleByteMessage buffer bufLen RestoreDefaults

def zul_encodeResetController (buffer : Ptr) (bufLen : Int) : Option (Bool × Ptr) :=
  zul_encodeSingleByteMessage buffer bufLen ResetController

def zul_encodeForceEqualisation (buffer : Ptr) (bufLen : Int) : Option (Bool × Ptr) :=
  zul_encodeSingleByteMessage buffer bufLen ForceEqualisation

def zul_encodeStartBootLoader (buffer : Ptr) (bufLen : Int) : Option (Bool × Ptr) :=
  zul_encodeSingleByteMessage buffer bufLen StartBootLoader

def zul_encodeSetFlashWrite (buffer : Ptr) (bufLen : Int) (enabled : Bool) : Option (Bool × Ptr) :=
  zul_encodeSingleByteMessage buffer bufLen (u8 (if enabled then EnableFlashWrite else DisableFlashWrite))

def zul_encodeForceFlashWrite (buffer : Ptr) (bufLen : Int) : Option (Bool × Ptr) :=
  zul_encodeSingleByteMessage buffer bufLen ForceFlashWrite

def zul_encodeGetSingleRawData (buffer : Ptr) (bufLen : Int) : Option (Bool × Ptr) :=
  zul_encodeSingleByteMessage buffer bufLen GetSingleRawData100

def zul_encodeGetSingleTouchData (buffer : Ptr) (bufLen : Int) : Option (Bool × Ptr) :=
  zul_encodeSingleByteMessage buffer bufLen GetSingleTouch100

def zul_encodeOldSysReportReq (buffer : Ptr) (bufLen : Int) : Option (Bool × Ptr) :=
  zul_encodeSingleByteMessage buffer bufLen Old_GetSysReport

def zul_encodeOldVersionReq (buffer : Ptr) (bufLen : Int) : Option (Bool × Ptr) :=
  zul_encodeSingleByteMessage buffer bufLen OLD_GetVersions

/-- Local array `payload[5]` and `payloadLen` of `zul_encodeSetRequest` at its
call of `framePayload`. -/
def setRequestMsg (index value : Nat) : List Nat × Int :=
  ([u8 SetParam, u8 index, lsb_16 value, msb_16 value, 0], 4)

/-- The function `zul_encodeSetRequest`; its guard is `bufLen < 11`. -/
def zul_encodeSetRequest (buffer : Ptr) (bufLen : Int) (index value : Nat) : Option (Bool × Ptr) :=
  encodeWith 11 buffer bufLen (setRequestMsg index value)

/-- Local array `payload[2]` and `payloadLen` of `zul_encodeGetRequest`. -/
def getRequestMsg (index : Nat) : List Nat × Int :=
  ([u8 GetParam, u8 index], 2)

/-- The function `zul_encodeGetRequest`; its guard is `bufLen < 8`. -/
def zul_encodeGetRequest (buffer : Ptr) (bufLen : Int) (index : Nat) : Option (Bool × Ptr) :=
  encodeWith 8 buffer bufLen (getRequestMsg index)

/-- Local array `payload[2]` and `payloadLen` of `zul_encodeGetSpiRegister`;
`address = (device << 4) + (index << 1)` is a `uint8_t`. -/
def getSpiRegisterMsg (device index : Nat) : List Nat × Int :=
  ([u8 ReadViaSpi, u8 (u8 ((device <<< 4) + (index <<< 1)))], 2)

/-- The function `zul_encodeGetSpiRegister`; its guard is `bufLen < 8`. -/
def zul_encodeGetSpiRegister (buffer : Ptr) (bufLen : Int) (device index : Nat) :
    Option (Bool × Ptr) :=
  encodeWith 8 buffer bufLen (getSpiRegisterMsg device index)

/-- Local array `payload[2]` and `payloadLen` of `zul_encodeGetStatus`. -/
def getStatusMsg (index : Nat) : List Nat × Int :=
  ([u8 GetStatus, u8 index], 2)

/-- The function `zul_encodeGetStatus`; its guard is `bufLen < 8`. -/
def zul_encodeGetStatus (buffer : Ptr) (bufLen : Int) (index : Nat) : Option (Bool × Ptr) :=
  encodeWith 8 buffer bufLen (getStatusMsg index)

/-- Local array `payload[8]` and `payloadLen` of `zul_encodeVerStrRequest`;
`index` is a `VerIndex` (`STR_BL` = 0 .. `STR_CPUID` = 4). -/
def verStrRequestMsg (index : Nat) : List Nat × Int :=
  ([u8 GetVersionString, u8 index, 0, 0, 0, 0, 0, 0], 2)

/-- The function `zul_encodeVerStrRequest`; its guard is `bufLen < 8`. -/
def zul_encodeVerStrRequest (buffer : Ptr) (bufLen : Int) (index : Nat) : Option (Bool × Ptr) :=
  encodeWith 8 buffer bufLen (verStrRequestMsg index)

/-- Local array `payload[8]` and `payloadLen` of `zul_encodeRawModeRequest`;
the second byte is `(uint8_t)(mode > 0)`. -/
def rawModeRequestMsg (mode : Int) : List Nat × Int :=
  ([u8 SetRawMode, u8 (if mode > 0 then 1 else 0), 0, 0, 0, 0, 0, 0], 2)

/-- The function `zul_encodeRawModeRequest`; its guard is `bufLen < 8`. -/
def zul_encodeRawModeRequest (buffer : Ptr) (bufLen : Int) (mode : Int) : Option (Bool × Ptr) :=
  encodeWith 8 buffer bufLen (rawModeRequestMsg mode)

/-- Local array `payload[8]` and `payloadLen` of `zul_encodeTouchModeRequest`. -/
def touchModeRequestMsg (mode : Int) : List Nat × Int :=
  ([u8 SetTouchMode, u8 (if mode > 0 then 1 else 0), 0, 0, 0, 0, 0, 0], 2)

/-- The function `zul_encodeTouchModeRequest`; its guard is `bufLen < 8`. -/
def zul_encodeTouchModeRequest (buffer : Ptr) (bufLen : Int) (mode : Int) : Option (Bool × Ptr) :=
  encodeWith 8 buffer bufLen (touchModeRequestMsg mode)

/-- Local array `payload[8]` and `payloadLen` of
`zul_encodePrivateTouchModeRequest`; `mode` is a `bool`. -/
def privateTouchModeRequestMsg (mode : Bool) : List Nat × Int :=
  ([u8 SetSilentTouchMode, u8 (if mode then 1 else 0), 0, 0, 0, 0, 0, 0], 2)

/-- The function `zul_encodePrivateTouchModeRequest`; its guard is `bufLen < 8`. -/
def zul_encodePrivateTouchModeRequest (buffer : Ptr) (bufLen : Int) (mode : Bool) :
    Option (Bool × Ptr) :=
  encodeWith 8 buffer bufLen (privateTouchModeRequestMsg mode)

/-- The type `Location` of zytypes.h: two `uint16_t`. -/
structure Location where
  x : Nat
  y : Nat

/-- The type `VirtualKey` of zytypes.h; `keycode` is the array `keycode[6]`. -/
structure VirtualKey where
  ID : Nat
  TopLeft : Location
  BottomRight : Location
  modifier : Nat
  keycode : Fin 6 → Nat

/-- Local array `payload[17]` and `payloadLen` of `zul_encodeVirtKeySet`:
message code, key ID, the four corner coordinates MSB first, the modifier and
the first three key codes; `payloadLen` is 14. -/
def virtKeySetMsg (vk : VirtualKey) : List Nat × Int :=
  ([u8 SetVirtualButton, u8 vk.ID,
    u8 ((vk.TopLeft.x &&& 0xFF00) >>> 8), u8 (vk.TopLeft.x &&& 0xFF),
    u8 ((vk.TopLeft.y &&& 0xFF00) >>> 8), u8 (vk.TopLeft.y &&& 0xFF),
    u8 ((vk.BottomRight.x &&& 0xFF00) >>> 8), u8 (vk.BottomRight.x &&& 0xFF),
    u8 ((vk.BottomRight.y &&& 0xFF00) >>> 8), u8 (vk.BottomRight.y &&& 0xFF),
    u8 vk.modifier, u8 (vk.keycode 0), u8 (vk.keycode 1), u8 (vk.keycode 2),
    0, 0, 0], 14)

/-- The function `zul_encodeVirtKeySet`; its guard is `bufLen < 32`. -/
def zul_encodeVirtKeySet (buffer : Ptr) (bufLen : Int) (vk : VirtualKey) : Option (Bool × Ptr) :=
  encodeWith 32 buffer bufLen (virtKeySetMsg vk)

/-- Local array `payload[2]` and `payloadLen` of `zul_encodeVirtKeyGet`; the
second byte is `(uint8_t)(index > 0)`. -/
def virtKeyGetMsg (index : Int) : List Nat × Int :=
  ([u8 GetVirtualButton, u8 (if index > 0 then 1 else 0)], 2)

/-- The function `zul_encodeVirtKeyGet`; its guard is `bufLen < 8`. -/
def zul_encodeVirtKeyGet (buffer : Ptr) (bufLen : Int) (index : Int) : Option (Bool × Ptr) :=
  encodeWith 8 buffer bufLen (virtKeyGetMsg index)

/-- Local array `payload[2]` and `payloadLen` of `zul_encodeVirtKeyClear`; the
second byte is `(uint8_t)index` of an `int`. -/
def virtKeyClearMsg (index : Int) : List Nat × Int :=
  ([u8 ClearVirtualButton, lsb_int index], 2)

/-- The function `zul_encodeVirtKeyClear`; its guard is `bufLen < 8`. -/
def zul_encodeVirtKeyClear (buffer : Ptr) (bufLen : Int) (index : Int) : Option (Bool × Ptr) :=
  encodeWith 8 buffer bufLen (virtKeyClearMsg index)

/-- A call of one of the application-mode encoders of protocol.h, with its
arguments other than the destination buffer. -/
inductive EncodeCall where
  | SingleByteMessage (byte : Nat)
  | RestoreDefaults
  | ResetController
  | ForceEqualisation
  | StartBootLoader
  | SetFlashWrite (enabled : Bool)
  | ForceFlashWrite
  | GetSingleRawData
  | GetSingleTouchData
  | OldSysReportReq
  | OldVersionReq
  | SetRequest (index value : Nat)
  | GetRequest (index : Nat)
  | GetSpiRegister (device index : Nat)
  | GetStatus (index : Nat)
  | VerStrRequest (index : Nat)
  | RawModeRequest (mode : Int)
  | TouchModeRequest (mode : Int)
  | PrivateTouchModeRequest (mode : Bool)
  | VirtKeySet (vk : VirtualKey)
  | VirtKeyGet (index : Int)
  | VirtKeyClear (index : Int)

namespace EncodeCall

/-- Run the encoder on a destination buffer. -/
def run (c : EncodeCall) (buffer : Ptr) (bufLen : Int) : Option (Bool × Ptr) :=
  match c with
  | SingleByteMessage byte => zul_encodeSingleByteMessage buffer bufLen byte
  | RestoreDefaults => zul_encodeRestoreDefaults buffer bufLen
  | ResetController => zul_encodeResetController buffer bufLen
  | ForceEqualisation => zul_encodeForceEqualisation buffer bufLen
  | StartBootLoader => zul_encodeStartBootLoader buffer bufLen
  | SetFlashWrite enabled => zul_encodeSetFlashWrite buffer bufLen enabled
  | ForceFlashWrite => zul_encodeForceFlashWrite buffer bufLen
  | GetSingleRawData => zul_encodeGetSingleRawData buffer bufLen
  | GetSingleTouchData => zul_encodeGetSingleTouchData buffer bufLen
  | OldSysReportReq => zul_encodeOldSysReportReq buffer bufLen
  | OldVersionReq => zul_encodeOldVersionReq buffer bufLen
  | SetRequest index value => zul_encodeSetRequest buffer bufLen index value
  | GetRequest index => zul_encodeGetRequest buffer bufLen index
  | GetSpiRegister device index => zul_encodeGetSpiRegister buffer bufLen device index
  | GetStatus index => zul_encodeGetStatus buffer bufLen index
  | VerStrRequest index => zul_encodeVerStrRequest buffer bufLen index
  | RawModeRequest mode => zul_encodeRawModeRequest buffer bufLen mode
  | TouchModeRequest mode => zul_encodeTouchModeRequest buffer bufLen mode
  | PrivateTouchModeRequest mode => zul_encodePrivateTouchModeRequest buffer bufLen mode
  | VirtKeySet vk => zul_encodeVirtKeySet buffer bufLen vk
  | VirtKeyGet index => zul_encodeVirtKeyGet buffer bufLen index
  | VirtKeyClear index => zul_encodeVirtKeyClear buffer bufLen index

/-- The local `payload` array and `payloadLen` the encoder hands to
`framePayload`. -/
def msg : EncodeCall → List Nat × Int
  | SingleByteMessage byte => ([byte], 1)
  | RestoreDefaults => ([Zytronic.RestoreDefaults], 1)
  | ResetController => ([Zytronic.ResetController], 1)
  | ForceEqualisation => ([Zytronic.ForceEqualisation], 1)
  | StartBootLoader => ([Zytronic.StartBootLoader], 1)
  | SetFlashWrite enabled => ([u8 (if enabled then EnableFlashWrite else DisableFlashWrite)], 1)
  | ForceFlashWrite => ([Zytronic.ForceFlashWrite], 1)
  | GetSingleRawData => ([GetSingleRawData100], 1)
  | GetSingleTouchData => ([GetSingleTouch100], 1)
  | OldSysReportReq => ([Old_GetSysReport], 1)
  | OldVersionReq => ([OLD_GetVersions], 1)
  | SetRequest index value => setRequestMsg index value
  | GetRequest index => getRequestMsg index
  | GetSpiRegister device index => getSpiRegisterMsg device index
  | GetStatus index => getStatusMsg index
  | VerStrRequest index => verStrRequestMsg index
  | RawModeRequest mode => rawModeRequestMsg mode
  | TouchModeRequest mode => touchModeRequestMsg mode
  | PrivateTouchModeRequest mode => privateTouchModeRequestMsg mode
  | VirtKeySet vk => virtKeySetMsg vk
  | VirtKeyGet index => virtKeyGetMsg index
  | VirtKeyClear index => virtKeyClearMsg index

/-- The encoder's own minimum for `bufLen`. -/
def minLen : EncodeCall → Int
  | SetRequest _ _ => 11
  | VirtKeySet _ => 32
  | _ => 8

/-- The payload of the message, `d1 .. dn`: the first `payloadLen` bytes of the
local array, `d1` being the message code. -/
def payload (c : EncodeCall) : List Nat :=
  (c.msg.1.take c.msg.2.toNat).map u8

end EncodeCall

/-- The frame of the module overview of protocol.c,
`||| STX || LEN | TYPE || d1 | d2 ... dn || CRC1 | CRC2 || ETX |||`, for the
payload `p`, behind the report-ID byte `ZCC`, with the values `framePayload`
computes for `LEN` and the CRC. -/
def frameBytes (p : List Nat) : List Nat :=
  let packet := lsb_int ((p.length : Int) + 4) :: u8 MasterRequest :: p
  u8 ZCC :: u8 STX ::
    (packet ++ [lsb_16 (crc16_reference packet), msb_16 (crc16_reference packet), u8 ETX])

/-! ## Product IDs (zytypes.h, usb.c, services.c) -/

def ZYTRONIC_VENDOR_ID : Int := 0x14C8
def UNKNWN_PRODUCT_ID : Int := 0x0001
def ZXYZXY_PRODUCT_ID : Int := 0x0003
def USB32C_PRODUCT_ID : Int := 0x0004
def ZXY100_PRODUCT_ID : Int := 0x0005
def ZXY100_BOOTLDR_ID : Int := 0x000A
def ZXY110_PRODUCT_ID : Int := 0x0009
def ZXY110_BOOTLDR_ID : Int := 0x000D
def ZXY150_PRODUCT_ID : Int := 0x0014
def ZXY150_BOOTLDR_ID : Int := 0x0015
def ZXY200_PRODUCT_ID : Int := 0x0006
def ZXY200_BOOTLDR_ID : Int := 0x000B
def ZXY200_PRODUCT_ID_ALT1 : Int := 0x0018
def ZXY300_PRODUCT_ID : Int := 0x0007
def ZXY300_BOOTLDR_ID : Int := 0x000C
def ZXY500_PRODUCT_ID : Int := 0x0016
def ZXY500_BOOTLDR_ID : Int := 0x0017
def ZXY500_PRODUCT_ID_ALT1 : Int := 0x0019

/-- The function `usb_isBLDevicePID` of usb.c: a `switch` on the product ID
with the six bootloader IDs as `case` labels. -/
def usb_isBLDevicePID (pid : Int) : Bool :=
  if pid = ZXY100_BOOTLDR_ID ∨ pid = ZXY110_BOOTLDR_ID ∨ pid = ZXY150_BOOTLDR_ID ∨
      pid = ZXY200_BOOTLDR_ID ∨ pid = ZXY300_BOOTLDR_ID ∨ pid = ZXY500_BOOTLDR_ID then true
  else false

/-- The function `zul_isBLDevicePID` of services.c. -/
def zul_isBLDevicePID (pid : Int) : Bool :=
  usb_isBLDevicePID pid

/-- The function `zul_getDevStrByPID` of services.c: a `switch` on the product
ID. -/
def zul_getDevStrByPID (pid : Int) : String :=
  if pid = ZXYZXY_PRODUCT_ID then "ZXYZXY"
  else if pid = USB32C_PRODUCT_ID then "USB32C"
  else if pid = ZXY100_PRODUCT_ID ∨ pid = ZXY100_BOOTLDR_ID then "ZXY100"
  else if pid = ZXY110_PRODUCT_ID ∨ pid = ZXY110_BOOTLDR_ID then "ZXY110"
  else if pid = ZXY150_PRODUCT_ID ∨ pid = ZXY150_BOOTLDR_ID then "ZXY150"
  else if pid = ZXY200_PRODUCT_ID ∨ pid = ZXY200_PRODUCT_ID_ALT1 ∨ pid = ZXY200_BOOTLDR_ID then
    "ZXY200"
  else if pid = ZXY300_PRODUCT_ID ∨ pid = ZXY300_BOOTLDR_ID then "ZXY300"
  else if pid = ZXY500_PRODUCT_ID ∨ pid = ZXY500_PRODUCT_ID_ALT1 ∨ pid = ZXY500_BOOTLDR_ID then
    "ZXY500"
  else "UNKNWN"

/-- One controller family of the product ID table of zytypes.h: its bootloader
ID and its application-mode product IDs. -/
structure Family where
  bootldr : Int
  product : List Int

/-- The product ID table of zytypes.h, lines 57-75. -/
def productTable : List Family :=
  [⟨ZXY100_BOOTLDR_ID, [ZXY100_PRODUCT_ID]⟩,
   ⟨ZXY110_BOOTLDR_ID, [ZXY110_PRODUCT_ID]⟩,
   ⟨ZXY150_BOOTLDR_ID, [ZXY150_PRODUCT_ID]⟩,
   ⟨ZXY200_BOOTLDR_ID, [ZXY200_PRODUCT_ID, ZXY200_PRODUCT_ID_ALT1]⟩,
   ⟨ZXY300_BOOTLDR_ID, [ZXY300_PRODUCT_ID]⟩,
   ⟨ZXY500_BOOTLDR_ID, [ZXY500_PRODUCT_ID, ZXY500_PRODUCT_ID_ALT1]⟩]

/-! ## Control transfers (usb.c) -/

/-- The error codes of `enum libusb_error`. -/
inductive LibusbError where
  | IO_ERROR | INVALID_PARAM | ACCESS | NO_DEVICE | NOT_FOUND | BUSY | TIMEOUT
  | OVERFLOW | PIPE | INTERRUPTED | NO_MEM | NOT_SUPPORTED | OTHER
  deriving DecidableEq

namespace LibusbError

/-- The value of the error code. -/
def code : LibusbError → Int
  | IO_ERROR => -1
  | INVALID_PARAM => -2
  | ACCESS => -3
  | NO_DEVICE => -4
  | NOT_FOUND => -5
  | BUSY => -6
  | TIMEOUT => -7
  | OVERFLOW => -8
  | PIPE => -9
  | INTERRUPTED => -10
  | NO_MEM => -11
  | NOT_SUPPORTED => -12
  | OTHER => -99

end LibusbError

/-- What one IN control transfer (`HID_GET_REPORT`) of the transport brings
back: an error, or the bytes of a reply, of which `wLength` = 64 at most are
taken. -/
inductive RxResult where
  | error (e : LibusbError)
  | reply (bytes : List Nat)

/-- The packet length `USB_PACKET_LEN` and the buffer length `BUF_LEN`. -/
def USB_PACKET_LEN : Nat := 64
def BUF_LEN : Nat := 64

namespace RxResult

/-- The bytes the transfer puts into the caller's buffer. -/
def data : RxResult → List Nat
  | error _ => []
  | reply bytes => bytes.take BUF_LEN

/-- The value `libusb_control_transfer` returns: the error code, or the number
of bytes transferred. -/
def res : RxResult → Int
  | error e => e.code
  | reply bytes => ((bytes.take BUF_LEN).length : Int)

/-- The transfer overwrites the start of the caller's buffer. -/
def fill (r : RxResult) (buffer : List Nat) : List Nat :=
  r.data ++ buffer.drop r.data.length

/-- A reply of positive length with at least one non-zero byte. -/
def good (r : RxResult) : Bool :=
  decide (0 < r.res) && r.data.any (fun d => d != 0)

/-- An error after which `usb_ControlRequest` stops polling: any error but
timeout, busy and invalid parameter. -/
def fatal (r : RxResult) : Bool :=
  decide (r.res < 0) && !(decide (r.res = LibusbError.TIMEOUT.code) ||
    decide (r.res = LibusbError.BUSY.code) || decide (r.res = LibusbError.INVALID_PARAM.code))

end RxResult

/-- One OUT control transfer (`HID_SET_REPORT`) as handed to the transport. -/
structure OutTransfer where
  wValue : Nat
  wIndex : Nat
  data : List Nat
  deriving DecidableEq

/-- The module state of usb.c a control request depends on, together with the
transport: the results the coming OUT and IN transfers will have, and a record
of the transfers made.  Once `rxResults` is used up, an IN transfer times out;
once `txResults` is used up, an OUT transfer times out. -/
structure Usb where
  msv_dev_handle : Bool
  msv_bootloader : Bool
  msv_activeInterface : Nat
  msv_CtrlRetry : Int
  txResults : List Int
  rxResults : List RxResult
  sent : List OutTransfer
  received : Nat
  junk : List Nat
  msv_CtrlDelay : Int := 5
  msv_CtrlTimeout : Nat := 1000
  msv_device_pid : Int := -1

namespace Usb

/-- One OUT transfer: it is recorded and the next scripted result comes back. -/
def transmit (t : OutTransfer) (u : Usb) : Int × Usb :=
  match u.txResults with
  | [] => (LibusbError.TIMEOUT.code, { u with sent := u.sent ++ [t] })
  | r :: rest => (r, { u with txResults := rest, sent := u.sent ++ [t] })

/-- One IN transfer: it is counted and the next scripted result comes back. -/
def receive (u : Usb) : RxResult × Usb :=
  match u.rxResults with
  | [] => (RxResult.error LibusbError.TIMEOUT, { u with received := u.received + 1 })
  | r :: rest => (r, { u with rxResults := rest, received := u.received + 1 })

/-- The result the `i`-th coming IN transfer will have. -/
def rxAt (u : Usb) (i : Nat) : RxResult :=
  u.rxResults.getD i (RxResult.error LibusbError.TIMEOUT)

end Usb

/-- The loop of `nonZeroData`, `for (i=0; i<len; i++) if (data[i] != 0x00) return true;`,
with `n` iterations still to run. -/
def nonZeroLoop (data : List Nat) : Nat → Nat → Option Bool
  | 0, _ => some false
  | n + 1, i =>
    match data[i]? with
    | none => none
    | some d => if d ≠ 0 then some true else nonZeroLoop data n (i + 1)

/-- The function `nonZeroData(data, len)`: true if some of the array is not 0. -/
def nonZeroData (data : List Nat) (len : Int) : Option Bool :=
  nonZeroLoop data len.toNat 0

/-- The receive loop of `usb_ControlRequest`,
`while ((!validResp) && (rxTransferAttempts-- > 0))`, with `n` attempts left.
An attempt that sets `validResp`, or sets `rxTransferAttempts` to 0, ends the
loop.  The result is the last `res`. -/
def rxLoop {σ : Type} (handle_reply : List Nat → σ → σ) :
    Nat → Int → List Nat → Usb → σ → Option (Int × Usb × σ)
  | 0, res, _, u, s => some (res, u, s)
  | n + 1, _, data, u, s =>
    let r := u.receive.1
    let u1 := u.receive.2
    let res := r.res
    let data1 := r.fill data
    if res > 0 then
      match nonZeroData data1 res with
      | none => none
      | some true => some (res, u1, handle_reply data1 s)
      | some false => rxLoop handle_reply n res data1 u1 s
    else if res < 0 then
      if res = LibusbError.TIMEOUT.code ∨ res = LibusbError.BUSY.code ∨
          res = LibusbError.INVALID_PARAM.code then
        rxLoop handle_reply n res data1 u1 s
      else some (res, u1, s)
    else rxLoop handle_reply n res data1 u1 s

/-- The function `usb_ControlRequest(request, reqLen, handle_reply)`.  The
handler acts on a state `σ` of its module; `none` for `handle_reply` is the
`NULL` handler.  The result is `none` when `memcpy` would leave `txBuffer` or
the request array. -/
def usb_ControlRequest {σ : Type} (handle_reply : Option (List Nat → σ → σ)) (request : Ptr)
    (reqLen : Nat) (u : Usb) (s : σ) : Option (Int × Usb × σ) :=
  let wValue := if u.msv_bootloader then 0x0300 else 0x0305
  if u.msv_dev_handle = false then some (LibusbError.NO_DEVICE.code, u, s)
  else
    match request with
    | none => some (-20, u, s)
    | some req =>
      if reqLen = 0 then some (-21, u, s)
      else if 64 < reqLen ∨ req.length < reqLen then none
      else
        let txBuffer := req.take reqLen ++ List.replicate (64 - reqLen) 0
        let tx := u.transmit ⟨wValue, u.msv_activeInterface, txBuffer⟩
        if tx.1 < 0 then some (tx.1, tx.2, s)
        else
          match handle_reply with
          | none => some (tx.1, tx.2, s)
          | some h =>
            rxLoop h u.msv_CtrlRetry.toNat tx.1
              ((u.junk ++ List.replicate (BUF_LEN + 1) 0).take (BUF_LEN + 1)) tx.2 s

/-- The inner loop of `usb_ControlRequestMR`, with `n` attempts left.  The
`Bool` of the result tells that an error has set `replies` to 0.  This loop has
no test of `msv_dev_handle`: a transfer on the `NULL` handle is a fault, as is
a call through the `NULL` handler. -/
def mrInner {σ : Type} (handle_reply : Option (List Nat → σ → σ)) :
    Nat → Int → List Nat → Usb → σ → Option (Int × Bool × Usb × σ)
  | 0, res, _, u, s => some (res, false, u, s)
  | n + 1, _, data, u, s =>
    match store data 0 0x05 with
    | none => none
    | some data0 =>
      if u.msv_dev_handle = false then none else
      let r := u.receive.1
      let u1 := u.receive.2
      let res := r.res
      let data1 := r.fill data0
      if res > 0 then
        match nonZeroData data1 res with
        | none => none
        | some true =>
          match handle_reply with
          | none => none
          | some h => some (res, false, u1, h data1 s)
        | some false => mrInner handle_reply n res data1 u1 s
      else if res < 0 then some (res, true, u1, s)
      else mrInner handle_reply n res data1 u1 s

/-- The loop `while (--replies>0)` of `usb_ControlRequestMR`, with `n`
iterations left. -/
def mrOuter {σ : Type} (handle_reply : Option (List Nat → σ → σ)) :
    Nat → Int → Usb → σ → Option (Int × Usb × σ)
  | 0, res, u, s => some (res, u, s)
  | n + 1, res, u, s =>
    match mrInner handle_reply 2 res (List.replicate BUF_LEN 0) u s with
    | none => none
    | some (res1, stop, u1, s1) =>
      if stop then some (res1, u1, s1) else mrOuter handle_reply n res1 u1 s1

/-- The function `usb_ControlRequestMR(request, reqLen, handle_reply, replies)`. -/
def usb_ControlRequestMR {σ : Type} (handle_reply : Option (List Nat → σ → σ)) (request : Ptr)
    (reqLen : Nat) (replies : Int) (u : Usb) (s : σ) : Option (Int × Usb × σ) :=
  if replies < 1 then some (-1, u, s)
  else
    match usb_ControlRequest handle_reply request reqLen u s with
    | none => none
    | some (res, u1, s1) =>
      if replies = 1 then some (res, u1, s1)
      else mrOuter handle_reply (replies - 1).toNat res u1 s1

/-- A reply handler that records the buffer it is called with. -/
def recordReply (d : List Nat) (calls : List (List Nat)) : List (List Nat) :=
  calls ++ [d]

/-- A transport script for examples: the OUT transfer succeeds with 64 bytes;
the IN transfers bring an all-zero reply, a timeout, the reply `05 02 07 6A 71
05 34 12`, and then one more non-zero reply.  `dev` tells whether a device is
open; the retry count is the default, `DEF_CTRL_RETRY` = 10. -/
def scriptedUsb (dev : Bool) : Usb :=
  { msv_dev_handle := dev
    msv_bootloader := false
    msv_activeInterface := 0
    msv_CtrlRetry := 10
    txResults := [64]
    rxResults := [RxResult.reply (List.replicate 64 0), RxResult.error LibusbError.TIMEOUT,
      RxResult.reply [0x05, 0x02, 0x07, 0x6A, 0x71, 0x05, 0x34, 0x12],
      RxResult.reply [0x05, 0x02, 0x07, 0x6A, 0x71, 0x05, 0x78, 0x56]]
    sent := []
    received := 0
    junk := [] }

/-! ## Communication parameters (usb.c) and endurance profiles (services.c) -/

def DEF_CTRL_DELAY : Int := 5
def DEF_CTRL_RETRY : Int := 10
def DEF_CTRL_TIMEOUT : Int := 1000

/-- The function `usb_setCtrlDelay`. -/
def usb_setCtrlDelay (delay : Int) (u : Usb) : Usb :=
  { u with msv_CtrlDelay := delay }

/-- The function `usb_defaultCtrlDelay`. -/
def usb_defaultCtrlDelay (u : Usb) : Usb :=
  usb_setCtrlDelay DEF_CTRL_DELAY u

/-- The function `usb_setCtrlRetry`. -/
def usb_setCtrlRetry (retries : Int) (u : Usb) : Usb :=
  { u with msv_CtrlRetry := retries }

/-- The function `usb_defaultCtrlRetry`. -/
def usb_defaultCtrlRetry (u : Usb) : Usb :=
  usb_setCtrlRetry DEF_CTRL_RETRY u

/-- The function `usb_setCtrlTimeout`; the `int` argument goes into an
`unsigned int`. -/
def usb_setCtrlTimeout (delay : Int) (u : Usb) : Usb :=
  { u with msv_CtrlTimeout := (delay % 2 ^ 32).toNat }

/-- The function `usb_defaultCtrlTimeout`. -/
def usb_defaultCtrlTimeout (u : Usb) : Usb :=
  usb_setCtrlTimeout DEF_CTRL_TIMEOUT u

/-- The values of `enum commsEnduranceCode` (services.h). -/
def COM_ENDUR_NORM : Nat := 0
def COM_ENDUR_MEDIUM : Nat := 1
def COM_ENDUR_HIGH : Nat := 2

/-- The return values `SUCCESS` and `FAILURE` (zytypes.h). -/
def SUCCESS : Int := 1
def FAILURE : Int := 0

/-- The reply codes of `enum replyCodesBL` (protocol.h). -/
def BL_RSP_SIZE_ERROR : Nat := 0x01
def BL_RSP_BLOCK_WRITTEN : Nat := 0x02
def BL_RSP_PROGRAMMING_COMPLETE : Nat := 0x03
def BL_RSP_PING : Nat := 0x04
def BL_RSP_BL_VERSIONS : Nat := 0x05
def BL_RSP_CRC_ERROR : Nat := 0x06
def BL_RSP_PROGRAMMING_FAILED : Nat := 0x07
def BL_RSP_COMMS_ERROR : Nat := 0x08
def BL_RSP_Acknowledge : Nat := 0xAA
def BL_RSP_VersionStr : Nat := 0x4f

/-- The opcodes of `enum opCodesBL` (protocol.h). -/
def BLProgramStart : Nat := 1
def BLRebootToApp : Nat := 2
def BLRebootToBL : Nat := 3
def BLPing : Nat := 4
def BLGetVersionData : Nat := 5
def BLGetVersionStr : Nat := 79

def BL_REPLY_BUF_LEN : Nat := 20
def SINGLE_BYTE_MSG_LEN : Nat := 8
def DUAL_BYTE_MSG_LEN : Nat := 9
def ZY_MAX_FW_FILE_SIZE : Int := 128 * 1024
def ZY_BL_MAX_DATA : Int := 64

/-- What `msv_fwXferResultStr` points at: a string literal, the static buffer
`progress` of `zul_transferFirmware`, or the text of `strerror(errno)`. -/
inductive ResultStr where
  | text (s : String)
  | progress
  | strerror
  deriving DecidableEq

/-- The static buffer `progress` of `zul_transferFirmware`, kept as the three
numbers `snprintf` formats into it with `"%3d/%03d  %02d%%\r"`. -/
structure Progress where
  loopCount : Int
  numBlocks : Int
  percent : Int
  deriving DecidableEq

/-- The type `ZyfInfo` (`struct fwInfo_t`); `pinfo` is the array `pinfo[2]`. -/
structure ZyfInfo where
  byteCount : Nat
  unWrittenBytes : Nat
  pinfo : Nat × Nat
  crc : Nat
  content : Ptr
  deriving DecidableEq

/-- The module variables of services.c used here, and the two `static` locals
of `zul_transferFirmware`, `errorCount` and `progress`.  The default values are
the values the C program starts with. -/
structure Services where
  msv_xfrIndex : Nat := 0
  msv_getConfigParam : Nat := 0
  msv_getStatusVal : Nat := 0
  msv_commEndurance : Nat := 0
  msv_BL_reply : Fin 20 → Nat := fun _ => 0
  msv_packetCounter : Int := 0
  msv_fwXferResultStr : ResultStr := ResultStr.text ""
  msv_fwInfo : ZyfInfo := ⟨0, 0, (0, 0), 0, none⟩
  errorCount : Int := 0
  progress : Progress := ⟨0, 0, 0⟩

/-- The function `zul_setCommsEndurance`: a `switch` on the profile, with the
`default:` label falling through to `COM_ENDUR_NORM`. -/
def zul_setCommsEndurance (endurance : Nat) (u : Usb) (s : Services) : Usb × Services :=
  let s1 := { s with msv_commEndurance := endurance }
  if endurance = COM_ENDUR_MEDIUM then
    (usb_setCtrlTimeout 10000 (usb_setCtrlRetry 50 (usb_setCtrlDelay 40 u)), s1)
  else if endurance = COM_ENDUR_HIGH then
    (usb_setCtrlTimeout 10000 (usb_setCtrlRetry 200 (usb_setCtrlDelay 40 u)), s1)
  else if endurance = COM_ENDUR_NORM then
    (usb_defaultCtrlTimeout (usb_defaultCtrlRetry (usb_defaultCtrlDelay u)), s1)
  else
    (usb_defaultCtrlTimeout (usb_defaultCtrlRetry (usb_defaultCtrlDelay u)),
      { s1 with msv_commEndurance := COM_ENDUR_NORM })

/-- The function `zul_getCommsEndurance`. -/
def zul_getCommsEndurance (s : Services) : Nat :=
  s.msv_commEndurance

/-! ## Reply handlers (services.c) -/

/-- The handler `default_CTRL_handler`. -/
def default_CTRL_handler (_data : List Nat) (s : Services) : Services := s

/-- The handler `get_response`:
`val = (uint16_t)data[5]; val += (uint16_t)data[6]*0x100; msv_getConfigParam = val`.
The buffer it is handed has `BUF_LEN + 1` bytes. -/
def get_response (data : List Nat) (s : Services) : Services :=
  { s with msv_getConfigParam := u16 (u16 (data.getD 5 0) + u16 (data.getD 6 0) * 0x100) }

/-- The handler `status_response`, the same for `msv_getStatusVal`. -/
def status_response (data : List Nat) (s : Services) : Services :=
  { s with msv_getStatusVal := u16 (u16 (data.getD 5 0) + u16 (data.getD 6 0) * 0x100) }

/-- The handler `handle_BL_response`: a `switch` on `data[0]` that sets the
result string (and copies `BL_REPLY_BUF_LEN` bytes for a version string), then
`msv_BL_reply[0] = data[0]`. -/
def handle_BL_response (data : List Nat) (s : Services) : Services :=
  let d0 := data.getD 0 0
  let s1 : Services :=
    if d0 = BL_RSP_Acknowledge then { s with msv_fwXferResultStr := ResultStr.text "BL_Ack" }
    else if d0 = BL_RSP_VersionStr then
      { s with msv_fwXferResultStr := ResultStr.text "VersionData"
               msv_BL_reply := fun i => data.getD i.val 0 }
    else if d0 = BL_RSP_SIZE_ERROR then
      { s with msv_fwXferResultStr := ResultStr.text "Size error" }
    else if d0 = BL_RSP_BLOCK_WRITTEN then
      { s with msv_fwXferResultStr := ResultStr.text "progress" }
    else if d0 = BL_RSP_PROGRAMMING_COMPLETE then
      { s with msv_fwXferResultStr := ResultStr.text "Programming is complete" }
    else if d0 = BL_RSP_PING then { s with msv_fwXferResultStr := ResultStr.text "PING reply" }
    else if d0 = BL_RSP_CRC_ERROR then
      { s with msv_fwXferResultStr :=
          ResultStr.text "The program received by BL failed CRC validation" }
    else if d0 = BL_RSP_PROGRAMMING_FAILED then
      { s with msv_fwXferResultStr := ResultStr.text "Programming has failed." }
    else { s with msv_fwXferResultStr := ResultStr.text "Unspecified error in communications." }
  { s1 with msv_BL_reply := Function.update s1.msv_BL_reply 0 d0 }

/-! ## Get, set and restore (services.c) -/

/-- The function `zul_getStatusByID(ID, status)`.  The result is the return
value, the value stored through `status` (`none` when nothing is stored), and
the state. -/
def zul_getStatusByID (ID : Nat) (u : Usb) (s : Services) :
    Option (Int × Option Nat × Usb × Services) :=
  match zul_encodeGetStatus (some (List.replicate DUAL_BYTE_MSG_LEN 0)) DUAL_BYTE_MSG_LEN ID with
  | none => none
  | some (ok, msgBuf) =>
    let s1 := { s with msv_xfrIndex := u8 ID }
    if ok then
      match usb_ControlRequest (some status_response) msgBuf DUAL_BYTE_MSG_LEN u s1 with
      | none => none
      | some (retVal, u2, s2) =>
        some (if retVal > 0 then SUCCESS else FAILURE,
          if retVal > 0 then some s2.msv_getStatusVal else none, u2, s2)
    else some (FAILURE, none, u, s1)

/-- The function `zul_getConfigParamByID(ID, value)`, with the result as for
`zul_getStatusByID`. -/
def zul_getConfigParamByID (ID : Nat) (u : Usb) (s : Services) :
    Option (Int × Option Nat × Usb × Services) :=
  match zul_encodeGetRequest (some (List.replicate DUAL_BYTE_MSG_LEN 0)) DUAL_BYTE_MSG_LEN ID with
  | none => none
  | some (ok, msgBuf) =>
    let s1 := { s with msv_xfrIndex := u8 ID }
    if ok then
      match usb_ControlRequest (some get_response) msgBuf DUAL_BYTE_MSG_LEN u s1 with
      | none => none
      | some (retVal, u2, s2) =>
        some (if retVal > 0 then SUCCESS else FAILURE,
          if retVal > 0 then some s2.msv_getConfigParam else none, u2, s2)
    else some (FAILURE, none, u, s1)

/-- The function `zul_setConfigParamByID(ID, value)`. -/
def zul_setConfigParamByID (ID value : Nat) (u : Usb) (s : Services) :
    Option (Int × Usb × Services) :=
  let e := zul_getCommsEndurance s
  let m := zul_setCommsEndurance COM_ENDUR_MEDIUM u s
  match zul_encodeSetRequest (some (List.replicate (DUAL_BYTE_MSG_LEN + 2) 0))
      (DUAL_BYTE_MSG_LEN + 2 : Nat) ID value with
  | none => none
  | some (ok, msgBuf) =>
    let s1 := { m.2 with msv_xfrIndex := u8 ID }
    if ok then
      match usb_ControlRequest (some default_CTRL_handler) msgBuf (DUAL_BYTE_MSG_LEN + 2) m.1 s1 with
      | none => none
      | some (retVal, u2, s2) =>
        let r := zul_setCommsEndurance e u2 s2
        some (if retVal > 0 then SUCCESS else FAILURE, r.1, r.2)
    else
      let r := zul_setCommsEndurance e m.1 s1
      some (FAILURE, r.1, r.2)

/-- The function `zul_restoreDefaults`. -/
def zul_restoreDefaults (u : Usb) (s : Services) : Option (Usb × Services) :=
  match zul_encodeRestoreDefaults (some (List.replicate SINGLE_BYTE_MSG_LEN 0)) 8 with
  | none => none
  | some (ok, msgBuf) =>
    if ok then
      let h := zul_setCommsEndurance COM_ENDUR_HIGH u s
      match usb_ControlRequest (some default_CTRL_handler) msgBuf SINGLE_BYTE_MSG_LEN h.1 h.2 with
      | none => none
      | some (_, u2, s2) => some (usb_defaultCtrlDelay u2, s2)
    else some (u, s)

/-! ## Bootloader frames (protocol.c) -/

/-- The function `zul_encode_BL_Command`: `buffer[0] = command` behind the
guards `buffer == NULL` and `bufLen < 1`. -/
def zul_encode_BL_Command (buffer : Ptr) (bufLen : Int) (command : Nat) : Option (Bool × Ptr) :=
  match buffer with
  | none => some (false, none)
  | some buf =>
    if bufLen < 1 then some (false, some buf)
    else
      match store buf 0 command with
      | none => none
      | some b => some (true, some b)

/-- The function `zul_encode_BL_RebootToApp`. -/
def zul_encode_BL_RebootToApp (buffer : Ptr) (bufLen : Int) : Option (Bool × Ptr) :=
  zul_encode_BL_Command buffer bufLen BLRebootToApp

/-- The call `memset(buffer, 0, n)`; outside the array it is a fault. -/
def memsetZero (buffer : List Nat) (n : Nat) : Option (List Nat) :=
  if n ≤ buffer.length then some (List.replicate n 0 ++ buffer.drop n) else none

/-- The function `zul_encode_BL_ProgDataBlock(buffer, bufLen, fwSize, pinfo)`:
opcode `BLProgramStart`, the four bytes of `fwSize` low byte first, and the two
bytes of `pinfo`, in 64 bytes otherwise zero.  It has no test of `buffer`. -/
def zul_encode_BL_ProgDataBlock (buffer : Ptr) (bufLen : Int) (fwSize : Nat) (pinfo : Nat × Nat) :
    Option (Bool × Ptr) :=
  if bufLen < 64 then some (false, buffer)
  else
    match buffer with
    | none => none
    | some buf =>
      match memsetZero buf 64 with
      | none => none
      | some b0 =>
        match zul_encode_BL_Command (some b0) bufLen BLProgramStart with
        | some (_, some b1) =>
          match store b1 1 (fwSize &&& 0xff) with
          | none => none
          | some b2 =>
            match store b2 2 ((fwSize >>> 8) &&& 0xff) with
            | none => none
            | some b3 =>
              match store b3 3 ((fwSize >>> 16) &&& 0xff) with
              | none => none
              | some b4 =>
                match store b4 4 ((fwSize >>> 24) &&& 0xff) with
                | none => none
                | some b5 =>
                  match store b5 5 pinfo.1 with
                  | none => none
                  | some b6 =>
                    match store b6 6 pinfo.2 with
                    | none => none
                    | some b7 => some (true, some b7)
        | _ => none

/-! ## Firmware image (services.c) -/

/-- What the operating system gives `zul_loadAndValidateZyf` for the path it
is called with: the size `stat` reports (`none` when `stat` fails), whether
`fopen` and `malloc` succeed, the bytes `fread` can deliver, and what the
freshly allocated block holds. -/
structure ZyfFile where
  stat : Option Int
  fopen : Bool
  malloc : Bool
  fread : List Nat
  heap : List Nat

/-- A file that holds the bytes `f` and can be read in full. -/
def ZyfFile.ofBytes (f : List Nat) : ZyfFile :=
  { stat := some (f.length : Int), fopen := true, malloc := true, fread := f, heap := [] }

/-- The function `zul_loadAndValidateZyf`.  The two-byte `memcpy` into
`file_crc` reads the CRC low byte first (the host is little-endian); the test
of the result of `memcpy` against `NULL` never succeeds and is left out.
`zul_ResetSelfCapData` acts on variables of services_sc.c only. -/
def zul_loadAndValidateZyf (file : ZyfFile) (s : Services) : Option (Int × Services) :=
  match file.stat with
  | none => some (FAILURE, { s with msv_fwXferResultStr := ResultStr.strerror })
  | some st_size =>
    if st_size > ZY_MAX_FW_FILE_SIZE ∨ st_size < 5 then
      some (FAILURE, { s with msv_fwXferResultStr := ResultStr.text "size error" })
    else
      let byteCount := (st_size - 4).toNat
      let s1 := { s with msv_fwInfo :=
        { s.msv_fwInfo with byteCount := byteCount, unWrittenBytes := byteCount } }
      if file.fopen = false then
        some (FAILURE, { s1 with msv_fwXferResultStr := ResultStr.strerror })
      else if file.malloc = false then
        some (FAILURE, { s1 with msv_fwInfo := { s1.msv_fwInfo with content := none }
                                 msv_fwXferResultStr := ResultStr.text "malloc error" })
      else
        let got := file.fread.take (4 + byteCount)
        let content := (got ++ (file.heap ++ List.replicate (4 + byteCount) 0)).take (4 + byteCount)
        if got.length < byteCount then
          some (FAILURE, { s1 with msv_fwInfo := { s1.msv_fwInfo with content := none }
                                   msv_fwXferResultStr := ResultStr.text "fread error" })
        else
          match content[byteCount + 2]?, content[byteCount + 3]?, content[byteCount]?,
              content[byteCount + 1]?, zul_getCRC content byteCount with
          | some c0, some c1, some p0, some p1, some test_crc =>
            let file_crc := u16 (c0 + 256 * c1)
            if file_crc = test_crc then
              some (SUCCESS, { s1 with
                msv_fwInfo := { s1.msv_fwInfo with crc := file_crc, pinfo := (p0, p1),
                                                   content := some content }
                msv_fwXferResultStr := ResultStr.text "ZYF CRC pass. File OK." })
            else
              some (FAILURE, { s1 with
                msv_fwInfo := { s1.msv_fwInfo with crc := u16 (2 ^ 16 - 1), pinfo := (0, p1),
                                                   byteCount := 0, content := none }
                msv_fwXferResultStr := ResultStr.text "CRC filecheck failed" })
          | _, _, _, _, _ => none

/-- The function `zul_BLresetPktCount`. -/
def zul_BLresetPktCount (s : Services) : Services :=
  { s with msv_packetCounter := 0 }

/-- The function `zul_getZyfXferResultStr`. -/
def zul_getZyfXferResultStr (s : Services) : ResultStr :=
  s.msv_fwXferResultStr

/-- The function `zul_getFwTransferCount`. -/
def zul_getFwTransferCount (s : Services) : Int :=
  if s.msv_fwInfo.byteCount = 0 then -1
  else castInt (s.msv_fwInfo.byteCount / ZY_BL_MAX_DATA.toNat)

/-- The function `zul_testProgDataBlock`.  Of the 65 bytes of `txBuffer` the
first 64 are set; the last one is never read. -/
def zul_testProgDataBlock (u : Usb) (s : Services) : Option (Int × Usb × Services) :=
  if s.msv_fwInfo.byteCount = 0 then some (FAILURE, u, s)
  else
    match memsetZero (List.replicate 65 0) 64 with
    | none => none
    | some txBuffer =>
      match zul_encode_BL_ProgDataBlock (some txBuffer) 64 s.msv_fwInfo.byteCount
          s.msv_fwInfo.pinfo with
      | none => none
      | some (_, buf) =>
        match usb_ControlRequest (some handle_BL_response) buf 64 u s with
        | none => none
        | some (_, u2, s2) =>
          if s2.msv_BL_reply 0 ≠ BL_RSP_Acknowledge then some (FAILURE, u2, s2)
          else some (SUCCESS, u2, s2)

/-- Why a run of the code has no result: an access outside an array, a
division by zero, or (for the model only) a loop that outruns its bound. -/
inductive Fault where
  | outOfBounds
  | divisionByZero
  | loopBound
  deriving DecidableEq

/-- A run of the code: a fault, or the result. -/
inductive Run (α : Type) where
  | fault (f : Fault)
  | done (a : α)

/-- What one block transaction of `zul_transferFirmware` looked like: the
offset `block_start` of the block sent, the value `usb_ControlRequest`
returned, `errorCount` as the test `errorCount > 4` found it, and
`msv_BL_reply[0]` as the `switch` found it, the reply code recorded for the
transaction. -/
structure BlockRecord where
  block_start : Int
  ctrlReqStatus : Int
  errorCount : Int
  reply : Nat
  deriving DecidableEq

/-- The locals `block_start`, `block_end` and `loopCount` of
`zul_transferFirmware`, and the record of the block transactions made so far. -/
structure XferLoop where
  block_start : Int
  block_end : Int
  loopCount : Int
  trace : List BlockRecord

/-- The pointer `msv_fwInfo.content + block_start`.  It is `NULL` only for
`NULL + 0`; an offset from `NULL`, or a negative offset, gives a pointer at
which nothing can be read. -/
def blockPointer (s : Services) (block_start : Int) : Ptr :=
  match s.msv_fwInfo.content with
  | none => if block_start = 0 then none else some []
  | some c => if block_start < 0 then some [] else some (c.drop block_start.toNat)

/-- One turn of the `while` loop of `zul_transferFirmware`.  The first
component of the result is the value the function returns in this turn, or
`none` when the loop goes on. -/
def transferBlock (numBlocks : Int) (l : XferLoop) (u : Usb) (s : Services) :
    Run (Option Int × XferLoop × Usb × Services) :=
  let byteCount := castInt s.msv_fwInfo.byteCount
  let block_end := if l.block_start + ZY_BL_MAX_DATA < byteCount then l.block_start + ZY_BL_MAX_DATA
    else byteCount
  match usb_ControlRequest (some handle_BL_response) (blockPointer s l.block_start)
      ZY_BL_MAX_DATA.toNat u s with
  | none => Run.fault Fault.outOfBounds
  | some (ctrlReqStatus, u1, s1) =>
    let s2 : Services :=
      if ctrlReqStatus < 0 ∨ s1.errorCount > 4 then
        { s1 with msv_BL_reply := Function.update s1.msv_BL_reply 0 BL_RSP_COMMS_ERROR }
      else s1
    let loopCount := l.loopCount + 1
    if numBlocks = 0 then Run.fault Fault.divisionByZero
    else
      let s3 := { s2 with progress := ⟨loopCount, numBlocks, Int.tdiv (100 * loopCount) numBlocks⟩ }
      let reply := s3.msv_BL_reply 0
      let l1 : XferLoop :=
        { block_start := l.block_start, block_end := block_end, loopCount := loopCount,
          trace := l.trace ++ [⟨l.block_start, ctrlReqStatus, s1.errorCount, reply⟩] }
      let goOn (s4 : Services) : Run (Option Int × XferLoop × Usb × Services) :=
        Run.done (none, { l1 with block_start := l.block_start + ZY_BL_MAX_DATA }, u1,
          { s4 with msv_fwInfo := { s4.msv_fwInfo with
              unWrittenBytes :=
                (((s4.msv_fwInfo.byteCount : Int) - block_end) % 2 ^ 32).toNat } })
      let stop (r : Int) (text : String) : Run (Option Int × XferLoop × Usb × Services) :=
        Run.done (some r, l1, u1, { s3 with msv_fwXferResultStr := ResultStr.text text })
      if reply = BL_RSP_Acknowledge then goOn { s3 with errorCount := 0 }
      else if reply = BL_RSP_SIZE_ERROR then stop FAILURE "Size error"
      else if reply = BL_RSP_BLOCK_WRITTEN then
        goOn { s3 with msv_fwXferResultStr := ResultStr.progress, errorCount := 0 }
      else if reply = BL_RSP_PROGRAMMING_COMPLETE then stop SUCCESS "Programming is complete"
      else if reply = BL_RSP_PING then stop FAILURE "PING reply during download - unexpected!"
      else if reply = BL_RSP_BL_VERSIONS then
        stop FAILURE "VERSIONS reply during download - unexpected!"
      else if reply = BL_RSP_CRC_ERROR then
        stop FAILURE "The data sent to the controller has been corrupted. CRC."
      else if reply = BL_RSP_PROGRAMMING_FAILED then stop FAILURE "Programming has failed."
      else if reply = BL_RSP_COMMS_ERROR then stop FAILURE "Unspecified error in communications."
      else if reply = 0 then goOn { s3 with errorCount := s3.errorCount + 1 }
      else goOn s3

/-- The loop `while (block_end < (int)msv_fwInfo.byteCount)`, with a bound on
the number of turns.  When the loop ends, the function returns `SUCCESS`. -/
def transferLoop (numBlocks : Int) : Nat → XferLoop → Usb → Services →
    Run (Int × XferLoop × Usb × Services)
  | 0, l, u, s =>
    if l.block_end < castInt s.msv_fwInfo.byteCount then Run.fault Fault.loopBound
    else Run.done (SUCCESS, l, u, s)
  | fuel + 1, l, u, s =>
    if l.block_end < castInt s.msv_fwInfo.byteCount then
      match transferBlock numBlocks l u s with
      | Run.fault f => Run.fault f
      | Run.done (some r, l1, u1, s1) => Run.done (r, l1, u1, s1)
      | Run.done (none, l1, u1, s1) => transferLoop numBlocks fuel l1 u1 s1
    else Run.done (SUCCESS, l, u, s)

/-- The function `zul_transferFirmware(track)`; `track` only switches console
output on.  The result is the return value, the record of the block
transactions, and the state.  The bound on the turns of the loop is one more
than `byteCount / 64`, which the loop never reaches. -/
def zul_transferFirmware (_track : Bool) (u : Usb) (s : Services) :
    Run (Int × List BlockRecord × Usb × Services) :=
  let numBlocks := Int.tdiv (castInt s.msv_fwInfo.byteCount) ZY_BL_MAX_DATA
  match transferLoop numBlocks (s.msv_fwInfo.byteCount / 64 + 1) ⟨0, 0, 0, []⟩ u
      (zul_BLresetPktCount s) with
  | Run.fault f => Run.fault f
  | Run.done (r, l, u1, s1) => Run.done (r, l.trace, u1, s1)

/-- The function `zul_BL_RebootToApp`: the command is sent with the `NULL`
handler. -/
def zul_BL_RebootToApp (u : Usb) (s : Services) : Option (Bool × Usb × Services) :=
  match zul_encode_BL_RebootToApp (some (List.replicate 2 0)) 2 with
  | none => none
  | some (ok, msgBuf) =>
    if ok = false then some (false, u, s)
    else
      match usb_ControlRequest (none : Option (List Nat → Services → Services)) msgBuf 2 u s with
      | none => none
      | some (retVal, u1, s1) => some (decide (retVal > 0), u1, s1)

/-- The end of `main` of firmwareUpdate.c, lines 423-436:
`result = zul_transferFirmware(true)`, the console message for the result,
`zul_BL_RebootToApp()`.  The result is `result`, the record of the block
transactions, and the state at the end. -/
def firmwareUpdate_finish (u : Usb) (s : Services) :
    Run (Int × List BlockRecord × Usb × Services) :=
  match zul_transferFirmware true u s with
  | Run.fault f => Run.fault f
  | Run.done (result, trace, u1, s1) =>
    match zul_BL_RebootToApp u1 s1 with
    | none => Run.fault Fault.outOfBounds
    | some (_, u2, s2) => Run.done (result, trace, u2, s2)

/-! ## Auxiliary notions for the statements -/

/-- The fault of a run, if it has one. -/
def Run.faultOf {α : Type} : Run α → Option Fault
  | Run.fault f => some f
  | Run.done _ => none

/-- The result of a run, if it has one. -/
def Run.resultOf {α : Type} : Run α → Option α
  | Run.fault _ => none
  | Run.done a => some a

/-- Two states of usb.c agree on the module variables (the device handle, the
bootloader flag, the interface and the three communication parameters). -/
def Usb.sameConfig (u1 u : Usb) : Prop :=
  u1.msv_dev_handle = u.msv_dev_handle ∧ u1.msv_bootloader = u.msv_bootloader ∧
    u1.msv_activeInterface = u.msv_activeInterface ∧ u1.msv_CtrlRetry = u.msv_CtrlRetry ∧
    u1.msv_CtrlDelay = u.msv_CtrlDelay ∧ u1.msv_CtrlTimeout = u.msv_CtrlTimeout

/-- The reply codes at which the `switch` of `zul_transferFirmware` returns:
size error, programming complete, ping, versions, CRC error, programming
failed and comms error. -/
def replyEndsTransfer (reply : Nat) : Bool :=
  reply = BL_RSP_SIZE_ERROR || reply = BL_RSP_PROGRAMMING_COMPLETE || reply = BL_RSP_PING ||
    reply = BL_RSP_BL_VERSIONS || reply = BL_RSP_CRC_ERROR ||
    reply = BL_RSP_PROGRAMMING_FAILED || reply = BL_RSP_COMMS_ERROR

/-- The result string the `switch` of `zul_transferFirmware` sets for a reply
code at which it returns. -/
def replyReason (reply : Nat) : String :=
  if reply = BL_RSP_SIZE_ERROR then "Size error"
  else if reply = BL_RSP_PROGRAMMING_COMPLETE then "Programming is complete"
  else if reply = BL_RSP_PING then "PING reply during download - unexpected!"
  else if reply = BL_RSP_BL_VERSIONS then "VERSIONS reply during download - unexpected!"
  else if reply = BL_RSP_CRC_ERROR then "The data sent to the controller has been corrupted. CRC."
  else if reply = BL_RSP_PROGRAMMING_FAILED then "Programming has failed."
  else "Unspecified error in communications."

/-- The reply code recorded for the block transaction of one turn of the loop
of `zul_transferFirmware`: `msv_BL_reply[0]` as its `switch` finds it. -/
def blockReply (numBlocks : Int) (l : XferLoop) (u : Usb) (s : Services) : Option Nat :=
  match transferBlock numBlocks l u s with
  | Run.fault _ => none
  | Run.done (_, l1, _, _) => l1.trace.getLast?.map (fun b => b.reply)

/-- A device that is open, with ample successful OUT transfers and the given
results for the IN transfers; `retry` is `msv_CtrlRetry`. -/
def openUsb (bootloader : Bool) (retry : Int) (replies : List RxResult) : Usb :=
  { msv_dev_handle := true
    msv_bootloader := bootloader
    msv_activeInterface := 0
    msv_CtrlRetry := retry
    txResults := List.replicate 16 64
    rxResults := replies
    sent := []
    received := 0
    junk := [] }

/-- A state of services.c with an image of `n` bytes loaded (all bytes 7,
hardware info 1 2) and everything else as at program start. -/
def loadedImage (n : Nat) : Services :=
  { msv_fwInfo := ⟨n, n, (1, 2), 0, some (List.replicate (n + 4) 7)⟩ }

/-! ## Interrupt reports (services.c) -/

/-- The report IDs `RAW_DATA` and `HEARTBEAT_REPORT` of `UsbReportID_t`
(zytypes.h). -/
def RAW_DATA : Nat := 6
def HEARTBEAT_REPORT : Nat := 7

/-- The module variables of services.c the raw-data and heartbeat handlers
use.  `msv_image` is the buffer the application has bound (`none` is 0); the
default values are the values the C program starts with. -/
structure Reports where
  msv_xWires : Nat := 0
  msv_yWires : Nat := 0
  msv_RawDataMode : Int := 0
  msv_image : Ptr := none
  msv_rawDataStatus : List Nat := List.replicate 64 0
  msv_heartBeatData : List Nat := List.replicate 64 0
  deriving DecidableEq

/-- One assignment `*(msv_image + (msv_yWires*colIndex+rowIndex)) = *p++` of
`handle_IN_rawdata_mt`: `colIndex` and `rowIndex` as they are then, the image
index, and the byte written. -/
structure CellWrite where
  colIndex : Nat
  rowIndex : Nat
  index : Nat
  value : Nat
  deriving DecidableEq

/-- The loop `for (i=0; i<numCells; i++)` of `handle_IN_rawdata_mt`, with `n`
iterations still to run and `p` at `data + p`.  `rowIndex++` and `colIndex ++`
are on `uint8_t`.  A read outside the packet or a write outside the image is a
fault. -/
def rawdataLoop (xWires yWires : Nat) (data : List Nat) :
    Nat → Nat → Nat → Nat → List Nat → List CellWrite → Option (List Nat × List CellWrite)
  | 0, _, _, _, image, trace => some (image, trace)
  | n + 1, p, colIndex, rowIndex, image, trace =>
    match data[p]? with
    | none => none
    | some v =>
      match store image (yWires * colIndex + rowIndex) v with
      | none => none
      | some image1 =>
        let trace1 := trace ++ [⟨colIndex, rowIndex, yWires * colIndex + rowIndex, v⟩]
        if u8 (rowIndex + 1) = yWires then
          if u8 (colIndex + 1) = xWires then some (image1, trace1)
          else rawdataLoop xWires yWires data n (p + 1) (u8 (colIndex + 1)) 0 image1 trace1
        else rawdataLoop xWires yWires data n (p + 1) colIndex (u8 (rowIndex + 1)) image1 trace1

/-- The handler `handle_IN_rawdata_mt`.  The result is the state and the
record of the writes into the image. -/
def handle_IN_rawdata_mt (data : List Nat) (s : Reports) : Option (Reports × List CellWrite) :=
  match data[0]? with
  | none => none
  | some d0 =>
    if d0 ≠ RAW_DATA then some (s, [])
    else if s.msv_RawDataMode = 0 then some (s, [])
    else
      match s.msv_image with
      | none => some (s, [])
      | some image =>
        match data[1]?, data[2]?, data[3]? with
        | some colIndex, some rowIndex, some numCells =>
          if colIndex ≥ s.msv_xWires ∧ rowIndex ≥ s.msv_yWires then
            if data.length < 64 then none
            else some ({ s with msv_rawDataStatus := data.take 64 }, [])
          else
            match rawdataLoop s.msv_xWires s.msv_yWires data numCells 4 colIndex rowIndex
                image [] with
            | none => none
            | some (image1, trace) => some ({ s with msv_image := some image1 }, trace)
        | _, _, _ => none

/-- The handler `handle_IN_heartbeat`: `memcpy(msv_heartBeatData, data, 64)`
when `*data == HEARTBEAT_REPORT`. -/
def handle_IN_heartbeat (data : List Nat) (s : Reports) : Option Reports :=
  match data[0]? with
  | none => none
  | some d0 =>
    if d0 = HEARTBEAT_REPORT then
      if data.length < 64 then none
      else some { s with msv_heartBeatData := data.take 64 }
    else some s

/-- The function `zul_GetHeartBeatData`.  The result is the pointer returned
(`none` is `NULL`), given as the content of `msv_heartBeatData` it points to,
and the state. -/
def zul_GetHeartBeatData (s : Reports) : Option (Ptr × Reports) :=
  match s.msv_heartBeatData[0]? with
  | none => none
  | some b0 =>
    if b0 = HEARTBEAT_REPORT then
      match store s.msv_heartBeatData 0 0xFF with
      | none => none
      | some hb => some (some hb, { s with msv_heartBeatData := hb })
    else some (none, s)

/-- The type `Contact` (services.h): `uint8_t ID, flags; int x,y;`. -/
structure Contact where
  ID : Nat
  flags : Nat
  x : Int
  y : Int
  deriving DecidableEq

/-- The function `zul_Get1TouchFromData(data, c)`.  The result is the return
value and the contact `*c`; a read outside the packet is a fault. -/
def zul_Get1TouchFromData (data : Ptr) (c : Contact) : Option (Bool × Contact) :=
  match data with
  | none => some (false, c)
  | some d =>
    match d[1]? with
    | none => none
    | some f =>
      let flags := u8 f &&& 0x07
      let c1 := { c with flags := flags }
      let afterSwitch : Option (Contact × Nat) :=
        if flags = 4 ∨ flags = 7 then some (c1, 2)
        else if flags = 3 ∨ flags = 0 then
          match d[2]? with
          | none => none
          | some id => some ({ c1 with ID := u8 id }, 3)
        else some (c1, 2)
      match afterSwitch with
      | none => none
      | some (c2, p) =>
        let touched := decide (flags = 7 ∨ flags = 3)
        match d[p]?, d[p + 1]?, d[p + 2]?, d[p + 3]? with
        | some x0, some x1, some y0, some y1 =>
          some (touched, { c2 with x := ((u8 x0 + 0x100 * u8 x1 : Nat) : Int)
                                   y := ((u8 y0 + 0x100 * u8 y1 : Nat) : Int) })
        | _, _, _, _ => none

/-- What happens to the heartbeat buffer between two heartbeats: a call of
`zul_GetHeartBeatData`, or a packet handed to `handle_IN_heartbeat`. -/
inductive HbEvent where
  | get
  | packet (d : List Nat)

/-- A run of such events; the result lists what the calls of
`zul_GetHeartBeatData` returned. -/
def hbRun : List HbEvent → Reports → Option (List Ptr × Reports)
  | [], s => some ([], s)
  | HbEvent.get :: rest, s =>
    match zul_GetHeartBeatData s with
    | none => none
    | some (r, s1) =>
      match hbRun rest s1 with
      | none => none
      | some (rs, s2) => some (r :: rs, s2)
  | HbEvent.packet d :: rest, s =>
    match handle_IN_heartbeat d s with
    | none => none
    | some s1 => hbRun rest s1

/-! ## Self-capacitance raw data (services_sc.c) -/

/-- The type `ZXY_sensorSize` (services.h). -/
structure ZXY_sensorSize where
  xWires : Nat
  yWires : Nat
  deriving DecidableEq

/-- The type `ZXY100_rawImage` (services_sc.h); `wireSig` is `uint8_t wireSig[128]`. -/
structure ZXY100_rawImage where
  sensorSz : ZXY_sensorSize
  allValid : Bool
  wireSig : List Nat
  deriving DecidableEq

/-- The type `ZXY110_rawImage` (services_sc.h); `wireSig` is `uint16_t wireSig[128]`. -/
structure ZXY110_rawImage where
  sensorSz : ZXY_sensorSize
  allValid : Bool
  wireSig : List Nat
  deriving DecidableEq

/-- The module variables `msv_RawDataMode100` and `msv_image100` of
services_sc.c; `msv_image100` is a `void *` the handlers cast to the image type
`I` of their generation (`none` is 0). -/
structure SelfCap (I : Type) where
  msv_RawDataMode100 : Int
  msv_image100 : Option I

/-- The assignment `*wire = v` through a `uint16_t *` into `wireSig`. -/
def store16 (wireSig : List Nat) (i : Nat) (v : Nat) : Option (List Nat) :=
  if i < wireSig.length then some (wireSig.set i (u16 v)) else none

/-- The loop `for (i=0; i<wiresInPacket; i++) *wire++ = *p++;` of
`handle_IN_rawdata_100`, with `n` iterations still to run, `p` at `data + p`
and `wire` at `wireSig + w`. -/
def wireLoop100 (data : List Nat) : Nat → Nat → Nat → List Nat → Option (List Nat)
  | 0, _, _, wireSig => some wireSig
  | n + 1, p, w, wireSig =>
    match data[p]? with
    | none => none
    | some v =>
      match store wireSig w v with
      | none => none
      | some wireSig1 => wireLoop100 data n (p + 1) (w + 1) wireSig1

/-- The loop of `handle_IN_rawdata_110`:
`uint16_t v = (*p++); v += (0x100 * (*p++)); *wire++ = v;`. -/
def wireLoop110 (data : List Nat) : Nat → Nat → Nat → List Nat → Option (List Nat)
  | 0, _, _, wireSig => some wireSig
  | n + 1, p, w, wireSig =>
    match data[p]?, data[p + 1]? with
    | some lo, some hi =>
      match store16 wireSig w (u16 lo + 0x100 * hi) with
      | none => none
      | some wireSig1 => wireLoop110 data n (p + 2) (w + 1) wireSig1
    | _, _ => none

/-- The handler `handle_IN_rawdata_100`. -/
def handle_IN_rawdata_100 (data : List Nat) (s : SelfCap ZXY100_rawImage) :
    Option (SelfCap ZXY100_rawImage) :=
  match data[0]? with
  | none => none
  | some d0 =>
    if d0 ≠ RAW_DATA then some s
    else if s.msv_RawDataMode100 = 0 then some s
    else
      match s.msv_image100 with
      | none => some s
      | some rawImg =>
        match data[1]? with
        | none => none
        | some offset =>
          let plan : Nat × Nat × ZXY100_rawImage :=
            if offset = 0 then
              (0, 62, if rawImg.sensorSz.xWires = 16 then { rawImg with allValid := true }
                else rawImg)
            else if offset = 1 then
              (62, 62, if rawImg.sensorSz.xWires = 32 then { rawImg with allValid := true }
                else rawImg)
            else if offset = 2 then
              (124, 4, if rawImg.sensorSz.xWires = 64 then { rawImg with allValid := true }
                else rawImg)
            else (0, 0, rawImg)
          match wireLoop100 data plan.2.1 2 plan.1 plan.2.2.wireSig with
          | none => none
          | some wireSig1 =>
            some { s with msv_image100 := some { plan.2.2 with wireSig := wireSig1 } }

/-- The handler `handle_IN_rawdata_110`. -/
def handle_IN_rawdata_110 (data : List Nat) (s : SelfCap ZXY110_rawImage) :
    Option (SelfCap ZXY110_rawImage) :=
  match data[0]? with
  | none => none
  | some d0 =>
    if d0 ≠ RAW_DATA then some s
    else if s.msv_RawDataMode100 = 0 then some s
    else
      match s.msv_image100 with
      | none => some s
      | some rawImg =>
        match data[1]? with
        | none => none
        | some offset =>
          let plan : Nat × Nat × ZXY110_rawImage :=
            if offset = 0 then (0, 31, rawImg)
            else if offset = 1 then
              (31, 31, if rawImg.sensorSz.xWires = 16 then { rawImg with allValid := true }
                else rawImg)
            else if offset = 2 then
              (62, 2, if rawImg.sensorSz.xWires = 32 then { rawImg with allValid := true }
                else rawImg)
            else (0, 0, rawImg)
          match wireLoop110 data plan.2.1 2 plan.1 plan.2.2.wireSig with
          | none => none
          | some wireSig1 =>
            some { s with msv_image100 := some { plan.2.2 with wireSig := wireSig1 } }

/-- The blocks of the claim for the ZXY100 handler: block offset byte to first
wire position and number of wire values (62, 62 and 4 values at positions 0, 62
and 124; nothing for another offset). -/
def wireBlock100 (offset : Nat) : Nat × Nat :=
  if offset = 0 then (0, 62) else if offset = 1 then (62, 62)
  else if offset = 2 then (124, 4) else (0, 0)

/-- The blocks of the claim for the ZXY110 handler: 31, 31 and 2 values at
positions 0, 31 and 62; nothing for another offset. -/
def wireBlock110 (offset : Nat) : Nat × Nat :=
  if offset = 0 then (0, 31) else if offset = 1 then (31, 31)
  else if offset = 2 then (62, 2) else (0, 0)

/-! ## The CPU-ID string (services.c) -/

/-- The index `STR_CPUID` of `VerIndex` (protocol.h). -/
def STR_CPUID : Nat := 4

/-- The status indices of zxy110.h and zxymt.h. -/
def ZXY110_SI_PROCESSOR_ID_0 : Nat := 37
def ZXYMT_SI_PROCESSOR_ID_BASE : Nat := 17

/-- The function `usb_getDevicePID`: `none` is the return value false. -/
def usb_getDevicePID (u : Usb) : Option Int :=
  if u.msv_device_pid < 0 then none else some u.msv_device_pid

/-- The function `zul_getDevicePID`. -/
def zul_getDevicePID (u : Usb) : Option Int :=
  usb_getDevicePID u

/-- The function `zul_byteSwap`:
`left = (*status & 0xff00) >> 8; right = (*status & 0x00ff) << 8; *status = (uint16_t)(left | right)`. -/
def zul_byteSwap (status : Nat) : Nat :=
  u16 (((status &&& 0xff00) >>> 8) ||| ((status &&& 0x00ff) <<< 8))

/-- The character of one hexadecimal digit in upper case. -/
def hexChar (d : Nat) : Nat :=
  if d < 10 then 48 + d else 55 + d

/-- What `sprintf(..., "%04X", status)` writes for a `uint16_t status`: four
hexadecimal digits in upper case (the terminating 0 is left out). -/
def sprintf04X (status : Nat) : List Nat :=
  [hexChar (status / 4096 % 16), hexChar (status / 256 % 16), hexChar (status / 16 % 16),
    hexChar (status % 16)]

/-- The call `snprintf(v, len, "%s", str)`: the characters stored in `v` in
front of the terminating 0, or `none` when `len` is 0 and nothing is stored.
A negative `len` is a huge `size_t`. -/
def snprintfS (len : Int) (str : List Nat) : Option (List Nat) :=
  if len = 0 then none
  else if len < 0 then some str
  else some (str.take (len.toNat - 1))

/-- The loop `for (x=0; x<6; x++)` of `zul_getVersionStr`, with `n` iterations
still to run.  Each `sprintf(hxStr+(x*4), "%04X", status)` puts its four
characters behind those already in `hxStr`.  `indet x` is the value the
uninitialised `status` holds when `zul_getStatusByID` stores nothing. -/
def cpuIdLoop (baseCI : Nat) (indet : Nat → Nat) :
    Nat → Nat → List Nat → Usb → Services → Option (List Nat × Usb × Services)
  | 0, _, hxStr, u, s => some (hxStr, u, s)
  | n + 1, x, hxStr, u, s =>
    match zul_getStatusByID (baseCI + x) u s with
    | none => none
    | some (_, stored, u1, s1) =>
      let status := stored.getD (u16 (indet x))
      cpuIdLoop baseCI indet n (x + 1) (hxStr ++ sprintf04X (zul_byteSwap status)) u1 s1

/-- The function `zul_getVersionStr(verType, v, len)` called with
`verType == STR_CPUID`, where the path below the CPU-ID branch is not reached.
For the product ID `ZXY100_PRODUCT_ID` the call of `zul_getZxy100VersionStr`
(services_sc.c) is taken as given by `zxy100`: its return value, what it
stored in `v`, and the state it leaves.  The result is the return value, the
characters stored in `v` (`none` when nothing is stored), and the state. -/
def zul_getVersionStr_STR_CPUID (len : Int)
    (zxy100 : Usb → Services → Int × Option (List Nat) × Usb × Services) (indet : Nat → Nat)
    (u : Usb) (s : Services) : Option (Int × Option (List Nat) × Usb × Services) :=
  match zul_getDevicePID u with
  | none => some (FAILURE, none, u, s)
  | some pid =>
    let old : Int × Option (List Nat) × Usb × Services :=
      if pid = ZXY100_PRODUCT_ID then zxy100 u s else (FAILURE, none, u, s)
    if pid = ZXY100_PRODUCT_ID ∧ old.1 = SUCCESS then some old
    else
      let baseCI := if pid ≠ ZXY110_PRODUCT_ID then ZXYMT_SI_PROCESSOR_ID_BASE
        else ZXY110_SI_PROCESSOR_ID_0
      match cpuIdLoop baseCI indet 6 0 [] old.2.2.1 old.2.2.2 with
      | none => none
      | some (hxStr, u1, s1) =>
        some (SUCCESS, match snprintfS len hxStr with
          | some v => some v
          | none => old.2.1, u1, s1)

/-- The OUT transfer that carries the status request for the index `ID`: the
frame of `zul_encodeGetStatus`, padded to 64 bytes. -/
def statusRequest (u : Usb) (ID : Nat) : OutTransfer :=
  ⟨if u.msv_bootloader then 0x0300 else 0x0305, u.msv_activeInterface,
    frameBytes (EncodeCall.GetStatus ID).payload ++ List.replicate 55 0⟩

/-! ## Loading a ZYS file (loadZys.c) -/

/-- The texts `"# Validati"` (the 10 characters `strncmp` compares),
`"VERSION"`, `"STATUS"`, `"ARVAL"` and `"CONFIG"`, as character codes. -/
def zysValidationTag : List Nat := [35, 32, 86, 97, 108, 105, 100, 97, 116, 105]
def zysVERSION : List Nat := [86, 69, 82, 83, 73, 79, 78]
def zysSTATUS : List Nat := [83, 84, 65, 84, 85, 83]
def zysARVAL : List Nat := [65, 82, 86, 65, 76]
def zysCONFIG : List Nat := [67, 79, 78, 70, 73, 71]

/-- What the successive calls `fgets(lineBuffer, 180, fp)` deliver for the
file content: at most 179 characters each, ending with the first line feed;
`cur` holds the characters the current call has read so far. -/
def fgetsChunks : List Nat → List Nat → List (List Nat)
  | [], cur => if cur = [] then [] else [cur]
  | c :: cs, cur =>
    if c = 10 ∨ (cur ++ [c]).length = 179 then (cur ++ [c]) :: fgetsChunks cs []
    else fgetsChunks cs (cur ++ [c])

/-- The C string at the start of a buffer: the characters in front of the
first 0. -/
def cstr (buffer : List Nat) : List Nat :=
  buffer.takeWhile (fun c => c ≠ 0)

/-- The call `strstr(haystack, needle) != NULL`. -/
def strstr : List Nat → List Nat → Bool
  | [], needle => needle.isEmpty
  | c :: cs, needle => needle.isPrefixOf (c :: cs) || strstr cs needle

/-- The string behind the last space, `strrchr(s, ' ') + 1`; `none` when
`strrchr` returns `NULL`. -/
def afterLastSpace : List Nat → Option (List Nat)
  | [] => none
  | c :: cs =>
    match afterLastSpace cs with
    | some r => some r
    | none => if c = 32 then some cs else none

/-- The test of `loadConfig` for a line that goes into the CRC:
`strstr(lineBuffer, "VERSION") || ... "STATUS" ... "ARVAL" ... "CONFIG"`. -/
def zysHasKeyword (s : List Nat) : Bool :=
  strstr s zysVERSION || strstr s zysSTATUS || strstr s zysARVAL || strstr s zysCONFIG

/-- The cropping of `loadConfig`:
`lineBuffer[len-1] = '\0'; c = lineBuffer[len-2]; if (strchr("\r\n", c)) lineBuffer[len-2] = '\0';`
for a string of at least two characters (a line with a keyword has five). -/
def zysCrop (s : List Nat) : List Nat :=
  if s.getD (s.length - 2) 0 = 13 ∨ s.getD (s.length - 2) 0 = 10 then s.take (s.length - 2)
  else s.take (s.length - 1)

/-- The locals `crcFromFile`, `crcIn` and `setCommand` (with `cmdIndex` its
length) of `loadConfig`, as C strings. -/
structure ZysScan where
  crcFromFile : List Nat
  crcIn : List Nat
  setCommand : List (List Nat)
  deriving DecidableEq

/-- The body of the loop `while (fgets(lineBuffer, 180, fp))` of `loadConfig`
for one line.  `strcat` beyond `crcIn[10000]` and a command beyond
`setCommand[256]` are faults.  After the cropping of a line that holds
`"CONFIG"` the character `lineBuffer[7]` is inside the line or is a 0 the
cropping or `fgets` has put there, so `lineBuffer+7` is the string
`drop 7`. -/
def zysLine (line : List Nat) (st : ZysScan) : Option ZysScan :=
  let s := cstr line
  let st1 : ZysScan :=
    if s.take 10 = zysValidationTag then
      match afterLastSpace s with
      | some p => { st with crcFromFile := p.take 4 }
      | none => st
    else st
  if zysHasKeyword s then
    let cropped := zysCrop s
    if 10000 ≤ st1.crcIn.length + cropped.length then none
    else
      let st2 := { st1 with crcIn := st1.crcIn ++ cropped }
      if strstr cropped zysCONFIG then
        if 256 ≤ st2.setCommand.length then none
        else some { st2 with setCommand := st2.setCommand ++ [(cropped.drop 7).take 10] }
      else some st2
  else some st1

/-- The loop `while (fgets(lineBuffer, 180, fp))` over the lines read. -/
def zysScan : List (List Nat) → ZysScan → Option ZysScan
  | [], st => some st
  | line :: rest, st =>
    match zysLine line st with
    | none => none
    | some st1 => zysScan rest st1

/-- The function `loadConfig` of loadZys.c for the content of the file
`g_zysFile` (`none` when `fopen` fails).  The result lists, in order, the
texts `setCommand[x]` from which `strtol` reads `index` and `value` for the
calls `zul_setConfigParamByID(index, value)`; the numbers `strtol` reads are
not modelled. -/
def loadConfig (file : Option (List Nat)) : Option (List (List Nat)) :=
  match file with
  | none => some []
  | some f =>
    match zysScan (fgetsChunks f []) ⟨[], [], []⟩ with
    | none => none
    | some st =>
      match zul_getCRC st.crcIn st.crcIn.length with
      | none => none
      | some crc16 =>
        let calculatedCRC := sprintf04X crc16
        let loadData : Bool :=
          if st.crcFromFile = [] then true
          else if st.crcFromFile ≠ calculatedCRC then false
          else true
        if loadData then some st.setCommand else some []

/-- The terminator of a text line: a line feed, after a carriage return when
`crlf` is set. -/
def zysTerminator (crlf : Bool) : List Nat :=
  if crlf then [13, 10] else [10]

/-- The content of a text file given by its lines, each with the text in front
of the terminator and the kind of terminator. -/
def zysFile (ls : List (List Nat × Bool)) : List Nat :=
  ls.flatMap (fun l => l.1 ++ zysTerminator l.2)

/-- The concatenation of all lines that hold `VERSION`, `STATUS`, `ARVAL` or
`CONFIG`, terminators removed. -/
def zysCrcText (ls : List (List Nat × Bool)) : List Nat :=
  (ls.filter (fun l => zysHasKeyword l.1)).flatMap (fun l => l.1)

/-- The command texts of the lines that hold `CONFIG`: up to ten characters
behind the first seven of the line. -/
def zysCommands (ls : List (List Nat × Bool)) : List (List Nat) :=
  (ls.filter (fun l => strstr l.1 zysCONFIG)).map (fun l => (l.1.drop 7).take 10)

/-- The lines that start with the ten characters `# Validati`. -/
def zysValidationLines (ls : List (List Nat × Bool)) : List (List Nat × Bool) :=
  ls.filter (fun l => decide (l.1.take 10 = zysValidationTag))

/-- The value of an upper-case hexadecimal digit character; `none` for any
other character. -/
def hexDigitValue (c : Nat) : Option Nat :=
  if 48 ≤ c ∧ c ≤ 57 then some (c - 48)
  else if 65 ≤ c ∧ c ≤ 70 then some (c - 55)
  else none

/-- The number that a string of upper-case hexadecimal digits writes, the
most significant digit first; `none` when a character is no such digit. -/
def hexNumber (str : List Nat) : Option Nat :=
  str.foldl (fun acc c =>
    match acc, hexDigitValue c with
    | some a, some d => some (16 * a + d)
    | _, _ => none) (some 0)

/-! ## Lemmas on the CRC -/

theorem castInt_of_lt {n : Nat} (h : n < 2 ^ 31) : castInt n = (n : Int) := by
  have h1 : n % 2 ^ 32 = n := Nat.mod_eq_of_lt (by omega)
  unfold castInt
  rw [h1, if_pos h]

theorem xor_mod_two_pow (a b n : Nat) :
    (a ^^^ b) % 2 ^ n = (a % 2 ^ n) ^^^ (b % 2 ^ n) := by
  apply Nat.eq_of_testBit_eq
  intro i
  simp only [Nat.testBit_mod_two_pow, Nat.testBit_xor]
  by_cases h : i < n <;> simp [h]

theorem crcBitStep_eq_shift (r : Nat) : crcBitStep r = crc16_shift r := by
  have htest : ((r &&& 0x8000) > 0) ↔ r / 2 ^ 15 % 2 = 1 := by
    have h := Nat.and_two_pow r 15
    have h2 := Nat.testBit_to_div_mod (x := r) (i := 15)
    norm_num at h h2 ⊢
    rw [h]
    by_cases hb : r.testBit 15 = true
    · rw [hb] at h2
      simp [hb]
      simpa using h2.symm
    · simp only [Bool.not_eq_true] at hb
      rw [hb] at h2
      simp [hb]
      simpa using h2.symm
  unfold crcBitStep crc16_shift u16
  have hx : ((r <<< 1) ^^^ 0x1021) % 65536 = (2 * r % 2 ^ 16) ^^^ 0x1021 := by
    have := xor_mod_two_pow (r <<< 1) 0x1021 16
    norm_num at this ⊢
    rw [this, Nat.shiftLeft_eq]
    norm_num [Nat.mul_comm]
  have hs : (r <<< 1) % 65536 = 2 * r % 2 ^ 16 := by
    rw [Nat.shiftLeft_eq]; norm_num [Nat.mul_comm]
  by_cases hc : (r &&& 0x8000) > 0
  · rw [if_pos hc, if_pos (htest.mp hc), hx]
  · rw [if_neg hc, if_neg (fun h => hc (htest.mpr h)), hs]

theorem crcBitLoop_eq_iterate (n r : Nat) : crcBitLoop n r = crc16_shift^[n] r := by
  induction n generalizing r with
  | zero => rfl
  | succ n ih => rw [crcBitLoop, ih, crcBitStep_eq_shift, Function.iterate_succ_apply]

theorem crcByteStep_eq (crc b : Nat) :
    crcBitLoop 8 (u16 (crc ^^^ (b <<< 8))) = crc16_byte crc b := by
  rw [crcBitLoop_eq_iterate, crc16_byte, Nat.shiftLeft_eq]
  rfl

theorem crcByteLoop_eq_foldl (buf : List Nat) (n i crc : Nat) (h : i + n ≤ buf.length) :
    crcByteLoop buf n i crc = some (((buf.drop i).take n).foldl crc16_byte crc) := by
  induction n generalizing i crc with
  | zero => simp [crcByteLoop]
  | succ n ih =>
    have hi : i < buf.length := by omega
    rw [crcByteLoop, List.getElem?_eq_getElem hi]
    simp only
    rw [ih (i + 1) _ (by omega), crcByteStep_eq]
    rw [List.drop_eq_getElem_cons hi, List.take_succ_cons, List.foldl_cons]

theorem zul_getCRC_append (b rest : List Nat) (h : b.length < 2 ^ 31) :
    zul_getCRC (b ++ rest) b.length = some (crc16_reference b) := by
  unfold zul_getCRC
  rw [castInt_of_lt h, Int.toNat_ofNat, crcByteLoop_eq_foldl _ _ _ _ (by simp)]
  simp [crc16_reference]

/-! ## Lemmas on frame assembly -/

theorem store_append_cons (pre : List Nat) (x v : Nat) (tl : List Nat) (k : Nat)
    (hk : pre.length = k) :
    store (pre ++ x :: tl) k v = some (pre ++ u8 v :: tl) := by
  subst hk
  have hlt : pre.length < (pre ++ x :: tl).length := by simp
  rw [store, if_pos hlt]
  congr 1
  induction pre with
  | nil => rfl
  | cons a pre ih => simp

theorem payloadLoop_append (payload : List Nat) (n i ptr : Nat) (pre mid post : List Nat)
    (hpre : pre.length = ptr + 1) (hmid : mid.length = n) (hp : i + n ≤ payload.length) :
    payloadLoop payload n i ptr (pre ++ mid ++ post) =
      some (ptr + n, pre ++ ((payload.drop i).take n).map u8 ++ post) := by
  induction n generalizing i ptr pre mid with
  | zero =>
    have : mid = [] := List.length_eq_zero.mp hmid
    simp [payloadLoop, this]
  | succ n ih =>
    match mid, hmid with
    | m :: mid1, hmid =>
      have hi : i < payload.length := by omega
      have hst : store (pre ++ (m :: mid1) ++ post) (ptr + 1) payload[i] =
          some ((pre ++ [u8 payload[i]]) ++ mid1 ++ post) := by
        have := store_append_cons pre m payload[i] (mid1 ++ post) (ptr + 1) hpre
        simpa using this
      rw [payloadLoop, List.getElem?_eq_getElem hi]
      simp only [hst]
      rw [ih (i + 1) (ptr + 1) (pre ++ [u8 payload[i]]) mid1 (by simp [hpre])
        (by simpa using hmid) (by omega)]
      rw [List.drop_eq_getElem_cons hi, List.take_succ_cons]
      simp [Nat.add_assoc, Nat.add_comm 1 n]

theorem framePayload_cons (a0 a1 a2 a3 : Nat) (mid : List Nat) (c0 c1 c2 : Nat)
    (rest payload : List Nat) (bufLen payloadLen : Int)
    (hmid : (mid.length : Int) = payloadLen) (hp : mid.length ≤ payload.length)
    (hlen : 7 + payloadLen ≤ bufLen) (hint : mid.length + 2 < 2 ^ 31) :
    framePayload (some (a0 :: a1 :: a2 :: a3 :: (mid ++ c0 :: c1 :: c2 :: rest))) bufLen
        payload payloadLen =
      some (true, some (frameBytes ((payload.take mid.length).map u8) ++ rest)) := by
  subst hmid
  set p := (payload.take mid.length).map u8 with hpdef
  have hplen : p.length = mid.length := by simp [hpdef, hp]
  have h0 : store (a0 :: a1 :: a2 :: a3 :: (mid ++ c0 :: c1 :: c2 :: rest)) 0 ZCC =
      some (u8 ZCC :: a1 :: a2 :: a3 :: (mid ++ c0 :: c1 :: c2 :: rest)) := by
    simp [store]
  have h1 : store (u8 ZCC :: a1 :: a2 :: a3 :: (mid ++ c0 :: c1 :: c2 :: rest)) 1 STX =
      some (u8 ZCC :: u8 STX :: a2 :: a3 :: (mid ++ c0 :: c1 :: c2 :: rest)) := by
    simp [store]
  have h3 : store (u8 ZCC :: u8 STX :: a2 :: a3 :: (mid ++ c0 :: c1 :: c2 :: rest)) 3 MasterRequest =
      some (u8 ZCC :: u8 STX :: a2 :: u8 MasterRequest :: (mid ++ c0 :: c1 :: c2 :: rest)) := by
    simp [store]
  have hloop : payloadLoop payload mid.length 0 3
      (u8 ZCC :: u8 STX :: a2 :: u8 MasterRequest :: (mid ++ c0 :: c1 :: c2 :: rest)) =
      some (3 + mid.length,
        u8 ZCC :: u8 STX :: a2 :: u8 MasterRequest :: (p ++ c0 :: c1 :: c2 :: rest)) := by
    have := payloadLoop_append payload mid.length 0 3 [u8 ZCC, u8 STX, a2, u8 MasterRequest] mid
      (c0 :: c1 :: c2 :: rest) rfl rfl (by omega)
    simpa [hpdef] using this
  have hL : store (u8 ZCC :: u8 STX :: a2 :: u8 MasterRequest :: (p ++ c0 :: c1 :: c2 :: rest)) 2
      (lsb_int (((3 + mid.length : Nat) : Int) - 1 + 2)) =
      some (u8 ZCC :: u8 STX :: lsb_int ((p.length : Int) + 4) :: u8 MasterRequest ::
        (p ++ c0 :: c1 :: c2 :: rest)) := by
    have hu : u8 (lsb_int (((3 + mid.length : Nat) : Int) - 1 + 2)) =
        lsb_int ((p.length : Int) + 4) := by
      have e : (((3 + mid.length : Nat) : Int) - 1 + 2) = (p.length : Int) + 4 := by
        rw [hplen]; push_cast; ring
      rw [e]
      unfold lsb_int u8
      omega
    push_cast at hu
    simp [store, hu]
  set packet := lsb_int ((p.length : Int) + 4) :: u8 MasterRequest :: p with hpk
  have hcrc : zul_getCRC
      ((u8 ZCC :: u8 STX :: lsb_int ((p.length : Int) + 4) :: u8 MasterRequest ::
        (p ++ c0 :: c1 :: c2 :: rest)).drop 2) (((3 + mid.length : Nat) : Int) - 1).toNat =
      some (crc16_reference packet) := by
    have e : (((3 + mid.length : Nat) : Int) - 1).toNat = packet.length := by
      simp [hpk, hplen]; omega
    rw [e]
    have := zul_getCRC_append packet (c0 :: c1 :: c2 :: rest) (by simp [hpk, hplen]; omega)
    simpa [hpk] using this
  have hc0 := store_append_cons (u8 ZCC :: u8 STX :: packet) c0 (lsb_16 (crc16_reference packet))
    (c1 :: c2 :: rest) (3 + mid.length + 1) (by simp [hpk, hplen]; omega)
  have hc1 := store_append_cons (u8 ZCC :: u8 STX :: packet ++ [u8 (lsb_16 (crc16_reference packet))])
    c1 (msb_16 (crc16_reference packet)) (c2 :: rest) (3 + mid.length + 2)
    (by simp [hpk, hplen]; omega)
  have hc2 := store_append_cons (u8 ZCC :: u8 STX :: packet ++
    [u8 (lsb_16 (crc16_reference packet)), u8 (msb_16 (crc16_reference packet))])
    c2 ETX rest (3 + mid.length + 3) (by simp [hpk, hplen]; omega)
  have hl16 : u8 (lsb_16 (crc16_reference packet)) = lsb_16 (crc16_reference packet) := by
    unfold lsb_16 u8; omega
  have hm16 : u8 (msb_16 (crc16_reference packet)) = msb_16 (crc16_reference packet) := by
    unfold msb_16 u8; omega
  rw [hl16] at hc0 hc1 hc2
  rw [hm16] at hc1 hc2
  simp only [hpk, List.cons_append, List.nil_append, List.append_assoc] at hc0 hc1 hc2
  unfold framePayload
  simp only [if_neg (not_lt.mpr hlen)]
  simp only [h0, h1, h3, Int.toNat_ofNat, hloop, hL, hcrc, hc0, hc1, hc2, Option.bind_eq_bind,
    Option.some_bind, frameBytes, hpk, List.cons_append, List.nil_append, List.append_assoc]

theorem buffer_split (buf : List Nat) (n : Nat) (h : 7 + n ≤ buf.length) :
    ∃ a0 a1 a2 a3 mid c0 c1 c2, mid.length = n ∧
      buf = a0 :: a1 :: a2 :: a3 :: (mid ++ c0 :: c1 :: c2 :: buf.drop (7 + n)) := by
  rcases buf with _ | ⟨a0, _ | ⟨a1, _ | ⟨a2, _ | ⟨a3, tl⟩⟩⟩⟩
  · simp at h
  · simp at h; omega
  · simp at h; omega
  · simp at h; omega
  · have htl : n + 3 ≤ tl.length := by simp at h; omega
    have hd : 3 ≤ (tl.drop n).length := by simp; omega
    rcases hdr : tl.drop n with _ | ⟨c0, _ | ⟨c1, _ | ⟨c2, rest⟩⟩⟩
    · rw [hdr] at hd; simp at hd
    · rw [hdr] at hd; simp at hd
    · rw [hdr] at hd; simp at hd
    · refine ⟨a0, a1, a2, a3, tl.take n, c0, c1, c2, by simp; omega, ?_⟩
      have e2 : (tl.drop n).drop 3 = tl.drop (n + 3) := List.drop_drop 3 n tl
      have e1 : (a0 :: a1 :: a2 :: a3 :: tl).drop (7 + n) = rest := by
        have : 7 + n = (n + 3) + 1 + 1 + 1 + 1 := by omega
        rw [this, List.drop_succ_cons, List.drop_succ_cons, List.drop_succ_cons,
          List.drop_succ_cons, ← e2, hdr]
        rfl
      rw [e1, ← hdr, List.take_append_drop]

/-- What `framePayload` does when the buffer is large enough: it returns `true`
and the buffer starts with the complete frame, the rest being untouched. -/
theorem framePayload_ok (buf payload : List Nat) (bufLen : Int) (n : Nat)
    (hp : n ≤ payload.length) (hlen : 7 + (n : Int) ≤ bufLen) (hbuf : 7 + n ≤ buf.length)
    (hint : n + 2 < 2 ^ 31) :
    framePayload (some buf) bufLen payload n =
      some (true, some (frameBytes ((payload.take n).map u8) ++ buf.drop (7 + n))) := by
  obtain ⟨a0, a1, a2, a3, mid, c0, c1, c2, hmid, hb⟩ := buffer_split buf n hbuf
  have := framePayload_cons a0 a1 a2 a3 mid c0 c1 c2 (buf.drop (7 + n)) payload bufLen n
    (by rw [hmid]) (by omega) hlen (by omega)
  rw [hmid, ← hb] at this
  exact this

/-- What `framePayload` does when `bufLen` is too small: it returns `false` and
leaves the buffer as it was. -/
theorem framePayload_short (buf payload : List Nat) (bufLen payloadLen : Int)
    (h : bufLen < 7 + payloadLen) :
    framePayload (some buf) bufLen payload payloadLen = some (false, some buf) := by
  simp [framePayload, h]

theorem store_some {b b1 : List Nat} {i v : Nat} (h : store b i v = some b1) :
    i < b.length ∧ b1.length = b.length := by
  unfold store at h
  split at h
  · rename_i hlt
    simp only [Option.some.injEq] at h
    subst h
    exact ⟨hlt, by simp⟩
  · simp at h

theorem payloadLoop_some (payload : List Nat) (n i ptr : Nat) (b b1 : List Nat) (ptr1 : Nat)
    (h : payloadLoop payload n i ptr b = some (ptr1, b1)) :
    ptr1 = ptr + n ∧ b1.length = b.length ∧ (n ≠ 0 → i + n ≤ payload.length) := by
  induction n generalizing i ptr b with
  | zero =>
    simp only [payloadLoop, Option.some.injEq, Prod.mk.injEq] at h
    exact ⟨by omega, by rw [h.2], by simp⟩
  | succ n ih =>
    rw [payloadLoop] at h
    split at h
    · simp at h
    · rename_i d hd
      have hi : i < payload.length := by
        by_contra hcon
        rw [List.getElem?_eq_none (by omega)] at hd
        simp at hd
      split at h
      · simp at h
      · rename_i hs
        obtain ⟨h1, h2, h3⟩ := ih _ _ _ h
        refine ⟨by omega, by rw [h2, (store_some hs).2], fun _ => ?_⟩
        by_cases hn : n = 0
        · omega
        · have := h3 hn
          omega

/-- A call of `framePayload` that returns `true` without a fault has had room
for the whole frame and has read the payload inside its array. -/
theorem framePayload_true_length (buf out : List Nat) (bufLen : Int) (payload : List Nat)
    (n : Nat) (h : framePayload (some buf) bufLen payload n = some (true, some out)) :
    7 + (n : Int) ≤ bufLen ∧ 7 + n ≤ buf.length ∧ n ≤ payload.length := by
  unfold framePayload at h
  simp only at h
  split at h
  · simp at h
  · rename_i hlen
    simp only [Option.bind_eq_bind, Option.bind_eq_some, Int.toNat_ofNat] at h
    obtain ⟨b0, h0, b1, h1, b3, h3, ⟨ptr, b4⟩, h4, b5, h5, crc, _, b6, h6, b7, h7, b8, h8, _⟩ := h
    obtain ⟨hptr, hl4, hpl⟩ := payloadLoop_some _ _ _ _ _ _ _ h4
    have l0 := (store_some h0).2
    have l1 := (store_some h1).2
    have l3 := (store_some h3).2
    have l5 := (store_some h5).2
    have l6 := (store_some h6).2
    have l7 := (store_some h7).2
    have l8 := (store_some h8).1
    simp only at l5 l6 l7 l8 hptr
    refine ⟨by omega, by omega, ?_⟩
    by_cases hn : n = 0
    · omega
    · have := hpl hn
      omega

/-! ## Lemmas on the encoders -/

namespace EncodeCall

theorem run_eq_encodeWith (c : EncodeCall) (buffer : Ptr) (bufLen : Int) :
    c.run buffer bufLen = encodeWith c.minLen buffer bufLen c.msg := by
  cases c <;> rfl

theorem msg_len (c : EncodeCall) :
    c.msg.2 = (c.payload.length : Int) ∧ c.payload.length ≤ c.msg.1.length ∧
      1 ≤ c.payload.length ∧ c.payload.length ≤ 14 ∧
      c.payload = (c.msg.1.take c.payload.length).map u8 := by
  cases c <;> simp [payload, msg, setRequestMsg, getRequestMsg, getSpiRegisterMsg, getStatusMsg,
    verStrRequestMsg, rawModeRequestMsg, touchModeRequestMsg, privateTouchModeRequestMsg,
    virtKeySetMsg, virtKeyGetMsg, virtKeyClearMsg]

/-- Every encoder, on a buffer that really has `bufLen` bytes: it either
refuses and leaves the buffer alone, or writes the complete frame. -/
theorem run_eq (c : EncodeCall) (buf : List Nat) (bufLen : Int) (hb : bufLen ≤ buf.length) :
    c.run (some buf) bufLen =
      if bufLen < c.minLen ∨ bufLen < 7 + (c.payload.length : Int) then some (false, some buf)
      else some (true, some (frameBytes c.payload ++ buf.drop (7 + c.payload.length))) := by
  obtain ⟨h1, h2, _, h4, h5⟩ := msg_len c
  rw [run_eq_encodeWith, encodeWith]
  by_cases hmin : bufLen < c.minLen
  · simp [hmin]
  · simp only [hmin, if_false, false_or]
    by_cases hf : bufLen < 7 + (c.payload.length : Int)
    · rw [if_pos hf, h1]
      exact framePayload_short _ _ _ _ hf
    · have := framePayload_ok buf c.msg.1 bufLen c.payload.length h2 (by omega) (by omega)
        (by omega)
      rw [if_neg hf, h1, this, ← h5]

/-- A call with too small a `bufLen` refuses, whatever the buffer is. -/
theorem run_short (c : EncodeCall) (buf : List Nat) (bufLen : Int)
    (h : bufLen < 7 + (c.payload.length : Int)) :
    c.run (some buf) bufLen = some (false, some buf) := by
  obtain ⟨h1, _, _, _, _⟩ := msg_len c
  rw [run_eq_encodeWith, encodeWith]
  by_cases hmin : bufLen < c.minLen
  · simp [hmin]
  · simp only [hmin, if_false]
    rw [h1]
    exact framePayload_short _ _ _ _ h

/-- A call that returns `true` had a `bufLen` of at least the frame length, on
a buffer that holds the frame, and has written the complete frame. -/
theorem run_true (c : EncodeCall) (buf out : List Nat) (bufLen : Int)
    (h : c.run (some buf) bufLen = some (true, some out)) :
    c.minLen ≤ bufLen ∧ 7 + (c.payload.length : Int) ≤ bufLen ∧
      7 + c.payload.length ≤ buf.length ∧
      out = frameBytes c.payload ++ buf.drop (7 + c.payload.length) := by
  obtain ⟨h1, h2, _, h4, h5⟩ := msg_len c
  rw [run_eq_encodeWith, encodeWith] at h
  by_cases hmin : bufLen < c.minLen
  · simp [hmin] at h
  · simp only [hmin, if_false] at h
    rw [h1] at h
    obtain ⟨hl, hbuf, _⟩ := framePayload_true_length _ _ _ _ _ h
    have := framePayload_ok buf c.msg.1 bufLen c.payload.length h2 hl hbuf (by omega)
    rw [this, ← h5] at h
    simp only [Option.some.injEq, Prod.mk.injEq, true_and] at h
    exact ⟨by omega, hl, hbuf, h.symm⟩

end EncodeCall

theorem crc16_shift_lt (r : Nat) : crc16_shift r < 65536 := by
  rw [← crcBitStep_eq_shift, crcBitStep]
  split <;> exact Nat.mod_lt _ (by decide)

theorem crc16_byte_lt (r b : Nat) : crc16_byte r b < 65536 := by
  unfold crc16_byte
  rw [Function.iterate_succ_apply']
  exact crc16_shift_lt _

theorem crc16_reference_lt (b : List Nat) : crc16_reference b < 65536 := by
  unfold crc16_reference
  induction b using List.reverseRecOn with
  | nil => simp
  | append_singleton l a _ =>
    rw [List.foldl_append]
    exact crc16_byte_lt _ _

theorem lsb_16_eq (v : Nat) : lsb_16 v = v % 256 := by
  unfold lsb_16 u8
  have : v &&& 0x00ff = v % 256 := Nat.and_pow_two_sub_one_eq_mod v 8
  rw [this, Nat.mod_mod]

theorem msb_16_eq (v : Nat) (h : v < 65536) : msb_16 v = v / 256 := by
  unfold msb_16 u8 u16
  have e1 : v >>> 8 = v / 256 := Nat.shiftRight_eq_div_pow v 8
  have e2 : ∀ w, w &&& 0x00ff = w % 256 := fun w => Nat.and_pow_two_sub_one_eq_mod w 8
  rw [e1, e2]
  omega

theorem map_u8_of_lt (p : List Nat) (h : ∀ x ∈ p, x < 256) : p.map u8 = p := by
  induction p with
  | nil => rfl
  | cons a p ih =>
    have ha : a < 256 := h a (by simp)
    have hp : ∀ x ∈ p, x < 256 := fun x hx => h x (by simp [hx])
    simp [ih hp, u8, Nat.mod_eq_of_lt ha]

/-! ## Lemmas on control transfers -/

theorem nonZeroLoop_append (d pre rest : List Nat) :
    nonZeroLoop (pre ++ d ++ rest) d.length pre.length = some (d.any (fun x => x != 0)) := by
  induction d generalizing pre with
  | nil => simp [nonZeroLoop]
  | cons a d ih =>
    have hget : (pre ++ a :: d ++ rest)[pre.length]? = some a := by
      rw [List.append_assoc, List.getElem?_append_right (le_refl _)]
      simp
    rw [List.length_cons, nonZeroLoop, hget]
    simp only
    by_cases ha : a = 0
    · have := ih (pre ++ [a])
      simp only [List.length_append, List.length_singleton, List.append_assoc,
        List.singleton_append] at this
      simp [ha, this]
      simpa [ha] using this
    · simp [ha]

theorem RxResult.res_eq_length (r : RxResult) (h : 0 < r.res) : r.res = (r.data.length : Int) := by
  cases r with
  | error e => cases e <;> simp [RxResult.res, LibusbError.code] at h
  | reply bytes => rfl

theorem nonZeroData_fill (r : RxResult) (buffer : List Nat) (h : 0 < r.res) :
    nonZeroData (r.fill buffer) r.res = some (r.data.any (fun x => x != 0)) := by
  unfold nonZeroData RxResult.fill
  rw [r.res_eq_length h, Int.toNat_ofNat]
  have := nonZeroLoop_append r.data [] (buffer.drop r.data.length)
  simpa using this

theorem RxResult.good_iff (r : RxResult) :
    r.good = true ↔ 0 < r.res ∧ r.data.any (fun x => x != 0) = true := by
  simp [RxResult.good]

theorem RxResult.fatal_iff (r : RxResult) :
    r.fatal = true ↔ r.res < 0 ∧ ¬(r.res = LibusbError.TIMEOUT.code ∨
      r.res = LibusbError.BUSY.code ∨ r.res = LibusbError.INVALID_PARAM.code) := by
  simp only [RxResult.fatal, Bool.and_eq_true, decide_eq_true_eq, Bool.not_eq_true',
    Bool.or_eq_false_iff, decide_eq_false_iff_not, not_or]
  tauto

theorem Usb.receive_fst (u : Usb) : u.receive.1 = u.rxAt 0 := by
  unfold Usb.receive Usb.rxAt
  cases u.rxResults <;> rfl

theorem Usb.receive_snd (u : Usb) :
    u.receive.2.received = u.received + 1 ∧ u.receive.2.sent = u.sent ∧
      u.receive.2.rxResults = u.rxResults.drop 1 ∧ ∀ i, u.receive.2.rxAt i = u.rxAt (i + 1) := by
  unfold Usb.receive Usb.rxAt
  cases u.rxResults <;> simp

theorem Usb.receive_handle (u : Usb) : u.receive.2.msv_dev_handle = u.msv_dev_handle := by
  unfold Usb.receive
  cases u.rxResults <;> rfl

theorem Usb.transmit_snd (t : OutTransfer) (u : Usb) :
    (u.transmit t).2.sent = u.sent ++ [t] ∧ (u.transmit t).2.received = u.received ∧
      (u.transmit t).2.msv_dev_handle = u.msv_dev_handle ∧
      (∀ i, (u.transmit t).2.rxAt i = u.rxAt i) ∧
      (u.transmit t).1 = u.txResults.headD LibusbError.TIMEOUT.code := by
  unfold Usb.transmit Usb.rxAt
  cases u.txResults <;> simp

theorem rxLoop_good {σ : Type} (h : List Nat → σ → σ) (n : Nat) (res : Int) (data : List Nat)
    (u : Usb) (s : σ) (hg : (u.rxAt 0).good = true) :
    rxLoop h (n + 1) res data u s =
      some ((u.rxAt 0).res, u.receive.2, h ((u.rxAt 0).fill data) s) := by
  obtain ⟨hpos, hany⟩ := (RxResult.good_iff _).mp hg
  rw [rxLoop]
  simp only [Usb.receive_fst]
  rw [if_pos hpos, nonZeroData_fill _ _ hpos, hany]

theorem rxLoop_fatal {σ : Type} (h : List Nat → σ → σ) (n : Nat) (res : Int) (data : List Nat)
    (u : Usb) (s : σ) (hf : (u.rxAt 0).fatal = true) :
    rxLoop h (n + 1) res data u s = some ((u.rxAt 0).res, u.receive.2, s) := by
  obtain ⟨hneg, hno⟩ := (RxResult.fatal_iff _).mp hf
  rw [rxLoop]
  simp only [Usb.receive_fst]
  rw [if_neg (by omega), if_pos hneg, if_neg hno]

theorem rxLoop_continue {σ : Type} (h : List Nat → σ → σ) (n : Nat) (res : Int)
    (data : List Nat) (u : Usb) (s : σ) (hg : (u.rxAt 0).good = false)
    (hf : (u.rxAt 0).fatal = false) :
    rxLoop h (n + 1) res data u s =
      rxLoop h n (u.rxAt 0).res ((u.rxAt 0).fill data) u.receive.2 s := by
  rw [rxLoop]
  simp only [Usb.receive_fst]
  by_cases hpos : 0 < (u.rxAt 0).res
  · have hany : (u.rxAt 0).data.any (fun x => x != 0) = false := by
      by_contra hc
      have : (u.rxAt 0).good = true :=
        (RxResult.good_iff _).mpr ⟨hpos, by simpa using hc⟩
      rw [hg] at this
      exact Bool.noConfusion this
    rw [if_pos hpos, nonZeroData_fill _ _ hpos, hany]
  · rw [if_neg hpos]
    by_cases hneg : (u.rxAt 0).res < 0
    · have hno : (u.rxAt 0).res = LibusbError.TIMEOUT.code ∨
          (u.rxAt 0).res = LibusbError.BUSY.code ∨
          (u.rxAt 0).res = LibusbError.INVALID_PARAM.code := by
        by_contra hc
        have : (u.rxAt 0).fatal = true := (RxResult.fatal_iff _).mpr ⟨hneg, hc⟩
        rw [hf] at this
        exact Bool.noConfusion this
      rw [if_pos hneg, if_pos hno]
    · rw [if_neg hneg]

theorem RxResult.fill_length (r : RxResult) (buffer : List Nat) (h : BUF_LEN ≤ buffer.length) :
    (r.fill buffer).length = buffer.length ∧
      (r.fill buffer).take r.data.length = r.data := by
  have hd : r.data.length ≤ BUF_LEN := by
    cases r with
    | error e => simp [RxResult.data]
    | reply bytes => simp [RxResult.data, List.length_take]
  unfold RxResult.fill
  refine ⟨?_, List.take_left _ _⟩
  simp only [List.length_append, List.length_drop]
  omega

/-- The receive loop with the recording handler: `k` attempts are made, none
before the last is good or fatal, the loop ends before its `n` attempts are
used up only on a good or a fatal result, and the handler is called exactly
when the last attempt is good, with the buffer holding that reply. -/
theorem rxLoop_spec (n : Nat) (res : Int) (data : List Nat) (u : Usb)
    (calls : List (List Nat)) (hdata : BUF_LEN ≤ data.length) :
    ∃ res1 u1 calls1 k, rxLoop recordReply n res data u calls = some (res1, u1, calls1) ∧
      k ≤ n ∧ u1.received = u.received + k ∧
      (u1.sent = u.sent ∧ u1.msv_dev_handle = u.msv_dev_handle) ∧
      (∀ i, i + 1 < k → (u.rxAt i).good = false ∧ (u.rxAt i).fatal = false) ∧
      (k < n → 0 < k ∧ ((u.rxAt (k - 1)).good = true ∨ (u.rxAt (k - 1)).fatal = true)) ∧
      ((0 < k ∧ (u.rxAt (k - 1)).good = true) →
        ∃ d, calls1 = calls ++ [d] ∧
          d.take (u.rxAt (k - 1)).data.length = (u.rxAt (k - 1)).data) ∧
      (¬(0 < k ∧ (u.rxAt (k - 1)).good = true) → calls1 = calls) := by
  induction n generalizing res data u with
  | zero =>
    refine ⟨res, u, calls, 0, rfl, le_refl _, rfl, ⟨rfl, rfl⟩, ?_, ?_, ?_, ?_⟩
    · intro i hi; omega
    · intro h; omega
    · intro h; omega
    · intro _; rfl
  | succ n ih =>
    by_cases hg : (u.rxAt 0).good = true
    · refine ⟨_, _, _, 1, rxLoop_good recordReply n res data u calls hg, by omega,
        u.receive_snd.1, ⟨u.receive_snd.2.1, u.receive_handle⟩, ?_, ?_, ?_, ?_⟩
      · intro i hi; omega
      · intro _; exact ⟨by omega, Or.inl hg⟩
      · intro _
        exact ⟨_, rfl, ((u.rxAt 0).fill_length data hdata).2⟩
      · intro hc; exact absurd ⟨by omega, hg⟩ hc
    · have hg0 : (u.rxAt 0).good = false := by simpa using hg
      by_cases hf : (u.rxAt 0).fatal = true
      · refine ⟨_, _, _, 1, rxLoop_fatal recordReply n res data u calls hf, by omega,
          u.receive_snd.1, ⟨u.receive_snd.2.1, u.receive_handle⟩, ?_, ?_, ?_, ?_⟩
        · intro i hi; omega
        · intro _; exact ⟨by omega, Or.inr hf⟩
        · intro hc; exact absurd hc.2 hg
        · intro _; rfl
      · have hf0 : (u.rxAt 0).fatal = false := by simpa using hf
        have hlen : BUF_LEN ≤ ((u.rxAt 0).fill data).length := by
          rw [((u.rxAt 0).fill_length data hdata).1]; exact hdata
        obtain ⟨res1, u1, calls1, k, hrun, hk, hrec, hsent, hbefore, hend, hcall, hnone⟩ :=
          ih (u.rxAt 0).res ((u.rxAt 0).fill data) u.receive.2 hlen
        have hshift := u.receive_snd.2.2.2
        refine ⟨res1, u1, calls1, k + 1, ?_, by omega, ?_, ?_, ?_, ?_, ?_, ?_⟩
        · rw [rxLoop_continue recordReply n res data u calls hg0 hf0]; exact hrun
        · rw [hrec, u.receive_snd.1]; omega
        · exact ⟨by rw [hsent.1, u.receive_snd.2.1], by rw [hsent.2, u.receive_handle]⟩
        · intro i hi
          cases i with
          | zero => exact ⟨hg0, hf0⟩
          | succ j =>
            have := hbefore j (by omega)
            rw [hshift j] at this
            exact this
        · intro hlt
          obtain ⟨hpos, hlast⟩ := hend (by omega)
          refine ⟨by omega, ?_⟩
          rw [hshift (k - 1)] at hlast
          have e : k - 1 + 1 = k + 1 - 1 := by omega
          rw [e] at hlast
          exact hlast
        · intro hc
          have hk0 : 0 < k := by
            by_contra hcon
            have hz : k = 0 := by omega
            subst hz
            have := hc.2
            simp only [Nat.zero_add, Nat.sub_self] at this
            rw [hg0] at this
            exact Bool.noConfusion this
          have e : k - 1 + 1 = k + 1 - 1 := by omega
          have hgood : (u.receive.2.rxAt (k - 1)).good = true := by
            rw [hshift (k - 1), e]; exact hc.2
          obtain ⟨d, hd1, hd2⟩ := hcall ⟨hk0, hgood⟩
          refine ⟨d, hd1, ?_⟩
          rw [hshift (k - 1), e] at hd2
          exact hd2
        · intro hc
          apply hnone
          intro hc2
          apply hc
          refine ⟨by omega, ?_⟩
          have e : k - 1 + 1 = k + 1 - 1 := by omega
          have := hc2.2
          rw [hshift (k - 1), e] at this
          exact this

theorem store_zero (data : List Nat) (v : Nat) (h : 0 < data.length) :
    ∃ data0, store data 0 v = some data0 ∧ data0.length = data.length := by
  refine ⟨data.set 0 (u8 v), by simp [store, h], by simp⟩

/-- The inner loop of the multi-reply request calls the recording handler at
most once, and keeps the device handle. -/
theorem mrInner_spec (n : Nat) (res : Int) (data : List Nat) (u : Usb)
    (calls : List (List Nat)) (hdata : data.length = BUF_LEN) (hdev : u.msv_dev_handle = true) :
    ∃ res1 stop u1 extra,
      mrInner (some recordReply) n res data u calls = some (res1, stop, u1, calls ++ extra) ∧
      extra.length ≤ 1 ∧ u1.msv_dev_handle = true := by
  induction n generalizing res data u with
  | zero => exact ⟨res, false, u, [], by simp [mrInner], by simp, hdev⟩
  | succ n ih =>
    obtain ⟨data0, hst, hl0⟩ := store_zero data 0x05 (by rw [hdata]; decide)
    have hl1 : ((u.rxAt 0).fill data0).length = BUF_LEN := by
      rw [((u.rxAt 0).fill_length data0 (by rw [hl0, hdata])).1, hl0, hdata]
    have hdev1 : u.receive.2.msv_dev_handle = true := by rw [u.receive_handle]; exact hdev
    rw [mrInner, hst]
    simp only [hdev, Usb.receive_fst]
    by_cases hpos : 0 < (u.rxAt 0).res
    · rw [if_neg (by simp), if_pos hpos, nonZeroData_fill _ _ hpos]
      by_cases hany : (u.rxAt 0).data.any (fun x => x != 0) = true
      · rw [hany]
        exact ⟨_, _, _, [(u.rxAt 0).fill data0], rfl, by simp, hdev1⟩
      · have hany0 : (u.rxAt 0).data.any (fun x => x != 0) = false := by simpa using hany
        rw [hany0]
        exact ih _ _ _ hl1 hdev1
    · rw [if_neg (by simp), if_neg hpos]
      by_cases hneg : (u.rxAt 0).res < 0
      · rw [if_pos hneg]
        exact ⟨(u.rxAt 0).res, true, u.receive.2, [], by simp, by simp, hdev1⟩
      · rw [if_neg hneg]
        exact ih _ _ _ hl1 hdev1

/-- The outer loop of the multi-reply request calls the recording handler at
most once per iteration. -/
theorem mrOuter_spec (n : Nat) (res : Int) (u : Usb) (calls : List (List Nat))
    (hdev : u.msv_dev_handle = true) :
    ∃ res1 u1 extra,
      mrOuter (some recordReply) n res u calls = some (res1, u1, calls ++ extra) ∧
      extra.length ≤ n := by
  induction n generalizing res u calls with
  | zero => exact ⟨res, u, [], by simp [mrOuter], by simp⟩
  | succ n ih =>
    obtain ⟨res1, stop, u1, extra, hin, hle, hdev1⟩ :=
      mrInner_spec 2 res (List.replicate BUF_LEN 0) u calls (by simp) hdev
    rw [mrOuter, hin]
    simp only
    cases stop with
    | true => exact ⟨res1, u1, extra, by simp, by omega⟩
    | false =>
      obtain ⟨res2, u2, extra2, hout, hle2⟩ := ih res1 u1 (calls ++ extra) hdev1
      refine ⟨res2, u2, extra ++ extra2, ?_, ?_⟩
      · simp only [Bool.false_eq_true, if_false]
        rw [hout, List.append_assoc]
      · rw [List.length_append]; omega

/-- A control request on an open device, with a request of 1 to 64 bytes and
the recording handler. -/
theorem usb_ControlRequest_open (req : List Nat) (reqLen : Nat) (u : Usb)
    (calls : List (List Nat)) (h0 : reqLen ≠ 0) (h64 : reqLen ≤ 64) (hreq : reqLen ≤ req.length)
    (hdev : u.msv_dev_handle = true) :
    ∃ res u1 calls1 k,
      usb_ControlRequest (some recordReply) (some req) reqLen u calls = some (res, u1, calls1) ∧
      u1.sent = u.sent ++ [⟨if u.msv_bootloader then 0x0300 else 0x0305, u.msv_activeInterface,
        req.take reqLen ++ List.replicate (64 - reqLen) 0⟩] ∧
      u1.msv_dev_handle = true ∧
      u1.received = u.received + k ∧ k ≤ u.msv_CtrlRetry.toNat ∧
      (∀ i, i + 1 < k → (u.rxAt i).good = false ∧ (u.rxAt i).fatal = false) ∧
      (k < u.msv_CtrlRetry.toNat → u.txResults.headD LibusbError.TIMEOUT.code < 0 ∨
        (0 < k ∧ ((u.rxAt (k - 1)).good = true ∨ (u.rxAt (k - 1)).fatal = true))) ∧
      ((0 < k ∧ (u.rxAt (k - 1)).good = true) →
        ∃ d, calls1 = calls ++ [d] ∧
          d.take (u.rxAt (k - 1)).data.length = (u.rxAt (k - 1)).data) ∧
      (¬(0 < k ∧ (u.rxAt (k - 1)).good = true) → calls1 = calls) := by
  set t : OutTransfer := ⟨if u.msv_bootloader then 0x0300 else 0x0305, u.msv_activeInterface,
    req.take reqLen ++ List.replicate (64 - reqLen) 0⟩ with ht
  obtain ⟨hts, htr, hth, htx, htres⟩ := u.transmit_snd t
  unfold usb_ControlRequest
  simp only [hdev, Bool.true_eq_false, if_false, h0]
  rw [if_neg (by omega)]
  by_cases hneg : (u.transmit t).1 < 0
  · simp only [← ht, hneg, if_true]
    refine ⟨_, _, _, 0, rfl, hts, by rw [hth, hdev], by rw [htr]; rfl, by omega, ?_, ?_, ?_, ?_⟩
    · intro i hi; omega
    · intro _; left; rw [← htres]; exact hneg
    · intro h; omega
    · intro _; rfl
  · simp only [← ht, hneg, if_false]
    obtain ⟨res1, u1, calls1, k, hrun, hk, hrec, hsent, hbefore, hend, hcall, hnone⟩ :=
      rxLoop_spec u.msv_CtrlRetry.toNat (u.transmit t).1
        ((u.junk ++ List.replicate (BUF_LEN + 1) 0).take (BUF_LEN + 1)) (u.transmit t).2 calls
        (by simp [BUF_LEN])
    simp only [htx] at hbefore hend hcall hnone
    refine ⟨res1, u1, calls1, k, hrun, by rw [hsent.1, hts], by rw [hsent.2, hth, hdev],
      by rw [hrec, htr], hk, hbefore, ?_, hcall, hnone⟩
    intro hlt
    exact Or.inr (hend hlt)

/-! ## Control requests with any handler -/

theorem Usb.sameConfig_refl (u : Usb) : u.sameConfig u :=
  ⟨rfl, rfl, rfl, rfl, rfl, rfl⟩

theorem Usb.sameConfig_trans {u2 u1 u : Usb} (h2 : u2.sameConfig u1) (h1 : u1.sameConfig u) :
    u2.sameConfig u := by
  obtain ⟨a1, a2, a3, a4, a5, a6⟩ := h2
  obtain ⟨b1, b2, b3, b4, b5, b6⟩ := h1
  exact ⟨a1.trans b1, a2.trans b2, a3.trans b3, a4.trans b4, a5.trans b5, a6.trans b6⟩

theorem Usb.receive_frame (u : Usb) :
    u.receive.2.sameConfig u ∧ u.receive.2.sent = u.sent ∧
      u.receive.2.txResults = u.txResults := by
  unfold Usb.receive Usb.sameConfig
  cases u.rxResults <;> simp

theorem Usb.transmit_frame (t : OutTransfer) (u : Usb) :
    (u.transmit t).2.sameConfig u ∧ (u.transmit t).2.sent = u.sent ++ [t] ∧
      (u.transmit t).2.received = u.received ∧ (u.transmit t).2.rxResults = u.rxResults := by
  unfold Usb.transmit Usb.sameConfig
  cases u.txResults <;> simp

/-- The receive loop with any handler: it has a result, it leaves the module
variables and the record of OUT transfers alone, and it leaves the handler's
state alone or applies the handler once. -/
theorem rxLoop_gen {σ : Type} (h : List Nat → σ → σ) (n : Nat) (res : Int) (data : List Nat)
    (u : Usb) (s : σ) :
    ∃ res1 u1 s1, rxLoop h n res data u s = some (res1, u1, s1) ∧ u1.sameConfig u ∧
      u1.sent = u.sent ∧ u.received ≤ u1.received ∧ (s1 = s ∨ ∃ d, s1 = h d s) := by
  induction n generalizing res data u with
  | zero => exact ⟨res, u, s, rfl, u.sameConfig_refl, rfl, le_refl _, Or.inl rfl⟩
  | succ n ih =>
    have hr := u.receive_frame
    have hc := u.receive_snd.1
    by_cases hg : (u.rxAt 0).good = true
    · exact ⟨_, _, _, rxLoop_good h n res data u s hg, hr.1, hr.2.1, by omega, Or.inr ⟨_, rfl⟩⟩
    · have hg0 : (u.rxAt 0).good = false := by simpa using hg
      by_cases hf : (u.rxAt 0).fatal = true
      · exact ⟨_, _, _, rxLoop_fatal h n res data u s hf, hr.1, hr.2.1, by omega, Or.inl rfl⟩
      · have hf0 : (u.rxAt 0).fatal = false := by simpa using hf
        obtain ⟨res1, u1, s1, hrun, hcfg, hsent, hrec, hs⟩ :=
          ih (u.rxAt 0).res ((u.rxAt 0).fill data) u.receive.2
        refine ⟨res1, u1, s1, ?_, Usb.sameConfig_trans hcfg hr.1, hsent.trans hr.2.1, by omega, hs⟩
        rw [rxLoop_continue h n res data u s hg0 hf0]; exact hrun

/-- A control request with any handler and a request that lies inside its
array and inside `txBuffer`: it has a result; the module variables stay; with
no device open nothing happens; with a device open and a non-empty request
exactly one OUT transfer is made, carrying the request padded to 64 bytes. -/
theorem usb_ControlRequest_gen {σ : Type} (h : Option (List Nat → σ → σ)) (req : List Nat)
    (reqLen : Nat) (u : Usb) (s : σ) (h64 : reqLen ≤ 64) (hreq : reqLen ≤ req.length) :
    ∃ res u1 s1, usb_ControlRequest h (some req) reqLen u s = some (res, u1, s1) ∧
      u1.sameConfig u ∧
      (u.msv_dev_handle = false → u1 = u ∧ s1 = s ∧ res = LibusbError.NO_DEVICE.code) ∧
      (u.msv_dev_handle = true → reqLen ≠ 0 →
        u1.sent = u.sent ++ [⟨if u.msv_bootloader then 0x0300 else 0x0305,
          u.msv_activeInterface, req.take reqLen ++ List.replicate (64 - reqLen) 0⟩]) ∧
      (h = none → s1 = s ∧ u1.received = u.received) ∧
      (∀ f, h = some f → s1 = s ∨ ∃ d, s1 = f d s) := by
  unfold usb_ControlRequest
  by_cases hdev : u.msv_dev_handle = false
  · simp only [hdev, if_true]
    exact ⟨_, _, _, rfl, u.sameConfig_refl, fun _ => ⟨rfl, rfl, rfl⟩,
      fun hc => by simp at hc, fun _ => ⟨rfl, rfl⟩, fun f _ => Or.inl rfl⟩
  · have hdev1 : u.msv_dev_handle = true := by simpa using hdev
    simp only [hdev1, Bool.true_eq_false, if_false]
    by_cases h0 : reqLen = 0
    · simp only [h0, if_true]
      exact ⟨_, _, _, rfl, u.sameConfig_refl, fun hc => by simp at hc,
        fun _ hc => absurd rfl hc, fun _ => ⟨rfl, rfl⟩, fun f _ => Or.inl rfl⟩
    · simp only [h0, if_false]
      rw [if_neg (by omega)]
      set t : OutTransfer := ⟨if u.msv_bootloader then 0x0300 else 0x0305,
        u.msv_activeInterface, req.take reqLen ++ List.replicate (64 - reqLen) 0⟩ with ht
      obtain ⟨htc, hts, htr, _⟩ := u.transmit_frame t
      by_cases hneg : (u.transmit t).1 < 0
      · simp only [hneg, if_true]
        exact ⟨_, _, _, rfl, htc, fun hc => by simp [hdev1] at hc, fun _ _ => hts,
          fun _ => ⟨rfl, htr⟩, fun f _ => Or.inl rfl⟩
      · simp only [hneg, if_false]
        cases h with
        | none =>
          exact ⟨_, _, _, rfl, htc, fun hc => by simp [hdev1] at hc, fun _ _ => hts,
            fun _ => ⟨rfl, htr⟩, fun f hf => by simp at hf⟩
        | some f =>
          obtain ⟨res1, u1, s1, hrun, hcfg, hsent, _, hs⟩ :=
            rxLoop_gen f u.msv_CtrlRetry.toNat (u.transmit t).1
              ((u.junk ++ List.replicate (BUF_LEN + 1) 0).take (BUF_LEN + 1)) (u.transmit t).2 s
          refine ⟨res1, u1, s1, hrun, Usb.sameConfig_trans hcfg htc, fun hc => by simp [hdev1] at hc,
            fun _ _ => by rw [hsent, hts], fun hc => by simp at hc, fun g hg => ?_⟩
          have : f = g := by simpa using hg
          subst this
          exact hs

/-! ## Lemmas on the endurance profiles -/

theorem frameBytes_length (p : List Nat) : (frameBytes p).length = 7 + p.length := by
  simp [frameBytes]; omega

theorem default_CTRL_handler_state {s1 s : Services}
    (h : s1 = s ∨ ∃ d, s1 = default_CTRL_handler d s) : s1 = s := by
  rcases h with h | ⟨d, h⟩
  · exact h
  · exact h

/-- Setting the profile that a call of `zul_setCommsEndurance` has left active
gives the same three communication parameters and the same profile again, on
any state. -/
theorem zul_setCommsEndurance_again (e : Nat) (u u2 : Usb) (s s2 : Services) :
    (zul_setCommsEndurance (zul_setCommsEndurance e u s).2.msv_commEndurance u2 s2).2.msv_commEndurance
        = (zul_setCommsEndurance e u s).2.msv_commEndurance ∧
    (zul_setCommsEndurance (zul_setCommsEndurance e u s).2.msv_commEndurance u2 s2).1.msv_CtrlRetry
        = (zul_setCommsEndurance e u s).1.msv_CtrlRetry ∧
    (zul_setCommsEndurance (zul_setCommsEndurance e u s).2.msv_commEndurance u2 s2).1.msv_CtrlDelay
        = (zul_setCommsEndurance e u s).1.msv_CtrlDelay ∧
    (zul_setCommsEndurance (zul_setCommsEndurance e u s).2.msv_commEndurance u2 s2).1.msv_CtrlTimeout
        = (zul_setCommsEndurance e u s).1.msv_CtrlTimeout := by
  by_cases h1 : e = COM_ENDUR_MEDIUM
  · subst h1
    simp [zul_setCommsEndurance, usb_setCtrlTimeout, usb_setCtrlRetry, usb_setCtrlDelay]
  · by_cases h2 : e = COM_ENDUR_HIGH
    · subst h2
      simp [zul_setCommsEndurance, usb_setCtrlTimeout, usb_setCtrlRetry, usb_setCtrlDelay,
        COM_ENDUR_HIGH, COM_ENDUR_MEDIUM]
    · by_cases h3 : e = COM_ENDUR_NORM
      · subst h3
        simp [zul_setCommsEndurance, usb_setCtrlTimeout, usb_setCtrlRetry, usb_setCtrlDelay,
          usb_defaultCtrlTimeout, usb_defaultCtrlRetry, usb_defaultCtrlDelay,
          COM_ENDUR_HIGH, COM_ENDUR_MEDIUM, COM_ENDUR_NORM]
      · have h0 : zul_setCommsEndurance e u s =
            (usb_defaultCtrlTimeout (usb_defaultCtrlRetry (usb_defaultCtrlDelay u)),
              { s with msv_commEndurance := COM_ENDUR_NORM }) := by
          simp [zul_setCommsEndurance, h1, h2, h3]
        rw [h0]
        simp [zul_setCommsEndurance, usb_setCtrlTimeout, usb_setCtrlRetry, usb_setCtrlDelay,
          usb_defaultCtrlTimeout, usb_defaultCtrlRetry, usb_defaultCtrlDelay,
          COM_ENDUR_HIGH, COM_ENDUR_MEDIUM, COM_ENDUR_NORM]

theorem zul_setCommsEndurance_high (u : Usb) (s : Services) :
    (zul_setCommsEndurance COM_ENDUR_HIGH u s).2.msv_commEndurance = COM_ENDUR_HIGH ∧
      (zul_setCommsEndurance COM_ENDUR_HIGH u s).1.msv_CtrlRetry = 200 ∧
      (zul_setCommsEndurance COM_ENDUR_HIGH u s).1.msv_CtrlDelay = 40 ∧
      (zul_setCommsEndurance COM_ENDUR_HIGH u s).1.msv_CtrlTimeout = 10000 := by
  simp [zul_setCommsEndurance, usb_setCtrlTimeout, usb_setCtrlRetry, usb_setCtrlDelay,
    COM_ENDUR_HIGH, COM_ENDUR_MEDIUM]

theorem zul_encodeSetRequest_fits (ID value : Nat) :
    ∃ frame : List Nat, zul_encodeSetRequest (some (List.replicate (DUAL_BYTE_MSG_LEN + 2) 0))
        (DUAL_BYTE_MSG_LEN + 2 : Nat) ID value = some (true, some frame) ∧ frame.length = 11 := by
  have h := (EncodeCall.SetRequest ID value).run_eq (List.replicate (DUAL_BYTE_MSG_LEN + 2) 0)
    (DUAL_BYTE_MSG_LEN + 2 : Nat) (by simp)
  have hp : (EncodeCall.SetRequest ID value).payload.length = 4 := rfl
  have hm : (EncodeCall.SetRequest ID value).minLen = 11 := rfl
  rw [hp, hm, if_neg (by simp [DUAL_BYTE_MSG_LEN])] at h
  refine ⟨_, h, ?_⟩
  rw [List.length_append, frameBytes_length, hp]
  simp [DUAL_BYTE_MSG_LEN]

/-! ## Lemmas on the firmware image -/

theorem getD_lt_of_bytes {f : List Nat} (hb : ∀ x ∈ f, x < 256) (i : Nat) : f.getD i 0 < 256 := by
  by_cases h : i < f.length
  · rw [List.getD_eq_getElem f 0 h]
    exact hb _ (List.getElem_mem h)
  · rw [List.getD_eq_default f 0 (by omega)]
    decide

/-- What `zul_loadAndValidateZyf` does with a file of 5 to 131072 bytes that
can be read in full. -/
theorem zul_loadAndValidateZyf_ofBytes (f : List Nat) (s : Services) (hb : ∀ x ∈ f, x < 256)
    (h5 : 5 ≤ f.length) (hmax : f.length ≤ 131072) :
    zul_loadAndValidateZyf (ZyfFile.ofBytes f) s =
      some (if f.getD (f.length - 2) 0 + 256 * f.getD (f.length - 1) 0 =
            crc16_reference (f.take (f.length - 4)) then
          (SUCCESS, { s with
            msv_fwInfo := ⟨f.length - 4, f.length - 4,
              (f.getD (f.length - 4) 0, f.getD (f.length - 3) 0),
              f.getD (f.length - 2) 0 + 256 * f.getD (f.length - 1) 0, some f⟩
            msv_fwXferResultStr := ResultStr.text "ZYF CRC pass. File OK." })
        else
          (FAILURE, { s with
            msv_fwInfo := ⟨0, f.length - 4, (0, f.getD (f.length - 3) 0), 65535, none⟩
            msv_fwXferResultStr := ResultStr.text "CRC filecheck failed" })) := by
  obtain ⟨n, hn⟩ : ∃ n, f.length = n + 4 := ⟨f.length - 4, by omega⟩
  have hstat : ¬ (((f.length : Int) > ZY_MAX_FW_FILE_SIZE) ∨ (f.length : Int) < 5) := by
    simp only [ZY_MAX_FW_FILE_SIZE]; omega
  have hbc : ((f.length : Int) - 4).toNat = n := by omega
  have htake : f.take (4 + n) = f := List.take_of_length_le (by omega)
  have hcontent : (f ++ (([] : List Nat) ++ List.replicate (4 + n) 0)).take (4 + n) = f := by
    rw [List.take_append_of_le_length (by omega), htake]
  have hcrc : zul_getCRC f n = some (crc16_reference (f.take n)) := by
    have := zul_getCRC_append (f.take n) (f.drop n) (by simp; omega)
    rwa [List.take_append_drop, List.length_take, min_eq_left (by omega)] at this
  have e2 : f[n + 2]? = some (f.getD (n + 2) 0) := by
    rw [List.getD_eq_getElem f 0 (by omega), List.getElem?_eq_getElem]
  have e3 : f[n + 3]? = some (f.getD (n + 3) 0) := by
    rw [List.getD_eq_getElem f 0 (by omega), List.getElem?_eq_getElem]
  have e0 : f[n]? = some (f.getD n 0) := by
    rw [List.getD_eq_getElem f 0 (by omega), List.getElem?_eq_getElem]
  have e1 : f[n + 1]? = some (f.getD (n + 1) 0) := by
    rw [List.getD_eq_getElem f 0 (by omega), List.getElem?_eq_getElem]
  have hu : u16 (f.getD (n + 2) 0 + 256 * f.getD (n + 3) 0) =
      f.getD (n + 2) 0 + 256 * f.getD (n + 3) 0 := by
    have a := getD_lt_of_bytes hb (n + 2)
    have b := getD_lt_of_bytes hb (n + 3)
    unfold u16
    omega
  have i1 : f.length - 2 = n + 2 := by omega
  have i2 : f.length - 1 = n + 3 := by omega
  have i3 : f.length - 4 = n := by omega
  have i4 : f.length - 3 = n + 1 := by omega
  rw [i1, i2, i3, i4]
  unfold zul_loadAndValidateZyf
  have hgot : ¬ f.length < n := by omega
  simp only [ZyfFile.ofBytes, if_neg hstat, hbc, htake, hcontent, e0, e1, e2, e3, hcrc, hu,
    Bool.true_eq_false, if_false, if_neg hgot]
  by_cases hc : f.getD (n + 2) 0 + 256 * f.getD (n + 3) 0 = crc16_reference (f.take n)
  · rw [if_pos hc, if_pos hc]
  · rw [if_neg hc, if_neg hc]
    rfl

theorem zul_loadAndValidateZyf_size (f : List Nat) (s : Services)
    (h : f.length > 131072 ∨ f.length < 5) :
    zul_loadAndValidateZyf (ZyfFile.ofBytes f) s =
      some (FAILURE, { s with msv_fwXferResultStr := ResultStr.text "size error" }) := by
  have hstat : ((f.length : Int) > ZY_MAX_FW_FILE_SIZE) ∨ (f.length : Int) < 5 := by
    simp only [ZY_MAX_FW_FILE_SIZE]; omega
  unfold zul_loadAndValidateZyf
  simp only [ZyfFile.ofBytes, if_pos hstat]

theorem zul_getCRC_take (f : List Nat) (n : Nat) (hn : n ≤ f.length) (h : n < 2 ^ 31) :
    zul_getCRC (f.take n) n = some (crc16_reference (f.take n)) := by
  have hl : (f.take n).length = n := by rw [List.length_take, min_eq_left hn]
  have := zul_getCRC_append (f.take n) [] (by omega)
  rwa [List.append_nil, hl] at this

theorem crc16_reference_zeros (n : Nat) : crc16_reference (List.replicate n 0) = 0 := by
  have h0 : crc16_byte 0 0 = 0 := by decide
  have : ∀ m, List.foldl crc16_byte 0 (List.replicate m 0) = 0 := by
    intro m
    induction m with
    | zero => rfl
    | succ m ih => rw [List.replicate_succ, List.foldl_cons, h0, ih]
  simpa [crc16_reference] using this n

/-- With no image loaded (`byteCount` = 0) `zul_transferFirmware` makes no
block transaction. -/
theorem zul_transferFirmware_empty (track : Bool) (u : Usb) (s : Services)
    (h : s.msv_fwInfo.byteCount = 0) :
    zul_transferFirmware track u s = Run.done (SUCCESS, [], u, zul_BLresetPktCount s) := by
  have hc : castInt 0 = 0 := by decide
  unfold zul_transferFirmware
  simp [transferLoop, zul_BLresetPktCount, h, hc]

/-! ## Lemmas on the firmware transfer -/

/-- A control request that has a result, with any request pointer: the module
variables stay, at most one OUT transfer is made, and the handler's state
stays or the handler is applied once. -/
theorem usb_ControlRequest_any {σ : Type} (h : Option (List Nat → σ → σ)) (request : Ptr)
    (reqLen : Nat) (u : Usb) (s : σ) (res : Int) (u1 : Usb) (s1 : σ)
    (hrun : usb_ControlRequest h request reqLen u s = some (res, u1, s1)) :
    u1.sameConfig u ∧ (u1.sent = u.sent ∨ ∃ t, u1.sent = u.sent ++ [t]) ∧
      (∀ f, h = some f → s1 = s ∨ ∃ d, s1 = f d s) ∧ (h = none → s1 = s) := by
  have triv : ∀ r0 : Int, some (r0, u, s) = some (res, u1, s1) →
      u1.sameConfig u ∧ (u1.sent = u.sent ∨ ∃ t, u1.sent = u.sent ++ [t]) ∧
        (∀ f, h = some f → s1 = s ∨ ∃ d, s1 = f d s) ∧ (h = none → s1 = s) := by
    intro r0 h0
    simp only [Option.some.injEq, Prod.mk.injEq] at h0
    obtain ⟨_, rfl, rfl⟩ := h0
    exact ⟨u.sameConfig_refl, Or.inl rfl, fun _ _ => Or.inl rfl, fun _ => rfl⟩
  by_cases hdev : u.msv_dev_handle = false
  · unfold usb_ControlRequest at hrun
    simp only [hdev, if_true] at hrun
    exact triv _ hrun
  · have hdev1 : u.msv_dev_handle = true := by simpa using hdev
    cases request with
    | none =>
      unfold usb_ControlRequest at hrun
      simp only [hdev1, Bool.true_eq_false, if_false] at hrun
      exact triv _ hrun
    | some req =>
      by_cases h0 : reqLen = 0
      · unfold usb_ControlRequest at hrun
        simp only [hdev1, Bool.true_eq_false, if_false, h0, if_true] at hrun
        exact triv _ hrun
      · by_cases hb : 64 < reqLen ∨ req.length < reqLen
        · unfold usb_ControlRequest at hrun
          simp only [hdev1, Bool.true_eq_false, if_false, h0, if_pos hb] at hrun
          exact absurd hrun (by simp)
        · obtain ⟨res2, u2, s2, hg, hcfg, _, hsent, hnone, hs⟩ :=
            usb_ControlRequest_gen h req reqLen u s (by omega) (by omega)
          rw [hrun] at hg
          simp only [Option.some.injEq, Prod.mk.injEq] at hg
          obtain ⟨_, rfl, rfl⟩ := hg
          exact ⟨hcfg, Or.inr ⟨_, hsent hdev1 h0⟩, hs, fun hn => (hnone hn).1⟩

theorem handle_BL_response_frame (d : List Nat) (s : Services) :
    (handle_BL_response d s).msv_fwInfo = s.msv_fwInfo ∧
      (handle_BL_response d s).errorCount = s.errorCount ∧
      (handle_BL_response d s).msv_BL_reply 0 = d.getD 0 0 := by
  unfold handle_BL_response
  simp only []
  split_ifs <;> simp

/-- One turn of the loop of `zul_transferFirmware` that has a result: what it
records, where it leaves `block_start`, what it returns, and what it keeps. -/
theorem transferBlock_inv (nb : Int) (l : XferLoop) (u : Usb) (s : Services) (r : Option Int)
    (l1 : XferLoop) (u1 : Usb) (s2 : Services)
    (h : transferBlock nb l u s = Run.done (r, l1, u1, s2)) :
    ∃ st c, l1.trace = l.trace ++ [⟨l.block_start, st, s.errorCount, c⟩] ∧
      l1.block_start =
        (if replyEndsTransfer c then l.block_start else l.block_start + ZY_BL_MAX_DATA) ∧
      l1.block_end =
        (if l.block_start + ZY_BL_MAX_DATA < castInt s.msv_fwInfo.byteCount then
          l.block_start + ZY_BL_MAX_DATA else castInt s.msv_fwInfo.byteCount) ∧
      r = (if replyEndsTransfer c then
          some (if c = BL_RSP_PROGRAMMING_COMPLETE then SUCCESS else FAILURE) else none) ∧
      (replyEndsTransfer c = true → s2.msv_fwXferResultStr = ResultStr.text (replyReason c)) ∧
      (st < 0 ∨ s.errorCount > 4 → c = BL_RSP_COMMS_ERROR) ∧
      (¬ (st < 0 ∨ s.errorCount > 4) → c = s.msv_BL_reply 0 ∨ ∃ d : List Nat, c = d.getD 0 0) ∧
      s2.errorCount = (if c = BL_RSP_Acknowledge ∨ c = BL_RSP_BLOCK_WRITTEN then 0
        else if c = 0 then s.errorCount + 1 else s.errorCount) ∧
      s2.msv_fwInfo.byteCount = s.msv_fwInfo.byteCount ∧
      s2.msv_fwInfo.content = s.msv_fwInfo.content ∧
      u1.sameConfig u ∧ (u1.sent = u.sent ∨ ∃ t, u1.sent = u.sent ++ [t]) ∧ nb ≠ 0 := by
  unfold transferBlock at h
  cases hreq : usb_ControlRequest (some handle_BL_response) (blockPointer s l.block_start)
      ZY_BL_MAX_DATA.toNat u s with
  | none =>
    rw [hreq] at h
    exact absurd h (by simp)
  | some p =>
    obtain ⟨st, u1a, s1⟩ := p
    rw [hreq] at h
    dsimp only at h
    obtain ⟨hcfg, hsent, hs, _⟩ := usb_ControlRequest_any _ _ _ _ _ _ _ _ hreq
    have hs1 : s1.msv_fwInfo = s.msv_fwInfo ∧ s1.errorCount = s.errorCount ∧
        (s1.msv_BL_reply 0 = s.msv_BL_reply 0 ∨ ∃ d : List Nat, s1.msv_BL_reply 0 = d.getD 0 0) := by
      rcases hs _ rfl with rfl | ⟨d, rfl⟩
      · exact ⟨rfl, rfl, Or.inl rfl⟩
      · exact ⟨(handle_BL_response_frame d s).1, (handle_BL_response_frame d s).2.1,
          Or.inr ⟨d, (handle_BL_response_frame d s).2.2⟩⟩
    obtain ⟨hfw, herr, hrep⟩ := hs1
    by_cases hnb : nb = 0
    · simp only [hnb, if_true] at h
      exact absurd h (by simp)
    · simp only [hnb, if_false] at h
      by_cases hce : st < 0 ∨ s1.errorCount > 4
      · simp only [hce, if_true, Function.update_same] at h
        simp only [BL_RSP_COMMS_ERROR, BL_RSP_Acknowledge, BL_RSP_SIZE_ERROR, BL_RSP_BLOCK_WRITTEN,
          BL_RSP_PROGRAMMING_COMPLETE, BL_RSP_PING, BL_RSP_BL_VERSIONS, BL_RSP_CRC_ERROR,
          BL_RSP_PROGRAMMING_FAILED] at h
        norm_num at h
        obtain ⟨rfl, rfl, rfl, rfl⟩ := h
        refine ⟨st, BL_RSP_COMMS_ERROR, ?_⟩
        rw [herr] at hce
        simp [replyEndsTransfer, replyReason, BL_RSP_COMMS_ERROR, BL_RSP_Acknowledge,
          BL_RSP_SIZE_ERROR, BL_RSP_BLOCK_WRITTEN, BL_RSP_PROGRAMMING_COMPLETE, BL_RSP_PING,
          BL_RSP_BL_VERSIONS, BL_RSP_CRC_ERROR, BL_RSP_PROGRAMMING_FAILED, herr, hfw, hcfg, hsent,
          hnb, hce]
      · simp only [hce, if_false] at h
        rw [herr] at hce
        refine ⟨st, s1.msv_BL_reply 0, ?_⟩
        generalize s1.msv_BL_reply 0 = c at h hrep ⊢
        simp only [BL_RSP_COMMS_ERROR, BL_RSP_Acknowledge, BL_RSP_SIZE_ERROR, BL_RSP_BLOCK_WRITTEN,
          BL_RSP_PROGRAMMING_COMPLETE, BL_RSP_PING, BL_RSP_BL_VERSIONS, BL_RSP_CRC_ERROR,
          BL_RSP_PROGRAMMING_FAILED] at h
        by_cases h0 : c = 170
        · rw [if_pos h0] at h
          subst h0
          simp only [Run.done.injEq, Prod.mk.injEq] at h
          obtain ⟨rfl, rfl, rfl, rfl⟩ := h
          simp [replyEndsTransfer, replyReason, BL_RSP_COMMS_ERROR, BL_RSP_Acknowledge, BL_RSP_SIZE_ERROR, BL_RSP_BLOCK_WRITTEN,
            BL_RSP_PROGRAMMING_COMPLETE, BL_RSP_PING, BL_RSP_BL_VERSIONS, BL_RSP_CRC_ERROR,
            BL_RSP_PROGRAMMING_FAILED,
            herr, hfw, hcfg, hsent, hnb, hce]
          simpa using hrep
        · rw [if_neg h0] at h
          by_cases h1 : c = 1
          · rw [if_pos h1] at h
            subst h1
            simp only [Run.done.injEq, Prod.mk.injEq] at h
            obtain ⟨rfl, rfl, rfl, rfl⟩ := h
            simp [replyEndsTransfer, replyReason, BL_RSP_COMMS_ERROR, BL_RSP_Acknowledge, BL_RSP_SIZE_ERROR, BL_RSP_BLOCK_WRITTEN,
              BL_RSP_PROGRAMMING_COMPLETE, BL_RSP_PING, BL_RSP_BL_VERSIONS, BL_RSP_CRC_ERROR,
              BL_RSP_PROGRAMMING_FAILED,
              herr, hfw, hcfg, hsent, hnb, hce]
            simpa using hrep
          · rw [if_neg h1] at h
            by_cases h2 : c = 2
            · rw [if_pos h2] at h
              subst h2
              simp only [Run.done.injEq, Prod.mk.injEq] at h
              obtain ⟨rfl, rfl, rfl, rfl⟩ := h
              simp [replyEndsTransfer, replyReason, BL_RSP_COMMS_ERROR, BL_RSP_Acknowledge, BL_RSP_SIZE_ERROR, BL_RSP_BLOCK_WRITTEN,
                BL_RSP_PROGRAMMING_COMPLETE, BL_RSP_PING, BL_RSP_BL_VERSIONS, BL_RSP_CRC_ERROR,
                BL_RSP_PROGRAMMING_FAILED,
                herr, hfw, hcfg, hsent, hnb, hce]
              simpa using hrep
            · rw [if_neg h2] at h
              by_cases h3 : c = 3
              · rw [if_pos h3] at h
                subst h3
                simp only [Run.done.injEq, Prod.mk.injEq] at h
                obtain ⟨rfl, rfl, rfl, rfl⟩ := h
                simp [replyEndsTransfer, replyReason, BL_RSP_COMMS_ERROR, BL_RSP_Acknowledge, BL_RSP_SIZE_ERROR, BL_RSP_BLOCK_WRITTEN,
                  BL_RSP_PROGRAMMING_COMPLETE, BL_RSP_PING, BL_RSP_BL_VERSIONS, BL_RSP_CRC_ERROR,
                  BL_RSP_PROGRAMMING_FAILED,
                  herr, hfw, hcfg, hsent, hnb, hce]
                simpa using hrep
              · rw [if_neg h3] at h
                by_cases h4 : c = 4
                · rw [if_pos h4] at h
                  subst h4
                  simp only [Run.done.injEq, Prod.mk.injEq] at h
                  obtain ⟨rfl, rfl, rfl, rfl⟩ := h
                  simp [replyEndsTransfer, replyReason, BL_RSP_COMMS_ERROR, BL_RSP_Acknowledge, BL_RSP_SIZE_ERROR, BL_RSP_BLOCK_WRITTEN,
                    BL_RSP_PROGRAMMING_COMPLETE, BL_RSP_PING, BL_RSP_BL_VERSIONS, BL_RSP_CRC_ERROR,
                    BL_RSP_PROGRAMMING_FAILED,
                    herr, hfw, hcfg, hsent, hnb, hce]
                  simpa using hrep
                · rw [if_neg h4] at h
                  by_cases h5 : c = 5
                  · rw [if_pos h5] at h
                    subst h5
                    simp only [Run.done.injEq, Prod.mk.injEq] at h
                    obtain ⟨rfl, rfl, rfl, rfl⟩ := h
                    simp [replyEndsTransfer, replyReason, BL_RSP_COMMS_ERROR, BL_RSP_Acknowledge, BL_RSP_SIZE_ERROR, BL_RSP_BLOCK_WRITTEN,
                      BL_RSP_PROGRAMMING_COMPLETE, BL_RSP_PING, BL_RSP_BL_VERSIONS, BL_RSP_CRC_ERROR,
                      BL_RSP_PROGRAMMING_FAILED,
                      herr, hfw, hcfg, hsent, hnb, hce]
                    simpa using hrep
                  · rw [if_neg h5] at h
                    by_cases h6 : c = 6
                    · rw [if_pos h6] at h
                      subst h6
                      simp only [Run.done.injEq, Prod.mk.injEq] at h
                      obtain ⟨rfl, rfl, rfl, rfl⟩ := h
                      simp [replyEndsTransfer, replyReason, BL_RSP_COMMS_ERROR, BL_RSP_Acknowledge, BL_RSP_SIZE_ERROR, BL_RSP_BLOCK_WRITTEN,
                        BL_RSP_PROGRAMMING_COMPLETE, BL_RSP_PING, BL_RSP_BL_VERSIONS, BL_RSP_CRC_ERROR,
                        BL_RSP_PROGRAMMING_FAILED,
                        herr, hfw, hcfg, hsent, hnb, hce]
                      simpa using hrep
                    · rw [if_neg h6] at h
                      by_cases h7 : c = 7
                      · rw [if_pos h7] at h
                        subst h7
                        simp only [Run.done.injEq, Prod.mk.injEq] at h
                        obtain ⟨rfl, rfl, rfl, rfl⟩ := h
                        simp [replyEndsTransfer, replyReason, BL_RSP_COMMS_ERROR, BL_RSP_Acknowledge, BL_RSP_SIZE_ERROR, BL_RSP_BLOCK_WRITTEN,
                          BL_RSP_PROGRAMMING_COMPLETE, BL_RSP_PING, BL_RSP_BL_VERSIONS, BL_RSP_CRC_ERROR,
                          BL_RSP_PROGRAMMING_FAILED,
                          herr, hfw, hcfg, hsent, hnb, hce]
                        simpa using hrep
                      · rw [if_neg h7] at h
                        by_cases h8 : c = 8
                        · rw [if_pos h8] at h
                          subst h8
                          simp only [Run.done.injEq, Prod.mk.injEq] at h
                          obtain ⟨rfl, rfl, rfl, rfl⟩ := h
                          simp [replyEndsTransfer, replyReason, BL_RSP_COMMS_ERROR, BL_RSP_Acknowledge, BL_RSP_SIZE_ERROR, BL_RSP_BLOCK_WRITTEN,
                            BL_RSP_PROGRAMMING_COMPLETE, BL_RSP_PING, BL_RSP_BL_VERSIONS, BL_RSP_CRC_ERROR,
                            BL_RSP_PROGRAMMING_FAILED,
                            herr, hfw, hcfg, hsent, hnb, hce]
                          simpa using hrep
                        · rw [if_neg h8] at h
                          by_cases h9 : c = 0
                          · rw [if_pos h9] at h
                            subst h9
                            simp only [Run.done.injEq, Prod.mk.injEq] at h
                            obtain ⟨rfl, rfl, rfl, rfl⟩ := h
                            simp [replyEndsTransfer, replyReason, BL_RSP_COMMS_ERROR, BL_RSP_Acknowledge, BL_RSP_SIZE_ERROR, BL_RSP_BLOCK_WRITTEN,
                              BL_RSP_PROGRAMMING_COMPLETE, BL_RSP_PING, BL_RSP_BL_VERSIONS, BL_RSP_CRC_ERROR,
                              BL_RSP_PROGRAMMING_FAILED,
                              herr, hfw, hcfg, hsent, hnb, hce]
                            simpa using hrep
                          · rw [if_neg h9] at h
                            simp only [Run.done.injEq, Prod.mk.injEq] at h
                            obtain ⟨rfl, rfl, rfl, rfl⟩ := h
                            simp [replyEndsTransfer, replyReason, BL_RSP_COMMS_ERROR, BL_RSP_Acknowledge, BL_RSP_SIZE_ERROR, BL_RSP_BLOCK_WRITTEN,
                              BL_RSP_PROGRAMMING_COMPLETE, BL_RSP_PING, BL_RSP_BL_VERSIONS, BL_RSP_CRC_ERROR,
                              BL_RSP_PROGRAMMING_FAILED,
                              herr, hfw, hcfg, hsent, hnb, hce, h0, h1, h2, h3, h4, h5, h6, h7, h8, h9]
                            simpa using hrep

/-- The loop of `zul_transferFirmware` when it has a result: the block
transactions it adds to the record are made at offsets 64 apart; either none of
the recorded reply codes ends the transfer and the result is `SUCCESS`, or only
the last one does, and it fixes the result and the reason. -/
theorem transferLoop_inv (nb : Int) (fuel : Nat) (l : XferLoop) (u : Usb) (s : Services)
    (r : Int) (l1 : XferLoop) (u1 : Usb) (s1 : Services)
    (h : transferLoop nb fuel l u s = Run.done (r, l1, u1, s1)) :
    ∃ new : List BlockRecord, l1.trace = l.trace ++ new ∧
      (∀ (i : Nat) (b : BlockRecord), new[i]? = some b →
        b.block_start = l.block_start + ZY_BL_MAX_DATA * (i : Int)) ∧
      (((∀ b ∈ new, replyEndsTransfer b.reply = false) ∧ r = SUCCESS) ∨
        ∃ pre b, new = pre ++ [b] ∧ (∀ x ∈ pre, replyEndsTransfer x.reply = false) ∧
          replyEndsTransfer b.reply = true ∧
          r = (if b.reply = BL_RSP_PROGRAMMING_COMPLETE then SUCCESS else FAILURE) ∧
          s1.msv_fwXferResultStr = ResultStr.text (replyReason b.reply)) ∧
      u1.sameConfig u ∧ u1.sent.length ≤ u.sent.length + new.length := by
  induction fuel generalizing l u s with
  | zero =>
    unfold transferLoop at h
    split_ifs at h
    simp only [Run.done.injEq, Prod.mk.injEq] at h
    obtain ⟨rfl, rfl, rfl, rfl⟩ := h
    exact ⟨[], by simp, by simp, Or.inl ⟨by simp, rfl⟩, u.sameConfig_refl, by simp⟩
  | succ fuel ih =>
    unfold transferLoop at h
    split_ifs at h with hc
    · cases hb : transferBlock nb l u s with
      | fault f =>
        rw [hb] at h
        exact absurd h (by simp)
      | done p =>
        obtain ⟨ro, l2, u2, s2⟩ := p
        obtain ⟨st, c, htr, hstart, _, hr, hstr, _, _, _, _, _, hcfg, hsent, _⟩ :=
          transferBlock_inv nb l u s ro l2 u2 s2 hb
        have hlen : u2.sent.length ≤ u.sent.length + 1 := by
          rcases hsent with h0 | ⟨t, h0⟩ <;> rw [h0] <;> simp
        rw [hb] at h
        by_cases hend : replyEndsTransfer c = true
        · rw [if_pos hend] at hr
          subst hr
          simp only [Run.done.injEq, Prod.mk.injEq] at h
          obtain ⟨rfl, rfl, rfl, rfl⟩ := h
          refine ⟨[⟨l.block_start, st, s.errorCount, c⟩], htr, ?_, Or.inr ⟨[], _, rfl, by simp,
            hend, rfl, hstr hend⟩, hcfg, by simpa using hlen⟩
          intro i b hi
          cases i with
          | zero =>
            simp only [List.getElem?_cons_zero, Option.some.injEq] at hi
            subst hi
            simp
          | succ i => simp at hi
        · rw [if_neg hend] at hr hstart
          subst hr
          simp only at h
          obtain ⟨new, htr2, hoff, hres, hcfg2, hsent2⟩ := ih l2 u2 s2 h
          refine ⟨⟨l.block_start, st, s.errorCount, c⟩ :: new, ?_, ?_, ?_,
            Usb.sameConfig_trans hcfg2 hcfg, ?_⟩
          · rw [htr2, htr, List.append_assoc, List.singleton_append]
          · intro i b hi
            cases i with
            | zero =>
              simp only [List.getElem?_cons_zero, Option.some.injEq] at hi
              subst hi
              simp
            | succ i =>
              rw [List.getElem?_cons_succ] at hi
              rw [hoff i b hi, hstart]
              push_cast
              ring
          · have hend0 : replyEndsTransfer c = false := by simpa using hend
            rcases hres with ⟨hall, hr⟩ | ⟨pre, b, hnew, hpre, hb1, hb2, hb3⟩
            · left
              refine ⟨fun x hx => ?_, hr⟩
              rcases List.mem_cons.mp hx with rfl | hx
              · exact hend0
              · exact hall x hx
            · right
              refine ⟨⟨l.block_start, st, s.errorCount, c⟩ :: pre, b, by rw [hnew]; rfl, ?_,
                hb1, hb2, hb3⟩
              intro x hx
              rcases List.mem_cons.mp hx with rfl | hx
              · exact hend0
              · exact hpre x hx
          · simp only [List.length_cons]
            omega
    · simp only [Run.done.injEq, Prod.mk.injEq] at h
      obtain ⟨rfl, rfl, rfl, rfl⟩ := h
      exact ⟨[], by simp, by simp, Or.inl ⟨by simp, rfl⟩, u.sameConfig_refl, by simp⟩

/-- The function `zul_transferFirmware` when it has a result: the `k`-th block
transaction is made at offset 64 `k`; either none of the recorded reply codes
ends the transfer and the result is `SUCCESS`, or only the last one does. -/
theorem zul_transferFirmware_inv (track : Bool) (u : Usb) (s : Services) (r : Int)
    (tr : List BlockRecord) (u1 : Usb) (s1 : Services)
    (h : zul_transferFirmware track u s = Run.done (r, tr, u1, s1)) :
    (∀ (i : Nat) (b : BlockRecord), tr[i]? = some b →
        b.block_start = ZY_BL_MAX_DATA * (i : Int)) ∧
      (((∀ b ∈ tr, replyEndsTransfer b.reply = false) ∧ r = SUCCESS) ∨
        ∃ pre b, tr = pre ++ [b] ∧ (∀ x ∈ pre, replyEndsTransfer x.reply = false) ∧
          replyEndsTransfer b.reply = true ∧
          r = (if b.reply = BL_RSP_PROGRAMMING_COMPLETE then SUCCESS else FAILURE) ∧
          s1.msv_fwXferResultStr = ResultStr.text (replyReason b.reply)) ∧
      u1.sameConfig u ∧ u1.sent.length ≤ u.sent.length + tr.length := by
  unfold zul_transferFirmware at h
  dsimp only at h
  cases hl : transferLoop (Int.tdiv (castInt s.msv_fwInfo.byteCount) ZY_BL_MAX_DATA)
      (s.msv_fwInfo.byteCount / 64 + 1) ⟨0, 0, 0, []⟩ u (zul_BLresetPktCount s) with
  | fault f =>
    rw [hl] at h
    exact absurd h (by simp)
  | done p =>
    obtain ⟨r2, l2, u2, s2⟩ := p
    rw [hl] at h
    simp only [Run.done.injEq, Prod.mk.injEq] at h
    obtain ⟨rfl, rfl, rfl, rfl⟩ := h
    obtain ⟨new, htr, hoff, hres, hcfg, hsent⟩ := transferLoop_inv _ _ _ _ _ _ _ _ _ hl
    rw [List.nil_append] at htr
    rw [htr]
    refine ⟨fun i b hi => ?_, hres, hcfg, hsent⟩
    rw [hoff i b hi]
    simp

/-- The reply code `blockReply` gives is the one in the record the turn adds. -/
theorem blockReply_inv (nb : Int) (l : XferLoop) (u : Usb) (s : Services) (c : Nat)
    (h : blockReply nb l u s = some c) :
    ∃ r l1 u1 s1, transferBlock nb l u s = Run.done (r, l1, u1, s1) ∧
      ∀ (st : Int) (c1 : Nat),
        l1.trace = l.trace ++ [⟨l.block_start, st, s.errorCount, c1⟩] → c1 = c := by
  unfold blockReply at h
  cases hb : transferBlock nb l u s with
  | fault f =>
    rw [hb] at h
    exact absurd h (by simp)
  | done p =>
    obtain ⟨r, l1, u1, s1⟩ := p
    rw [hb] at h
    refine ⟨r, l1, u1, s1, rfl, fun st c1 htr => ?_⟩
    simp only [htr, List.getLast?_append, List.getLast?_singleton] at h
    simpa using h

/-! ## Lemmas on the interrupt reports -/

/-- The loop of `handle_IN_rawdata_mt` started inside the sensor, with an image
that holds the sensor and a packet that holds the declared cells, or the cells
that are left in the sensor from the start cell on: it has a result, and every
write is inside the sensor. -/
theorem rawdataLoop_spec (xW yW : Nat) (data : List Nat) (n p col row : Nat) (image : List Nat)
    (trace : List CellWrite) (hcol : col < xW) (hrow : row < yW)
    (himg : xW * yW ≤ image.length)
    (hdata : p + n ≤ data.length ∨
      (xW ≤ 255 ∧ yW ≤ 255 ∧ p + ((xW - col) * yW - row) ≤ data.length)) :
    ∃ image1 new, rawdataLoop xW yW data n p col row image trace = some (image1, trace ++ new) ∧
      image1.length = image.length ∧ new.length ≤ n ∧
      (∀ k w, new[k]? = some w → data[p + k]? = some w.value ∧
        w.index = yW * w.colIndex + w.rowIndex ∧ w.colIndex < xW ∧ w.rowIndex < yW ∧
        w.index < xW * yW) ∧
      (∀ w, new[0]? = some w → w.colIndex = col ∧ w.rowIndex = row) ∧
      (n ≠ 0 → new ≠ []) ∧
      (∀ k w w1, new[k]? = some w → new[k + 1]? = some w1 →
        if u8 (w.rowIndex + 1) = yW then w1.rowIndex = 0 ∧ w1.colIndex = u8 (w.colIndex + 1)
        else w1.rowIndex = u8 (w.rowIndex + 1) ∧ w1.colIndex = w.colIndex) ∧
      (new.length < n → ∃ w, new.getLast? = some w ∧ u8 (w.rowIndex + 1) = yW ∧
        u8 (w.colIndex + 1) = xW) := by
  induction n generalizing p col row image trace with
  | zero =>
    refine ⟨image, [], by simp [rawdataLoop], rfl, le_refl _, ?_, ?_, ?_, ?_, ?_⟩
    · intro k w h; simp at h
    · intro w h; simp at h
    · intro h; exact absurd rfl h
    · intro k w w1 h; simp at h
    · intro h; simp at h
  | succ n ih =>
    have hge : yW ≤ (xW - col) * yW := Nat.le_mul_of_pos_left _ (by omega)
    have hp : p < data.length := by
      rcases hdata with h | ⟨_, _, h⟩ <;> omega
    have hidx : yW * col + row < xW * yW := by
      have h1 : yW * col + row < yW * (col + 1) := by rw [Nat.mul_succ]; omega
      have h2 : yW * (col + 1) ≤ yW * xW := Nat.mul_le_mul_left _ hcol
      rw [Nat.mul_comm xW yW]
      omega
    have hst : store image (yW * col + row) data[p] =
        some (image.set (yW * col + row) (u8 data[p])) := by
      unfold store
      rw [if_pos (by omega)]
    have hfacts : ∀ w : CellWrite, w = ⟨col, row, yW * col + row, data[p]⟩ →
        data[p + 0]? = some w.value ∧ w.index = yW * w.colIndex + w.rowIndex ∧
          w.colIndex < xW ∧ w.rowIndex < yW ∧ w.index < xW * yW := by
      intro w hw
      subst hw
      exact ⟨by simp [List.getElem?_eq_getElem hp], rfl, hcol, hrow, hidx⟩
    rw [rawdataLoop, List.getElem?_eq_getElem hp]
    simp only [hst]
    by_cases hr : u8 (row + 1) = yW
    · rw [if_pos hr]
      by_cases hc : u8 (col + 1) = xW
      · rw [if_pos hc]
        refine ⟨_, [⟨col, row, yW * col + row, data[p]⟩], rfl, by simp, by simp, ?_, ?_, ?_,
          ?_, ?_⟩
        · intro k w h
          cases k with
          | zero =>
            simp only [List.getElem?_cons_zero, Option.some.injEq] at h
            exact hfacts w h.symm
          | succ k => simp at h
        · intro w h
          simp only [List.getElem?_cons_zero, Option.some.injEq] at h
          subst h
          exact ⟨rfl, rfl⟩
        · intro _; simp
        · intro k w w1 _ h1; simp at h1
        · intro _
          exact ⟨_, rfl, hr, hc⟩
      · rw [if_neg hc]
        have hcol1 : u8 (col + 1) < xW := by
          unfold u8 at hc ⊢
          omega
        have hrow1 : 0 < yW := by omega
        have hd1 : p + 1 + n ≤ data.length ∨
            (xW ≤ 255 ∧ yW ≤ 255 ∧ p + 1 + ((xW - u8 (col + 1)) * yW - 0) ≤ data.length) := by
          rcases hdata with h | ⟨hx, hy, h⟩
          · exact Or.inl (by omega)
          · refine Or.inr ⟨hx, hy, ?_⟩
            have hr1 : row + 1 = yW := by unfold u8 at hr; omega
            have hc1 : u8 (col + 1) = col + 1 := by unfold u8; omega
            have hsplit : (xW - col) * yW = (xW - (col + 1)) * yW + yW := by
              rw [show xW - col = (xW - (col + 1)) + 1 by omega, Nat.add_mul, Nat.one_mul]
            rw [hc1]
            omega
        obtain ⟨image1, new, hrun, hlen, hn, hall, hfirst, hne, hchain, hstop⟩ :=
          ih (p + 1) (u8 (col + 1)) 0 (image.set (yW * col + row) (u8 data[p]))
            (trace ++ [⟨col, row, yW * col + row, data[p]⟩]) hcol1 hrow1
            (by rw [List.length_set]; exact himg) hd1
        refine ⟨image1, ⟨col, row, yW * col + row, data[p]⟩ :: new, ?_, ?_, ?_, ?_, ?_, ?_,
          ?_, ?_⟩
        · rw [hrun, List.append_assoc, List.singleton_append]
        · rw [hlen, List.length_set]
        · simp only [List.length_cons]; omega
        · intro k w h
          cases k with
          | zero =>
            simp only [List.getElem?_cons_zero, Option.some.injEq] at h
            exact hfacts w h.symm
          | succ k =>
            rw [List.getElem?_cons_succ] at h
            have := hall k w h
            rw [show p + (k + 1) = p + 1 + k by omega]
            exact this
        · intro w h
          simp only [List.getElem?_cons_zero, Option.some.injEq] at h
          subst h
          exact ⟨rfl, rfl⟩
        · intro _; simp
        · intro k w w1 h h1
          cases k with
          | zero =>
            simp only [List.getElem?_cons_zero, Option.some.injEq] at h
            subst h
            rw [List.getElem?_cons_succ] at h1
            obtain ⟨a, b⟩ := hfirst w1 h1
            simp only
            rw [if_pos hr]
            exact ⟨b, a⟩
          | succ k =>
            rw [List.getElem?_cons_succ] at h h1
            exact hchain k w w1 h h1
        · intro hlt
          simp only [List.length_cons] at hlt
          obtain ⟨w, hw, h1, h2⟩ := hstop (by omega)
          refine ⟨w, ?_, h1, h2⟩
          cases new with
          | nil => simp at hw
          | cons a rest => simpa [List.getLast?_cons_cons] using hw
    · rw [if_neg hr]
      have hrow1 : u8 (row + 1) < yW := by
        unfold u8 at hr ⊢
        omega
      have hd1 : p + 1 + n ≤ data.length ∨
          (xW ≤ 255 ∧ yW ≤ 255 ∧ p + 1 + ((xW - col) * yW - u8 (row + 1)) ≤ data.length) := by
        rcases hdata with h | ⟨hx, hy, h⟩
        · exact Or.inl (by omega)
        · refine Or.inr ⟨hx, hy, ?_⟩
          have hr1 : u8 (row + 1) = row + 1 := by unfold u8; omega
          rw [hr1]
          omega
      obtain ⟨image1, new, hrun, hlen, hn, hall, hfirst, hne, hchain, hstop⟩ :=
        ih (p + 1) col (u8 (row + 1)) (image.set (yW * col + row) (u8 data[p]))
          (trace ++ [⟨col, row, yW * col + row, data[p]⟩]) hcol hrow1
          (by rw [List.length_set]; exact himg) hd1
      refine ⟨image1, ⟨col, row, yW * col + row, data[p]⟩ :: new, ?_, ?_, ?_, ?_, ?_, ?_,
        ?_, ?_⟩
      · rw [hrun, List.append_assoc, List.singleton_append]
      · rw [hlen, List.length_set]
      · simp only [List.length_cons]; omega
      · intro k w h
        cases k with
        | zero =>
          simp only [List.getElem?_cons_zero, Option.some.injEq] at h
          exact hfacts w h.symm
        | succ k =>
          rw [List.getElem?_cons_succ] at h
          have := hall k w h
          rw [show p + (k + 1) = p + 1 + k by omega]
          exact this
      · intro w h
        simp only [List.getElem?_cons_zero, Option.some.injEq] at h
        subst h
        exact ⟨rfl, rfl⟩
      · intro _; simp
      · intro k w w1 h h1
        cases k with
        | zero =>
          simp only [List.getElem?_cons_zero, Option.some.injEq] at h
          subst h
          rw [List.getElem?_cons_succ] at h1
          obtain ⟨a, b⟩ := hfirst w1 h1
          simp only
          rw [if_neg hr]
          exact ⟨b, a⟩
        | succ k =>
          rw [List.getElem?_cons_succ] at h h1
          exact hchain k w w1 h h1
      · intro hlt
        simp only [List.length_cons] at hlt
        obtain ⟨w, hw, h1, h2⟩ := hstop (by omega)
        refine ⟨w, ?_, h1, h2⟩
        cases new with
        | nil => simp at hw
        | cons a rest => simpa [List.getLast?_cons_cons] using hw

/-- Once the heartbeat buffer does not start with the heartbeat report ID, calls
of `zul_GetHeartBeatData` and packets with another report ID leave it as it
is, and every call returns `NULL`. -/
theorem hbRun_consumed (evs : List HbEvent) (s : Reports) (b : Nat)
    (hb : s.msv_heartBeatData[0]? = some b) (hne : b ≠ HEARTBEAT_REPORT)
    (hev : ∀ p, HbEvent.packet p ∈ evs → ∃ x, p[0]? = some x ∧ x ≠ HEARTBEAT_REPORT) :
    ∃ rs, hbRun evs s = some (rs, s) ∧ (∀ r ∈ rs, r = none) := by
  induction evs with
  | nil => exact ⟨[], rfl, by simp⟩
  | cons e rest ih =>
    have hrest : ∀ p, HbEvent.packet p ∈ rest →
        ∃ x, p[0]? = some x ∧ x ≠ HEARTBEAT_REPORT :=
      fun p hp => hev p (List.mem_cons_of_mem _ hp)
    obtain ⟨rs, hrun, hall⟩ := ih hrest
    cases e with
    | get =>
      have hget : zul_GetHeartBeatData s = some (none, s) := by
        unfold zul_GetHeartBeatData
        rw [hb]
        simp only [if_neg hne]
      refine ⟨none :: rs, ?_, ?_⟩
      · simp only [hbRun, hget, hrun]
      · intro r hr
        rcases List.mem_cons.mp hr with rfl | hr
        · rfl
        · exact hall r hr
    | packet p =>
      obtain ⟨x, hx, hxne⟩ := hev p (List.mem_cons_self _ _)
      have hh : handle_IN_heartbeat p s = some s := by
        unfold handle_IN_heartbeat
        rw [hx]
        simp only [if_neg hxne]
      exact ⟨rs, by simp only [hbRun, hh, hrun], hall⟩

/-! ## Lemmas on get and status transactions -/

/-- The receive loop with any handler, when attempt `k` is the first good one
and no attempt before it is fatal: the handler is applied once, to a buffer
that starts with that reply, and the result is the length of that reply. -/
theorem rxLoop_first_good {σ : Type} (h : List Nat → σ → σ) (k n : Nat) (res : Int)
    (data : List Nat) (u : Usb) (s : σ) (hk : k < n) (hdata : BUF_LEN ≤ data.length)
    (hbefore : ∀ i, i < k → (u.rxAt i).good = false ∧ (u.rxAt i).fatal = false)
    (hgood : (u.rxAt k).good = true) :
    ∃ u1 buf, rxLoop h n res data u s = some ((u.rxAt k).res, u1, h buf s) ∧
      buf.take (u.rxAt k).data.length = (u.rxAt k).data ∧ 0 < (u.rxAt k).res := by
  induction k generalizing n res data u with
  | zero =>
    obtain ⟨m, rfl⟩ : ∃ m, n = m + 1 := ⟨n - 1, by omega⟩
    exact ⟨_, _, rxLoop_good h m res data u s hgood,
      ((u.rxAt 0).fill_length data hdata).2, ((RxResult.good_iff _).mp hgood).1⟩
  | succ k ih =>
    obtain ⟨m, rfl⟩ : ∃ m, n = m + 1 := ⟨n - 1, by omega⟩
    obtain ⟨hg0, hf0⟩ := hbefore 0 (by omega)
    have hshift := u.receive_snd.2.2.2
    obtain ⟨u1, buf, hrun, htake, hpos⟩ :=
      ih m (u.rxAt 0).res ((u.rxAt 0).fill data) u.receive.2 (by omega)
        (by rw [((u.rxAt 0).fill_length data hdata).1]; exact hdata)
        (fun i hi => by rw [hshift i]; exact hbefore (i + 1) (by omega))
        (by rw [hshift k]; exact hgood)
    rw [hshift k] at hrun htake hpos
    exact ⟨u1, buf, by rw [rxLoop_continue h m res data u s hg0 hf0]; exact hrun, htake, hpos⟩

/-- A control request on an open device whose OUT transfer succeeds and whose
first good reply comes at attempt `k`, within the retry count. -/
theorem usb_ControlRequest_first_good {σ : Type} (h : List Nat → σ → σ) (req : List Nat)
    (reqLen : Nat) (u : Usb) (s : σ) (k : Nat) (h0 : reqLen ≠ 0) (h64 : reqLen ≤ 64)
    (hreq : reqLen ≤ req.length) (hdev : u.msv_dev_handle = true)
    (htx : 0 ≤ u.txResults.headD LibusbError.TIMEOUT.code) (hk : k < u.msv_CtrlRetry.toNat)
    (hbefore : ∀ i, i < k → (u.rxAt i).good = false ∧ (u.rxAt i).fatal = false)
    (hgood : (u.rxAt k).good = true) :
    ∃ u1 buf, usb_ControlRequest (some h) (some req) reqLen u s =
        some ((u.rxAt k).res, u1, h buf s) ∧
      buf.take (u.rxAt k).data.length = (u.rxAt k).data ∧ 0 < (u.rxAt k).res := by
  set t : OutTransfer := ⟨if u.msv_bootloader then 0x0300 else 0x0305, u.msv_activeInterface,
    req.take reqLen ++ List.replicate (64 - reqLen) 0⟩ with ht
  obtain ⟨_, _, _, htx2, htres⟩ := u.transmit_snd t
  have hneg : ¬ (u.transmit t).1 < 0 := by rw [htres]; omega
  obtain ⟨u1, buf, hrun, htake, hpos⟩ :=
    rxLoop_first_good h k u.msv_CtrlRetry.toNat (u.transmit t).1
      ((u.junk ++ List.replicate (BUF_LEN + 1) 0).take (BUF_LEN + 1)) (u.transmit t).2 s hk
      (by simp [BUF_LEN])
      (fun i hi => by rw [htx2 i]; exact hbefore i hi) (by rw [htx2 k]; exact hgood)
  rw [htx2 k] at hrun htake hpos
  refine ⟨u1, buf, ?_, htake, hpos⟩
  unfold usb_ControlRequest
  simp only [hdev, Bool.true_eq_false, if_false, h0]
  rw [if_neg (by omega)]
  simp only [← ht, hneg, if_false]
  exact hrun

theorem zul_encodeGetStatus_fits (ID : Nat) :
    zul_encodeGetStatus (some (List.replicate DUAL_BYTE_MSG_LEN 0)) DUAL_BYTE_MSG_LEN ID =
      some (true, some (frameBytes (EncodeCall.GetStatus ID).payload)) ∧
    (frameBytes (EncodeCall.GetStatus ID).payload).length = 9 := by
  have h := (EncodeCall.GetStatus ID).run_eq (List.replicate DUAL_BYTE_MSG_LEN 0)
    DUAL_BYTE_MSG_LEN (by simp [DUAL_BYTE_MSG_LEN])
  have hp : (EncodeCall.GetStatus ID).payload.length = 2 := rfl
  have hm : (EncodeCall.GetStatus ID).minLen = 8 := rfl
  rw [hp, hm, if_neg (by simp [DUAL_BYTE_MSG_LEN])] at h
  have hd : List.drop (7 + 2) (List.replicate DUAL_BYTE_MSG_LEN 0) = [] := by
    simp [DUAL_BYTE_MSG_LEN]
  rw [hd, List.append_nil] at h
  exact ⟨h, by rw [frameBytes_length, hp]⟩

theorem zul_encodeGetRequest_fits (ID : Nat) :
    zul_encodeGetRequest (some (List.replicate DUAL_BYTE_MSG_LEN 0)) DUAL_BYTE_MSG_LEN ID =
      some (true, some (frameBytes (EncodeCall.GetRequest ID).payload)) ∧
    (frameBytes (EncodeCall.GetRequest ID).payload).length = 9 := by
  have h := (EncodeCall.GetRequest ID).run_eq (List.replicate DUAL_BYTE_MSG_LEN 0)
    DUAL_BYTE_MSG_LEN (by simp [DUAL_BYTE_MSG_LEN])
  have hp : (EncodeCall.GetRequest ID).payload.length = 2 := rfl
  have hm : (EncodeCall.GetRequest ID).minLen = 8 := rfl
  rw [hp, hm, if_neg (by simp [DUAL_BYTE_MSG_LEN])] at h
  have hd : List.drop (7 + 2) (List.replicate DUAL_BYTE_MSG_LEN 0) = [] := by
    simp [DUAL_BYTE_MSG_LEN]
  rw [hd, List.append_nil] at h
  exact ⟨h, by rw [frameBytes_length, hp]⟩

/-- The value `get_response` and `status_response` take from a buffer that
starts with the 64 bytes `r`. -/
theorem response_value (r buf : List Nat) (hb : ∀ x ∈ r, x < 256)
    (hbuf : buf.take 64 = r) :
    u16 (u16 (buf.getD 5 0) + u16 (buf.getD 6 0) * 0x100) = r.getD 5 0 + 256 * r.getD 6 0 := by
  have h5 : buf.getD 5 0 = r.getD 5 0 := by
    rw [← hbuf, List.getD_eq_getElem?_getD, List.getD_eq_getElem?_getD,
      List.getElem?_take_of_lt (by omega)]
  have h6 : buf.getD 6 0 = r.getD 6 0 := by
    rw [← hbuf, List.getD_eq_getElem?_getD, List.getD_eq_getElem?_getD,
      List.getElem?_take_of_lt (by omega)]
  have a := getD_lt_of_bytes hb 5
  have b := getD_lt_of_bytes hb 6
  rw [h5, h6]
  unfold u16
  omega

/-- A file of `n` zero bytes followed by the hardware info 1 2 and the CRC
bytes 0 0 is accepted by `zul_loadAndValidateZyf`: the CRC over zero bytes
is 0. -/
theorem zul_loadAndValidateZyf_zero_body (n : Nat) (s : Services) (h1 : 1 ≤ n)
    (hmax : n ≤ 131068) :
    zul_loadAndValidateZyf (ZyfFile.ofBytes (List.replicate n 0 ++ [1, 2, 0, 0])) s =
      some (SUCCESS, { s with
        msv_fwInfo := ⟨n, n, (1, 2), 0, some (List.replicate n 0 ++ [1, 2, 0, 0])⟩
        msv_fwXferResultStr := ResultStr.text "ZYF CRC pass. File OK." }) := by
  have hlen : (List.replicate n 0 ++ [1, 2, 0, 0]).length = n + 4 := by simp
  have hb : ∀ x ∈ List.replicate n 0 ++ [1, 2, 0, 0], x < 256 := by
    intro x hx
    rcases List.mem_append.mp hx with h | h
    · rw [(List.mem_replicate.mp h).2]; decide
    · simp only [List.mem_cons, List.mem_singleton, List.not_mem_nil, or_false] at h
      rcases h with rfl | rfl | rfl | rfl <;> decide
  have hload := zul_loadAndValidateZyf_ofBytes _ s hb (by rw [hlen]; omega) (by rw [hlen]; omega)
  have g : ∀ i v, [1, 2, 0, 0][i]? = some v →
      (List.replicate n 0 ++ [1, 2, 0, 0]).getD (n + i) 0 = v := by
    intro i v hv
    rw [List.getD_eq_getElem?_getD, List.getElem?_append_right (by simp)]
    simp only [List.length_replicate, Nat.add_sub_cancel_left, hv, Option.getD_some]
  have e4 : n + 4 - 4 = n + 0 := by omega
  have e3 : n + 4 - 3 = n + 1 := by omega
  have e2 : n + 4 - 2 = n + 2 := by omega
  have e1 : n + 4 - 1 = n + 3 := by omega
  have htake : (List.replicate n 0 ++ [1, 2, 0, 0]).take (n + 0) = List.replicate n 0 := by
    rw [Nat.add_zero, List.take_append_of_le_length (by simp), List.take_of_length_le (by simp)]
  rw [hlen, e4, e3, e2, e1, g 0 1 rfl, g 1 2 rfl, g 2 0 rfl, g 3 0 rfl, htake,
    crc16_reference_zeros, if_pos rfl] at hload
  exact hload

/-! ## Lemmas on the self-capacitance raw data -/

theorem wireLoop100_spec (data : List Nat) (n p w : Nat) (sig : List Nat)
    (hp : p + n ≤ data.length) (hw : w + n ≤ sig.length) :
    ∃ sig1, wireLoop100 data n p w sig = some sig1 ∧ sig1.length = sig.length ∧
      ∀ i, sig1[i]? = if w ≤ i ∧ i < w + n then (data[p + (i - w)]?).map u8 else sig[i]? := by
  induction n generalizing p w sig with
  | zero =>
    refine ⟨sig, rfl, rfl, fun i => ?_⟩
    rw [if_neg (by omega)]
  | succ n ih =>
    have hpl : p < data.length := by omega
    have hst : store sig w data[p] = some (sig.set w (u8 data[p])) := by
      unfold store
      rw [if_pos (by omega)]
    obtain ⟨sig1, hrun, hlen, hall⟩ := ih (p + 1) (w + 1) (sig.set w (u8 data[p]))
      (by omega) (by rw [List.length_set]; omega)
    refine ⟨sig1, ?_, by rw [hlen, List.length_set], fun i => ?_⟩
    · rw [wireLoop100, List.getElem?_eq_getElem hpl]
      simp only [hst, hrun]
    · rw [hall i]
      by_cases h1 : w + 1 ≤ i ∧ i < w + 1 + n
      · rw [if_pos h1, if_pos (by omega), show p + 1 + (i - (w + 1)) = p + (i - w) by omega]
      · rw [if_neg h1]
        by_cases h2 : i = w
        · subst h2
          rw [if_pos (by omega), List.getElem?_set_self (by omega), Nat.sub_self, Nat.add_zero,
            List.getElem?_eq_getElem hpl]
          rfl
        · rw [if_neg (by omega), List.getElem?_set_ne (by omega)]

theorem wireLoop110_spec (data : List Nat) (n p w : Nat) (sig : List Nat)
    (hp : p + 2 * n ≤ data.length) (hw : w + n ≤ sig.length) :
    ∃ sig1, wireLoop110 data n p w sig = some sig1 ∧ sig1.length = sig.length ∧
      ∀ i, sig1[i]? = if w ≤ i ∧ i < w + n then
          some (u16 (u16 (data.getD (p + 2 * (i - w)) 0) +
            0x100 * data.getD (p + 2 * (i - w) + 1) 0))
        else sig[i]? := by
  induction n generalizing p w sig with
  | zero =>
    refine ⟨sig, rfl, rfl, fun i => ?_⟩
    rw [if_neg (by omega)]
  | succ n ih =>
    have hpl : p < data.length := by omega
    have hpl1 : p + 1 < data.length := by omega
    have hst : store16 sig w (u16 data[p] + 0x100 * data[p + 1]) =
        some (sig.set w (u16 (u16 data[p] + 0x100 * data[p + 1]))) := by
      unfold store16
      rw [if_pos (by omega)]
    obtain ⟨sig1, hrun, hlen, hall⟩ :=
      ih (p + 2) (w + 1) (sig.set w (u16 (u16 data[p] + 0x100 * data[p + 1])))
        (by omega) (by rw [List.length_set]; omega)
    refine ⟨sig1, ?_, by rw [hlen, List.length_set], fun i => ?_⟩
    · rw [wireLoop110, List.getElem?_eq_getElem hpl, List.getElem?_eq_getElem hpl1]
      simp only [hst, hrun]
    · rw [hall i]
      by_cases h1 : w + 1 ≤ i ∧ i < w + 1 + n
      · rw [if_pos h1, if_pos (by omega),
          show p + 2 + 2 * (i - (w + 1)) = p + 2 * (i - w) by omega]
      · rw [if_neg h1]
        by_cases h2 : i = w
        · subst h2
          have a : data.getD (p + 0) 0 = data[p] := List.getD_eq_getElem _ _ hpl
          have b : data.getD (p + 0 + 1) 0 = data[p + 1] := List.getD_eq_getElem _ _ hpl1
          rw [if_pos (by omega), List.getElem?_set_self (by omega), Nat.sub_self, Nat.mul_zero,
            a, b]
        · rw [if_neg (by omega), List.getElem?_set_ne (by omega)]

/-! ## Lemmas on the CPU-ID string -/

theorem shiftRight_and (a b k : Nat) : (a &&& b) >>> k = (a >>> k) &&& (b >>> k) := by
  apply Nat.eq_of_testBit_eq
  intro i
  simp only [Nat.testBit_shiftRight, Nat.testBit_and]

/-- The function `zul_byteSwap` exchanges the two bytes of a 16-bit value. -/
theorem zul_byteSwap_eq (v : Nat) : zul_byteSwap v = v / 256 % 256 + v % 256 * 256 := by
  have h1 : v &&& 0x00ff = v % 256 := Nat.and_pow_two_sub_one_eq_mod v 8
  have h2 : (v &&& 0xff00) >>> 8 = v / 256 % 256 := by
    rw [shiftRight_and, show (0xff00 : Nat) >>> 8 = 2 ^ 8 - 1 by decide,
      Nat.and_pow_two_sub_one_eq_mod, Nat.shiftRight_eq_div_pow]
  have h3 : (v % 256) <<< 8 = 2 ^ 8 * (v % 256) := by
    rw [Nat.shiftLeft_eq, Nat.mul_comm]
  have hlt : v / 256 % 256 < 2 ^ 8 := Nat.mod_lt _ (by decide)
  unfold zul_byteSwap
  rw [h1, h2, h3, Nat.or_comm, ← Nat.mul_add_lt_is_or hlt]
  unfold u16
  omega

theorem zul_byteSwap_involutive (v : Nat) (hv : v < 65536) :
    zul_byteSwap (zul_byteSwap v) = v := by
  have ha : v / 256 % 256 = v / 256 := Nat.mod_eq_of_lt (by omega)
  have hw1 : (v / 256 + v % 256 * 256) / 256 = v % 256 := by omega
  have hw2 : (v / 256 + v % 256 * 256) % 256 = v / 256 := by omega
  have hb : v % 256 % 256 = v % 256 := Nat.mod_eq_of_lt (Nat.mod_lt _ (by decide))
  rw [zul_byteSwap_eq, zul_byteSwap_eq, ha, hw1, hw2, hb]
  omega

theorem hexChar_upper (d : Nat) (hd : d < 16) :
    (48 ≤ hexChar d ∧ hexChar d ≤ 57) ∨ (65 ≤ hexChar d ∧ hexChar d ≤ 70) := by
  unfold hexChar
  split_ifs <;> omega

theorem sprintf04X_upper (v : Nat) :
    (sprintf04X v).length = 4 ∧
      ∀ c ∈ sprintf04X v, (48 ≤ c ∧ c ≤ 57) ∨ (65 ≤ c ∧ c ≤ 70) := by
  refine ⟨rfl, fun c hc => ?_⟩
  simp only [sprintf04X, List.mem_cons, List.mem_singleton, List.not_mem_nil, or_false] at hc
  rcases hc with rfl | rfl | rfl | rfl <;> exact hexChar_upper _ (Nat.mod_lt _ (by decide))

/-- The OUT transfer that carries the status request for the index `ID`. -/
theorem zul_getStatusByID_sends (ID : Nat) (u : Usb) (s : Services) :
    ∃ r st u1 s1, zul_getStatusByID ID u s = some (r, st, u1, s1) ∧ u1.sameConfig u ∧
      (u.msv_dev_handle = true →
        u1.sent = u.sent ++ [⟨if u.msv_bootloader then 0x0300 else 0x0305, u.msv_activeInterface,
          frameBytes (EncodeCall.GetStatus ID).payload ++ List.replicate 55 0⟩]) := by
  obtain ⟨henc, hfl⟩ := zul_encodeGetStatus_fits ID
  obtain ⟨res, u1, s1, hrun, hcfg, _, hsent, _⟩ :=
    usb_ControlRequest_gen (some status_response) (frameBytes (EncodeCall.GetStatus ID).payload)
      DUAL_BYTE_MSG_LEN u { s with msv_xfrIndex := u8 ID } (by decide) (by rw [hfl]; decide)
  refine ⟨if res > 0 then SUCCESS else FAILURE,
    if res > 0 then some s1.msv_getStatusVal else none, u1, s1, ?_, hcfg, fun hdev => ?_⟩
  · unfold zul_getStatusByID
    simp only [henc, if_true, hrun]
  · have h := hsent hdev (by decide)
    rw [List.take_of_length_le (by rw [hfl]; decide)] at h
    exact h

theorem statusRequest_congr {u1 u : Usb} (h : u1.sameConfig u) (ID : Nat) :
    statusRequest u1 ID = statusRequest u ID := by
  obtain ⟨_, h2, h3, _⟩ := h
  unfold statusRequest
  rw [h2, h3]

/-- The loop of the CPU-ID branch always has a result: six status values are
formatted, and with a device open the six status requests are sent. -/
theorem cpuIdLoop_total (baseCI : Nat) (indet : Nat → Nat) (n x : Nat) (hxStr : List Nat)
    (u : Usb) (s : Services) :
    ∃ (st : List Nat) (u1 : Usb) (s1 : Services),
      cpuIdLoop baseCI indet n x hxStr u s =
        some (hxStr ++ st.flatMap (fun v => sprintf04X (zul_byteSwap v)), u1, s1) ∧
      st.length = n ∧ u1.sameConfig u ∧
      (u.msv_dev_handle = true →
        u1.sent = u.sent ++ (List.range n).map (fun i => statusRequest u (baseCI + (x + i)))) := by
  induction n generalizing x hxStr u s with
  | zero => exact ⟨[], u, s, by simp [cpuIdLoop], rfl, u.sameConfig_refl, fun _ => by simp⟩
  | succ n ih =>
    obtain ⟨r, stored, u1, s1, hget, hcfg, hsent⟩ := zul_getStatusByID_sends (baseCI + x) u s
    obtain ⟨st, u2, s2, hrun, hlen, hcfg2, hsent2⟩ :=
      ih (x + 1) (hxStr ++ sprintf04X (zul_byteSwap (stored.getD (u16 (indet x))))) u1 s1
    refine ⟨(stored.getD (u16 (indet x))) :: st, u2, s2, ?_, by simp [hlen],
      Usb.sameConfig_trans hcfg2 hcfg, fun hdev => ?_⟩
    · rw [cpuIdLoop, hget]
      simp only [hrun, List.flatMap_cons, List.append_assoc]
    · rw [hsent2 (hcfg.1.trans hdev), hsent hdev, List.range_succ_eq_map, List.map_cons,
        List.map_map, List.append_assoc, List.singleton_append]
      congr 2
      apply List.map_congr_left
      intro i _
      simp only [Function.comp, statusRequest_congr hcfg]
      rw [show x + 1 + i = x + Nat.succ i by omega]

theorem Usb.transmit_tx (t : OutTransfer) (u : Usb) :
    (u.transmit t).2.txResults = u.txResults.drop 1 := by
  unfold Usb.transmit
  cases u.txResults <;> simp

/-- A control request on an open device whose OUT transfer succeeds and whose
first IN transfer brings a good reply: the state afterwards is explicit. -/
theorem usb_ControlRequest_good_now {σ : Type} (h : List Nat → σ → σ) (req : List Nat)
    (reqLen : Nat) (u : Usb) (s : σ) (h0 : reqLen ≠ 0) (h64 : reqLen ≤ 64)
    (hreq : reqLen ≤ req.length) (hdev : u.msv_dev_handle = true)
    (htx : 0 ≤ u.txResults.headD LibusbError.TIMEOUT.code) (hk : 0 < u.msv_CtrlRetry)
    (hgood : (u.rxAt 0).good = true) :
    ∃ u1 buf, usb_ControlRequest (some h) (some req) reqLen u s =
        some ((u.rxAt 0).res, u1, h buf s) ∧
      buf.take (u.rxAt 0).data.length = (u.rxAt 0).data ∧
      u1.rxResults = u.rxResults.drop 1 ∧ u1.txResults = u.txResults.drop 1 ∧
      u1.sameConfig u := by
  set t : OutTransfer := ⟨if u.msv_bootloader then 0x0300 else 0x0305, u.msv_activeInterface,
    req.take reqLen ++ List.replicate (64 - reqLen) 0⟩ with ht
  obtain ⟨_, _, _, htx2, htres⟩ := u.transmit_snd t
  obtain ⟨hcfg1, _, _, hrx1⟩ := u.transmit_frame t
  obtain ⟨hcfg2, _, htxs2⟩ := (u.transmit t).2.receive_frame
  have hneg : ¬ (u.transmit t).1 < 0 := by rw [htres]; omega
  obtain ⟨m, hm⟩ : ∃ m, u.msv_CtrlRetry.toNat = m + 1 :=
    ⟨u.msv_CtrlRetry.toNat - 1, by omega⟩
  have hg2 : ((u.transmit t).2.rxAt 0).good = true := by rw [htx2 0]; exact hgood
  have hrun := rxLoop_good h m (u.transmit t).1
    ((u.junk ++ List.replicate (BUF_LEN + 1) 0).take (BUF_LEN + 1)) (u.transmit t).2 s hg2
  rw [htx2 0] at hrun
  refine ⟨(u.transmit t).2.receive.2, _, ?_,
    ((u.rxAt 0).fill_length ((u.junk ++ List.replicate (BUF_LEN + 1) 0).take (BUF_LEN + 1))
      (by simp [BUF_LEN])).2, ?_, ?_,
    Usb.sameConfig_trans hcfg2 hcfg1⟩
  · unfold usb_ControlRequest
    simp only [hdev, Bool.true_eq_false, if_false, h0]
    rw [if_neg (by omega)]
    simp only [← ht, hneg, if_false, hm]
    exact hrun
  · rw [(u.transmit t).2.receive_snd.2.2.1, hrx1]
  · rw [htxs2, u.transmit_tx t]

/-- A status request answered at once by the 64-byte reply `r`. -/
theorem zul_getStatusByID_reply (ID : Nat) (u : Usb) (s : Services) (r : List Nat)
    (rest : List RxResult) (t : Int) (trest : List Int) (hdev : u.msv_dev_handle = true)
    (hretry : 0 < u.msv_CtrlRetry) (hrx : u.rxResults = RxResult.reply r :: rest)
    (htx : u.txResults = t :: trest) (ht : 0 ≤ t) (hlen : r.length = 64)
    (hb : ∀ x ∈ r, x < 256) (hnz : ∃ x ∈ r, x ≠ 0) :
    ∃ u1 s1, zul_getStatusByID ID u s =
        some (SUCCESS, some (r.getD 5 0 + 256 * r.getD 6 0), u1, s1) ∧
      u1.rxResults = rest ∧ u1.txResults = trest ∧ u1.sameConfig u := by
  have hat : u.rxAt 0 = RxResult.reply r := by
    unfold Usb.rxAt
    rw [hrx]
    rfl
  have hdata : (u.rxAt 0).data = r := by
    rw [hat, RxResult.data, List.take_of_length_le (by rw [hlen]; decide)]
  have hres : (u.rxAt 0).res = 64 := by
    rw [hat, RxResult.res, List.take_of_length_le (by rw [hlen]; decide), hlen]
    rfl
  have hgood : (u.rxAt 0).good = true := by
    rw [RxResult.good_iff, hres, hdata]
    refine ⟨by decide, ?_⟩
    obtain ⟨x, hx, hx0⟩ := hnz
    exact List.any_eq_true.mpr ⟨x, hx, by simpa using hx0⟩
  obtain ⟨henc, hfl⟩ := zul_encodeGetStatus_fits ID
  obtain ⟨u1, buf, hrun, htake, hrx1, htx1, hcfg⟩ :=
    usb_ControlRequest_good_now status_response (frameBytes (EncodeCall.GetStatus ID).payload)
      DUAL_BYTE_MSG_LEN u { s with msv_xfrIndex := u8 ID } (by decide) (by decide)
      (by rw [hfl]; decide) hdev (by rw [htx]; exact ht) hretry hgood
  rw [hdata, hlen] at htake
  refine ⟨u1, status_response buf { s with msv_xfrIndex := u8 ID }, ?_,
    by rw [hrx1, hrx]; rfl, by rw [htx1, htx]; rfl, hcfg⟩
  unfold zul_getStatusByID
  simp only [henc, if_true, hrun, hres]
  have hv : (status_response buf { s with msv_xfrIndex := u8 ID }).msv_getStatusVal =
      r.getD 5 0 + 256 * r.getD 6 0 := response_value r buf hb htake
  rw [hv]
  rfl

/-- The loop of the CPU-ID branch when every status request is answered at
once by a 64-byte reply: the status values are those of the replies. -/
theorem cpuIdLoop_replies (baseCI : Nat) (indet : Nat → Nat) (rs : List (List Nat)) (x : Nat)
    (hxStr : List Nat) (u : Usb) (s : Services) (rest : List RxResult) (txs trest : List Int)
    (hdev : u.msv_dev_handle = true) (hretry : 0 < u.msv_CtrlRetry)
    (hrx : u.rxResults = rs.map RxResult.reply ++ rest) (htx : u.txResults = txs ++ trest)
    (hlen : txs.length = rs.length) (ht : ∀ t ∈ txs, 0 ≤ t)
    (hr : ∀ r ∈ rs, r.length = 64 ∧ (∀ b ∈ r, b < 256) ∧ ∃ b ∈ r, b ≠ 0) :
    ∃ u1 s1, cpuIdLoop baseCI indet rs.length x hxStr u s =
      some (hxStr ++ rs.flatMap (fun r =>
        sprintf04X (zul_byteSwap (r.getD 5 0 + 256 * r.getD 6 0))), u1, s1) := by
  induction rs generalizing x hxStr u s txs with
  | nil => exact ⟨u, s, by simp [cpuIdLoop]⟩
  | cons r rs ih =>
    rcases txs with _ | ⟨t, txs⟩
    · simp at hlen
    obtain ⟨h64, hb, hnz⟩ := hr r (List.mem_cons_self _ _)
    obtain ⟨u1, s1, hget, hrx1, htx1, hcfg⟩ :=
      zul_getStatusByID_reply (baseCI + x) u s r (rs.map RxResult.reply ++ rest) t
        (txs ++ trest) hdev hretry hrx htx (ht t (List.mem_cons_self _ _)) h64 hb hnz
    obtain ⟨u2, s2, hrun⟩ := ih (x + 1)
      (hxStr ++ sprintf04X (zul_byteSwap (r.getD 5 0 + 256 * r.getD 6 0))) u1 s1 txs
      (hcfg.1.trans hdev) (by rw [hcfg.2.2.2.1]; exact hretry) hrx1 htx1
      (by simpa using hlen) (fun t' ht' => ht t' (List.mem_cons_of_mem _ ht'))
      (fun r' hr' => hr r' (List.mem_cons_of_mem _ hr'))
    refine ⟨u2, s2, ?_⟩
    rw [List.length_cons, cpuIdLoop, hget]
    simp only [Option.getD_some, hrun, List.flatMap_cons, List.append_assoc]

/-! ## Lemmas on the ZYS loader -/

theorem isPrefixOf_append_disjoint (k t : List Nat) (h : ∀ c ∈ k, c ∉ t) :
    ∀ l : List Nat, k.isPrefixOf (l ++ t) = k.isPrefixOf l := by
  induction k with
  | nil => intro l; simp
  | cons a k ih =>
    intro l
    cases l with
    | nil =>
      cases t with
      | nil => rfl
      | cons b t =>
        have hab : a ≠ b := fun e => h a (List.mem_cons_self _ _) (e ▸ List.mem_cons_self _ _)
        simp [List.isPrefixOf, hab]
    | cons c l =>
      simp only [List.cons_append, List.isPrefixOf, List.append_eq]
      rw [ih (fun c hc => h c (List.mem_cons_of_mem _ hc))]

theorem strstr_disjoint (k : List Nat) (hk : k ≠ []) :
    ∀ t : List Nat, (∀ c ∈ k, c ∉ t) → strstr t k = false := by
  intro t
  induction t with
  | nil => intro _; cases k with
    | nil => exact absurd rfl hk
    | cons a k => rfl
  | cons b t ih =>
    intro h
    cases k with
    | nil => exact absurd rfl hk
    | cons a k =>
      have hab : a ≠ b := fun e => h a (List.mem_cons_self _ _) (e ▸ List.mem_cons_self _ _)
      have ht := ih (fun c hc hm => h c hc (List.mem_cons_of_mem _ hm))
      simp [strstr, List.isPrefixOf, hab, ht]

theorem strstr_append_disjoint (k t : List Nat) (hk : k ≠ []) (h : ∀ c ∈ k, c ∉ t) :
    ∀ l : List Nat, strstr (l ++ t) k = strstr l k := by
  intro l
  induction l with
  | nil =>
    rw [List.nil_append, strstr_disjoint k hk t h]
    cases k with
    | nil => exact absurd rfl hk
    | cons a k => rfl
  | cons c l ih =>
    have hp := isPrefixOf_append_disjoint k t h (c :: l)
    rw [List.cons_append] at hp
    simp only [List.cons_append, strstr, List.append_eq]
    rw [hp, ih]

theorem take_eq_iff_isPrefixOf (k s : List Nat) :
    s.take k.length = k ↔ k.isPrefixOf s = true := by
  rw [List.isPrefixOf_iff_prefix, List.prefix_iff_eq_take]
  exact eq_comm

theorem take_append_disjoint (k t l : List Nat) (h : ∀ c ∈ k, c ∉ t) :
    (l ++ t).take k.length = k ↔ l.take k.length = k := by
  rw [take_eq_iff_isPrefixOf, take_eq_iff_isPrefixOf, isPrefixOf_append_disjoint k t h]

theorem cstr_of_no_zero (s : List Nat) (h : ∀ c ∈ s, c ≠ 0) : cstr s = s := by
  unfold cstr
  rw [List.takeWhile_eq_self_iff]
  intro c hc
  simpa using h c hc

theorem afterLastSpace_append (t : List Nat) (ht : afterLastSpace t = none) :
    ∀ l : List Nat, afterLastSpace (l ++ t) = (afterLastSpace l).map (fun p => p ++ t) := by
  intro l
  induction l with
  | nil => rw [List.nil_append, ht]; rfl
  | cons c l ih =>
    simp only [List.cons_append, afterLastSpace, List.append_eq]
    rw [ih]
    cases afterLastSpace l with
    | none => by_cases hc : c = 32 <;> simp [hc]
    | some r => rfl

theorem afterLastSpace_of_mem : ∀ l : List Nat, 32 ∈ l → ∃ p, afterLastSpace l = some p := by
  intro l
  induction l with
  | nil => intro h; cases h
  | cons c l ih =>
    intro h
    simp only [afterLastSpace]
    cases hl : afterLastSpace l with
    | some r => exact ⟨r, rfl⟩
    | none =>
      by_cases hc : c = 32
      · exact ⟨l, by simp [hc]⟩
      · rcases List.mem_cons.1 h with e | hm
        · exact absurd e.symm hc
        · obtain ⟨p, hp⟩ := ih hm
          rw [hl] at hp; cases hp

theorem zysCrop_terminated (l : List Nat) (crlf : Bool) (hl : ∀ c ∈ l, c ≠ 10 ∧ c ≠ 13) :
    zysCrop (l ++ zysTerminator crlf) = l := by
  cases crlf with
  | true =>
    have h1 : (l ++ [13, 10]).length - 2 = l.length := by simp
    unfold zysCrop zysTerminator
    simp only [if_true]
    rw [h1]
    have h2 : (l ++ [13, 10]).getD l.length 0 = 13 := by
      rw [List.getD_append_right _ _ _ _ (le_refl _)]; simp
    rw [h2]
    simp
  | false =>
    unfold zysCrop zysTerminator
    simp only [Bool.false_eq_true, if_false]
    rcases List.eq_nil_or_concat l with rfl | ⟨l0, c, rfl⟩
    · simp
    · simp only [List.concat_eq_append] at hl ⊢
      have hc := hl c (by simp)
      have h1 : (l0 ++ [c] ++ [10]).length - 2 = l0.length := by simp
      have h3 : (l0 ++ [c] ++ [10]).length - 1 = (l0 ++ [c]).length := by simp
      have h2 : (l0 ++ [c] ++ [10]).getD l0.length 0 = c := by
        rw [List.append_assoc, List.getD_append_right _ _ _ _ (le_refl _)]; simp
      rw [h1, h2, h3, if_neg (by intro h; rcases h with h | h; exact hc.2 h; exact hc.1 h)]
      exact List.take_left _ _

theorem fgetsChunks_line (rest : List Nat) :
    ∀ (l cur : List Nat), (∀ c ∈ l, c ≠ 10) → cur.length + l.length < 179 →
      fgetsChunks (l ++ 10 :: rest) cur = (cur ++ l ++ [10]) :: fgetsChunks rest [] := by
  intro l
  induction l with
  | nil =>
    intro cur _ _
    simp [fgetsChunks]
  | cons c l ih =>
    intro cur hl hlen
    have hc : c ≠ 10 := hl c (List.mem_cons_self _ _)
    have hn : ¬ (c = 10 ∨ (cur ++ [c]).length = 179) := by
      simp only [List.length_append, List.length_cons, List.length_nil] at hlen ⊢
      omega
    rw [List.cons_append, fgetsChunks, if_neg hn,
      ih (cur ++ [c]) (fun d hd => hl d (List.mem_cons_of_mem _ hd))
        (by simp only [List.length_append, List.length_cons, List.length_nil] at hlen ⊢
            omega)]
    simp

theorem fgetsChunks_zysFile (ls : List (List Nat × Bool))
    (h : ∀ l ∈ ls, l.1.length ≤ 177 ∧ ∀ c ∈ l.1, c ≠ 10 ∧ c ≠ 13) :
    fgetsChunks (zysFile ls) [] = ls.map (fun l => l.1 ++ zysTerminator l.2) := by
  induction ls with
  | nil => rfl
  | cons l ls ih =>
    obtain ⟨hlen, hch⟩ := h l (List.mem_cons_self _ _)
    have ih1 := ih (fun m hm => h m (List.mem_cons_of_mem _ hm))
    unfold zysFile at ih1 ⊢
    rw [List.flatMap_cons, List.map_cons]
    cases hb : l.2 with
    | false =>
      have e : l.1 ++ zysTerminator false ++ ls.flatMap (fun l : List Nat × Bool => l.1 ++ zysTerminator l.2)
          = l.1 ++ 10 :: ls.flatMap (fun l : List Nat × Bool => l.1 ++ zysTerminator l.2) := by
        simp [zysTerminator]
      rw [e, fgetsChunks_line _ l.1 [] (fun c hc => (hch c hc).1) (by simp; omega), ih1]
      simp [zysTerminator]
    | true =>
      have e : l.1 ++ zysTerminator true ++ ls.flatMap (fun l : List Nat × Bool => l.1 ++ zysTerminator l.2)
          = (l.1 ++ [13]) ++ 10 :: ls.flatMap (fun l : List Nat × Bool => l.1 ++ zysTerminator l.2) := by
        simp [zysTerminator]
      rw [e, fgetsChunks_line _ (l.1 ++ [13]) []
        (fun c hc => by
          rcases List.mem_append.1 hc with h1 | h1
          · exact (hch c h1).1
          · simp at h1; omega)
        (by simp; omega), ih1]
      simp [zysTerminator]

theorem zysLine_plain (l : List Nat) (crlf : Bool) (st : ZysScan)
    (hl : ∀ c ∈ l, c ≠ 0 ∧ c ≠ 10 ∧ c ≠ 13) :
    zysLine (l ++ zysTerminator crlf) st =
      (if zysHasKeyword l then
        if 10000 ≤ st.crcIn.length + l.length then none
        else if strstr l zysCONFIG then
          if 256 ≤ st.setCommand.length then none
          else some
            { crcFromFile :=
                if l.take 10 = zysValidationTag then
                  ((afterLastSpace l).getD [] ++ zysTerminator crlf).take 4
                else st.crcFromFile
              crcIn := st.crcIn ++ l
              setCommand := st.setCommand ++ [(l.drop 7).take 10] }
        else some
          { crcFromFile :=
              if l.take 10 = zysValidationTag then
                ((afterLastSpace l).getD [] ++ zysTerminator crlf).take 4
              else st.crcFromFile
            crcIn := st.crcIn ++ l
            setCommand := st.setCommand }
      else some
        { crcFromFile :=
            if l.take 10 = zysValidationTag then
              ((afterLastSpace l).getD [] ++ zysTerminator crlf).take 4
            else st.crcFromFile
          crcIn := st.crcIn
          setCommand := st.setCommand }) := by
  have ht : ∀ c ∈ zysTerminator crlf, c = 10 ∨ c = 13 := by
    cases crlf <;> simp [zysTerminator]
  have hs : cstr (l ++ zysTerminator crlf) = l ++ zysTerminator crlf :=
    cstr_of_no_zero _ (fun c hc => by
      rcases List.mem_append.1 hc with h | h
      · exact (hl c h).1
      · rcases ht c h with h | h <;> omega)
  have hsp : afterLastSpace (zysTerminator crlf) = none := by cases crlf <;> rfl
  have hdis : ∀ k : List Nat, (∀ c ∈ k, c ≠ 10 ∧ c ≠ 13) → ∀ c ∈ k, c ∉ zysTerminator crlf :=
    fun k hk c hc hm => by rcases ht c hm with h | h; exact (hk c hc).1 h; exact (hk c hc).2 h
  have hkey : zysHasKeyword (l ++ zysTerminator crlf) = zysHasKeyword l := by
    unfold zysHasKeyword
    rw [strstr_append_disjoint zysVERSION _ (by decide) (hdis _ (by decide)),
      strstr_append_disjoint zysSTATUS _ (by decide) (hdis _ (by decide)),
      strstr_append_disjoint zysARVAL _ (by decide) (hdis _ (by decide)),
      strstr_append_disjoint zysCONFIG _ (by decide) (hdis _ (by decide))]
  have htag : ((l ++ zysTerminator crlf).take 10 = zysValidationTag) ↔
      (l.take 10 = zysValidationTag) :=
    take_append_disjoint zysValidationTag _ l (hdis _ (by decide))
  have hcrop : zysCrop (l ++ zysTerminator crlf) = l :=
    zysCrop_terminated l crlf (fun c hc => (hl c hc).2)
  have hst1 : (if (l ++ zysTerminator crlf).take 10 = zysValidationTag then
        match afterLastSpace (l ++ zysTerminator crlf) with
        | some p => { st with crcFromFile := p.take 4 }
        | none => st
      else st) =
      ({ crcFromFile :=
            if l.take 10 = zysValidationTag then
              ((afterLastSpace l).getD [] ++ zysTerminator crlf).take 4
            else st.crcFromFile
         crcIn := st.crcIn
         setCommand := st.setCommand } : ZysScan) := by
    by_cases hv : l.take 10 = zysValidationTag
    · rw [if_pos (htag.2 hv), if_pos hv, afterLastSpace_append _ hsp]
      have hm : 32 ∈ l := by
        have : 32 ∈ l.take 10 := by rw [hv]; decide
        exact List.mem_of_mem_take this
      obtain ⟨p, hp⟩ := afterLastSpace_of_mem l hm
      rw [hp]
      rfl
    · rw [if_neg (fun h => hv (htag.1 h)), if_neg hv]
  unfold zysLine
  simp only [hs, hkey, hcrop, hst1]

theorem zysScan_lines (ls : List (List Nat × Bool))
    (hplain : ∀ l ∈ ls, l.1.length ≤ 177 ∧ ∀ c ∈ l.1, c ≠ 0 ∧ c ≠ 10 ∧ c ≠ 13) :
    ∀ st : ZysScan, st.crcIn.length + (zysCrcText ls).length ≤ 9999 →
      st.setCommand.length + (zysCommands ls).length ≤ 256 →
      zysScan (ls.map (fun l => l.1 ++ zysTerminator l.2)) st =
        some
          { crcFromFile :=
              match (zysValidationLines ls).getLast? with
              | none => st.crcFromFile
              | some v => ((afterLastSpace v.1).getD [] ++ zysTerminator v.2).take 4
            crcIn := st.crcIn ++ zysCrcText ls
            setCommand := st.setCommand ++ zysCommands ls } := by
  induction ls with
  | nil =>
    intro st _ _
    simp [zysScan, zysCrcText, zysCommands, zysValidationLines]
  | cons l ls ih =>
    intro st htext hcmds
    obtain ⟨_, hch⟩ := hplain l (List.mem_cons_self _ _)
    have ih1 := ih (fun m hm => hplain m (List.mem_cons_of_mem _ hm))
    have hconf : strstr l.1 zysCONFIG = true → zysHasKeyword l.1 = true := by
      intro h; simp [zysHasKeyword, h]
    have hT : zysCrcText (l :: ls) = (if zysHasKeyword l.1 then l.1 else []) ++ zysCrcText ls := by
      unfold zysCrcText
      by_cases hk : zysHasKeyword l.1 = true
      · simp only [List.filter_cons, hk, if_true, List.flatMap_cons]
      · simp only [List.filter_cons, hk, if_false, List.nil_append, Bool.false_eq_true]
    have hC : zysCommands (l :: ls) =
        (if strstr l.1 zysCONFIG then [(l.1.drop 7).take 10] else []) ++ zysCommands ls := by
      unfold zysCommands
      by_cases hk : strstr l.1 zysCONFIG = true
      · simp only [List.filter_cons, hk, if_true, List.map_cons, List.singleton_append]
      · simp only [List.filter_cons, hk, if_false, List.nil_append, Bool.false_eq_true]
    have hV : ∀ (x : List Nat) (F : List Nat × Bool → List Nat),
        (match (zysValidationLines (l :: ls)).getLast? with
          | none => x
          | some v => F v) =
        (match (zysValidationLines ls).getLast? with
          | none => if l.1.take 10 = zysValidationTag then F l else x
          | some v => F v) := by
      intro x F
      unfold zysValidationLines
      by_cases hv : l.1.take 10 = zysValidationTag
      · simp only [List.filter_cons, hv, decide_True, if_true, List.getLast?_cons]
        cases (List.filter (fun l : List Nat × Bool => decide (l.1.take 10 = zysValidationTag))
          ls).getLast? <;> rfl
      · simp only [List.filter_cons, hv, decide_False, if_false, Bool.false_eq_true]
    rw [hT] at htext
    rw [hC] at hcmds
    rw [List.map_cons, zysScan, zysLine_plain l.1 l.2 st hch, hT, hC, hV]
    by_cases hk : zysHasKeyword l.1 = true
    · rw [if_pos hk] at htext
      have hbig : ¬ 10000 ≤ st.crcIn.length + l.1.length := by
        rw [List.length_append] at htext; omega
      rw [if_pos hk, if_neg hbig, if_pos hk]
      by_cases hcfg : strstr l.1 zysCONFIG = true
      · rw [if_pos hcfg] at hcmds
        have hfull : ¬ 256 ≤ st.setCommand.length := by
          rw [List.length_append, List.length_singleton] at hcmds; omega
        rw [if_pos hcfg, if_neg hfull, if_pos hcfg]
        dsimp only
        rw [ih1 _ (by rw [List.length_append] at htext ⊢; omega)
          (by simp only [List.length_append, List.length_singleton] at hcmds ⊢; omega)]
        simp only [List.append_assoc]
      · rw [if_neg hcfg] at hcmds
        rw [if_neg hcfg, if_neg hcfg]
        dsimp only
        rw [ih1 _ (by rw [List.length_append] at htext ⊢; omega)
          (by simpa using hcmds)]
        simp only [List.append_assoc, List.nil_append]
    · have hcfg : ¬ strstr l.1 zysCONFIG = true := fun h => hk (hconf h)
      rw [if_neg hk] at htext
      rw [if_neg hcfg] at hcmds
      rw [if_neg hk, if_neg hk, if_neg hcfg]
      dsimp only
      rw [ih1 _ (by simpa using htext) (by simpa using hcmds)]
      simp only [List.append_assoc, List.nil_append]

theorem hexDigitValue_hexChar (d : Nat) (hd : d < 16) : hexDigitValue (hexChar d) = some d := by
  unfold hexDigitValue hexChar
  by_cases h : d < 10
  · rw [if_pos h, if_pos (by omega)]
    congr 1
    omega
  · rw [if_neg h, if_neg (by omega), if_pos (by omega)]
    congr 1
    omega

theorem hexNumber_sprintf04X (v : Nat) : hexNumber (sprintf04X v) = some (v % 65536) := by
  unfold hexNumber sprintf04X
  simp only [List.foldl_cons, List.foldl_nil,
    hexDigitValue_hexChar _ (Nat.mod_lt _ (by decide : 0 < 16))]
  congr 1
  omega

theorem flatMap_group (f : Nat → List Nat) (hf : ∀ v, (f v).length = 4) :
    ∀ (st : List Nat) (i : Nat), i < st.length →
      ((st.flatMap f).drop (4 * i)).take 4 = f (st.getD i 0) := by
  intro st
  induction st with
  | nil => intro i hi; simp at hi
  | cons a st ih =>
    intro i hi
    cases i with
    | zero =>
      rw [List.flatMap_cons, Nat.mul_zero, List.drop_zero, List.take_append_of_le_length
        (by rw [hf]), ← hf a, List.take_length]
      rfl
    | succ i =>
      have hi1 : i < st.length := by simpa using hi
      rw [List.flatMap_cons, show 4 * (i + 1) = (f a).length + 4 * i by rw [hf]; omega,
        ← List.drop_drop, List.drop_left, ih i hi1]
      simp

/-! ## Lemmas on the totality of the transfer -/

theorem getElem?_mem_list {α : Type} {l : List α} {i : Nat} {a : α} (h : l[i]? = some a) :
    a ∈ l := by
  induction l generalizing i with
  | nil => simp at h
  | cons x l ih =>
    cases i with
    | zero =>
      simp only [List.getElem?_cons_zero, Option.some.injEq] at h
      rw [h]
      exact List.mem_cons_self _ _
    | succ i =>
      rw [List.getElem?_cons_succ] at h
      exact List.mem_cons_of_mem _ (ih h)

theorem Run.ite_done {α : Type} (c : Prop) [Decidable c] (a b : Run α)
    (ha : ∃ x, a = Run.done x) (hb : ∃ x, b = Run.done x) :
    ∃ x, (if c then a else b) = Run.done x := by
  by_cases h : c
  · rw [if_pos h]; exact ha
  · rw [if_neg h]; exact hb

/-- A turn of the loop of `zul_transferFirmware` has a result when `numBlocks`
is not 0 and the 64 bytes of the block lie inside the loaded bytes. -/
theorem transferBlock_total (nb : Int) (l : XferLoop) (u : Usb) (s : Services)
    (content : List Nat) (hnb : nb ≠ 0) (hcont : s.msv_fwInfo.content = some content)
    (h0 : 0 ≤ l.block_start) (hin : l.block_start.toNat + 64 ≤ content.length) :
    ∃ r l1 u1 s1, transferBlock nb l u s = Run.done (r, l1, u1, s1) := by
  have hptr : blockPointer s l.block_start = some (content.drop l.block_start.toNat) := by
    unfold blockPointer
    rw [hcont]
    simp only
    rw [if_neg (by omega)]
  obtain ⟨res, u1, s1, hrun, _⟩ :=
    usb_ControlRequest_gen (some handle_BL_response) (content.drop l.block_start.toNat) 64 u s
      (le_refl _) (by rw [List.length_drop]; omega)
  have h64 : ZY_BL_MAX_DATA.toNat = 64 := rfl
  have key : ∃ x, transferBlock nb l u s = Run.done x := by
    unfold transferBlock
    rw [hptr, h64, hrun]
    dsimp only
    rw [if_neg hnb]
    repeat (first | exact ⟨_, rfl⟩ | refine Run.ite_done _ _ _ ⟨_, rfl⟩ ?_)
  obtain ⟨⟨r, l1, u2, s2⟩, hx⟩ := key
  exact ⟨r, l1, u2, s2, hx⟩

/-- The loop of `zul_transferFirmware` has a result, whatever the device
replies, when `numBlocks` is not 0 and the image is loaded with its four
trailing bytes and a length that is a multiple of 64 or at most 4 short of the
next one. -/
theorem transferLoop_total (nb : Int) (content : List Nat) (N : Nat) (hnb : nb ≠ 0)
    (hN : N < 2 ^ 31) (hshape : N % 64 = 0 ∨ 60 ≤ N % 64) (hlen : N + 4 ≤ content.length) :
    ∀ (fuel : Nat) (l : XferLoop) (u : Usb) (s : Services) (k : Nat),
      s.msv_fwInfo.byteCount = N → s.msv_fwInfo.content = some content →
      l.block_start = 64 * (k : Int) → l.block_end = min (64 * (k : Int)) (N : Int) →
      (N : Int) < 64 * ((k : Int) + (fuel : Int)) →
      ∃ r l1 u1 s1, transferLoop nb fuel l u s = Run.done (r, l1, u1, s1) := by
  intro fuel
  induction fuel with
  | zero =>
    intro l u s k hbc _ _ hend hfuel
    have hc : castInt s.msv_fwInfo.byteCount = (N : Int) := by rw [hbc, castInt_of_lt hN]
    have hno : ¬ l.block_end < castInt s.msv_fwInfo.byteCount := by
      rw [hc, hend]
      simp only [Nat.cast_zero, add_zero] at hfuel
      omega
    exact ⟨SUCCESS, l, u, s, by rw [transferLoop, if_neg hno]⟩
  | succ fuel ih =>
    intro l u s k hbc hcont hstart hend hfuel
    have hc : castInt s.msv_fwInfo.byteCount = (N : Int) := by rw [hbc, castInt_of_lt hN]
    by_cases hlt : l.block_end < castInt s.msv_fwInfo.byteCount
    · have hk : 64 * (k : Int) < N := by
        rw [hc, hend] at hlt
        omega
      have hk1 : 64 * k < N := by omega
      have htn : l.block_start.toNat = 64 * k := by rw [hstart]; omega
      obtain ⟨r, l1, u1, s1, hb⟩ := transferBlock_total nb l u s content hnb hcont
        (by rw [hstart]; omega) (by rw [htn]; omega)
      obtain ⟨st, c, _, hs1, he1, hr, _, _, _, _, hbc1, hcont1, _⟩ :=
        transferBlock_inv nb l u s r l1 u1 s1 hb
      rw [transferLoop, if_pos hlt, hb]
      by_cases hends : replyEndsTransfer c = true
      · rw [if_pos hends] at hr
        subst hr
        exact ⟨_, l1, u1, s1, rfl⟩
      · rw [if_neg hends] at hr hs1
        subst hr
        have h64 : ZY_BL_MAX_DATA = 64 := rfl
        rw [h64] at hs1 he1
        rw [hc] at he1
        exact ih l1 u1 s1 (k + 1) (hbc1.trans hbc) (hcont1.trans hcont)
          (by rw [hs1, hstart]; push_cast; ring)
          (by
            rw [he1, hstart]
            push_cast
            by_cases h2 : 64 * (k : Int) + 64 < N
            · rw [if_pos h2]; omega
            · rw [if_neg h2]; omega)
          (by push_cast at hfuel ⊢; omega)
    · exact ⟨SUCCESS, l, u, s, by rw [transferLoop, if_neg hlt]⟩

/-- The function `zul_transferFirmware` returns, whatever the device replies,
for a loaded image of at least 64 bytes whose length is a multiple of 64 or at
most 4 short of the next one. -/
theorem zul_transferFirmware_total (track : Bool) (u : Usb) (s : Services) (content : List Nat)
    (hcont : s.msv_fwInfo.content = some content) (h64 : 64 ≤ s.msv_fwInfo.byteCount)
    (hN : s.msv_fwInfo.byteCount < 2 ^ 31)
    (hshape : s.msv_fwInfo.byteCount % 64 = 0 ∨ 60 ≤ s.msv_fwInfo.byteCount % 64)
    (hlen : s.msv_fwInfo.byteCount + 4 ≤ content.length) :
    ∃ r tr u1 s1, zul_transferFirmware track u s = Run.done (r, tr, u1, s1) := by
  have hnb : Int.tdiv (castInt s.msv_fwInfo.byteCount) ZY_BL_MAX_DATA ≠ 0 := by
    rw [castInt_of_lt hN]
    have h1 : Int.tdiv (s.msv_fwInfo.byteCount : Int) ZY_BL_MAX_DATA =
        ((s.msv_fwInfo.byteCount / 64 : Nat) : Int) := rfl
    rw [h1]
    omega
  obtain ⟨r, l1, u1, s1, hrun⟩ :=
    transferLoop_total _ content s.msv_fwInfo.byteCount hnb hN hshape hlen
      (s.msv_fwInfo.byteCount / 64 + 1) ⟨0, 0, 0, []⟩ u (zul_BLresetPktCount s) 0 rfl hcont
      (by simp) (by simp) (by push_cast; omega)
  unfold zul_transferFirmware
  simp only [hrun]
  exact ⟨r, l1.trace, u1, s1, rfl⟩

/-- In a turn of the loop of `zul_transferFirmware` that has a result and
whose block transaction has the recorded reply code 0x01, 0x06, 0x07 or 0x08,
the function returns `FAILURE` in that turn, with at most the one OUT transfer
of that transaction made, and with the reason "Size error",
"The data sent to the controller has been corrupted. CRC.",
"Programming has failed." or "Unspecified error in communications.".  In the
driver, when `zul_transferFirmware` returns, `zul_BL_RebootToApp` follows: with
a device open, one more OUT transfer is made, carrying the opcode 2. -/
theorem error_reply_turn_halts (nb : Int) (l : XferLoop) (u : Usb) (s : Services)
    (c : Nat) (fuel : Nat) (u0 : Usb) (s0 : Services)
    (hloop : l.block_end < castInt s.msv_fwInfo.byteCount)
    (hrep : blockReply nb l u s = some c)
    (hc : c = 0x01 ∨ c = 0x06 ∨ c = 0x07 ∨ c = 0x08)
    (hdev : u0.msv_dev_handle = true) :
    (∃ l1 u1 s1 st, transferLoop nb (fuel + 1) l u s = Run.done (FAILURE, l1, u1, s1) ∧
      l1.trace = l.trace ++ [⟨l.block_start, st, s.errorCount, c⟩] ∧
      u1.sent.length ≤ u.sent.length + 1 ∧
      zul_getZyfXferResultStr s1 = ResultStr.text
        (if c = 0x01 then "Size error"
         else if c = 0x06 then "The data sent to the controller has been corrupted. CRC."
         else if c = 0x07 then "Programming has failed."
         else "Unspecified error in communications.")) ∧
    (firmwareUpdate_finish u0 s0).resultOf.map (fun r => (r.1, r.2.1, r.2.2.1.sent)) =
      (zul_transferFirmware true u0 s0).resultOf.map (fun r => (r.1, r.2.1, r.2.2.1.sent ++
        [⟨if u0.msv_bootloader then 0x0300 else 0x0305, u0.msv_activeInterface,
          BLRebootToApp :: List.replicate 63 0⟩])) := by
  constructor
  · obtain ⟨r, l1, u1, s1, hb, hcc⟩ := blockReply_inv nb l u s c hrep
    obtain ⟨st, c1, htr, _, _, hr, hstr, _, _, _, _, _, _, hsent, _⟩ :=
      transferBlock_inv nb l u s r l1 u1 s1 hb
    have hc1 := hcc st c1 htr
    subst hc1
    have hend : replyEndsTransfer c1 = true := by
      rcases hc with rfl | rfl | rfl | rfl <;> decide
    have hne : ¬ c1 = BL_RSP_PROGRAMMING_COMPLETE := by
      rcases hc with rfl | rfl | rfl | rfl <;> decide
    rw [if_pos hend, if_neg hne] at hr
    subst hr
    refine ⟨l1, u1, s1, st, ?_, htr, ?_, ?_⟩
    · rw [transferLoop, if_pos hloop, hb]
    · rcases hsent with h0 | ⟨t, h0⟩ <;> rw [h0] <;> simp
    · rw [zul_getZyfXferResultStr, hstr hend]
      rcases hc with rfl | rfl | rfl | rfl <;> rfl
  · unfold firmwareUpdate_finish
    cases ht : zul_transferFirmware true u0 s0 with
    | fault f => rfl
    | done p =>
      obtain ⟨r, tr, u1, s1⟩ := p
      obtain ⟨_, _, hcfg, _⟩ := zul_transferFirmware_inv true u0 s0 r tr u1 s1 ht
      obtain ⟨a1, a2, a3, _⟩ := hcfg
      have henc : zul_encode_BL_RebootToApp (some (List.replicate 2 0)) 2 =
          some (true, some [BLRebootToApp, 0]) := by decide
      obtain ⟨res, u2, s2, hrun, _, _, hsent, _⟩ :=
        usb_ControlRequest_gen (none : Option (List Nat → Services → Services))
          [BLRebootToApp, 0] 2 u1 s1 (by decide) (by decide)
      have hs := hsent (a1.trans hdev) (by decide)
      simp only [zul_BL_RebootToApp, henc, hrun, Bool.true_eq_false, if_false]
      simp only [Run.resultOf, Option.map_some', hs, a2, a3]
      rfl

/-! ## The claims -/

/-- C1: for every byte sequence `b` (of a length an `int` can hold),
`zul_getCRC` over exactly the `b.length` bytes of `b` returns the reference
bitwise CRC-16 of `b` (polynomial 0x1021, initial register 0, no reflection,
no final XOR), whatever follows `b` in memory; the CRC of the empty sequence
is 0. -/
theorem zul_getCRC_eq_reference (b rest : List Nat) (hlen : b.length < 2 ^ 31) :
    zul_getCRC (b ++ rest) b.length = some (crc16_reference b) ∧
      zul_getCRC [] 0 = some 0 ∧ crc16_reference [] = 0 :=
  ⟨zul_getCRC_append b rest hlen, by decide, by decide⟩

theorem zul_getCRC_eq_reference_witness :
    [0x05, 0x66, 0x29].length < 2 ^ 31 ∧
      (zul_getCRC ([0x05, 0x66, 0x29] ++ [0xAA]) [0x05, 0x66, 0x29].length =
          some (crc16_reference [0x05, 0x66, 0x29]) ∧
        zul_getCRC [] 0 = some 0 ∧ crc16_reference [] = 0) :=
  ⟨by decide, zul_getCRC_eq_reference [0x05, 0x66, 0x29] [0xAA] (by decide)⟩

/-- C2: for every payload `p` (the empty one included) and every buffer of at
least `bufLen >= 7 + len(p)` bytes, `framePayload` returns `true`, and in the buffer
the payload is followed by the low byte and then the high byte of `zul_getCRC`
computed over exactly the LEN byte, the TYPE byte and the payload bytes, and
then by ETX (0x03); the report-ID byte and STX in front are not part of the
CRC input. -/
theorem framePayload_crc_trailer (p buf : List Nat) (bufLen : Int)
    (hbytes : ∀ x ∈ p, x < 256)
    (hlen : 7 + (p.length : Int) ≤ bufLen) (hbuf : bufLen ≤ buf.length)
    (hint : bufLen < 2 ^ 31) :
    ∃ len crc, zul_getCRC (len :: MasterRequest :: p) (p.length + 2) = some crc ∧
      crc < 65536 ∧
      framePayload (some buf) bufLen p p.length =
        some (true, some (ZCC :: STX :: len :: MasterRequest ::
          (p ++ crc % 256 :: crc / 256 :: ETX :: buf.drop (7 + p.length)))) := by
  have hn : p.length + 2 < 2 ^ 31 := by omega
  refine ⟨lsb_int ((p.length : Int) + 4),
    crc16_reference (lsb_int ((p.length : Int) + 4) :: MasterRequest :: p), ?_,
    crc16_reference_lt _, ?_⟩
  · have := zul_getCRC_append (lsb_int ((p.length : Int) + 4) :: MasterRequest :: p) []
      (by simpa using hn)
    simpa using this
  · rw [framePayload_ok buf p bufLen p.length (le_refl _) hlen (by omega) hn]
    have hu : u8 MasterRequest = MasterRequest := by decide
    simp [frameBytes, List.take_length, map_u8_of_lt p hbytes, lsb_16_eq,
      msb_16_eq _ (crc16_reference_lt _), hu]
    decide

theorem framePayload_crc_trailer_witness :
    (∀ x ∈ [0x4E, 0x12], x < 256) ∧ 7 + (([0x4E, 0x12] : List Nat).length : Int) ≤ 9 ∧
      (9 : Int) ≤ (List.replicate 10 0xEE).length ∧ (9 : Int) < 2 ^ 31 ∧
      ∃ len crc, zul_getCRC (len :: MasterRequest :: [0x4E, 0x12])
          (([0x4E, 0x12] : List Nat).length + 2) = some crc ∧
        crc < 65536 ∧
        framePayload (some (List.replicate 10 0xEE)) 9 [0x4E, 0x12]
            (([0x4E, 0x12] : List Nat).length) =
          some (true, some (ZCC :: STX :: len :: MasterRequest ::
            ([0x4E, 0x12] ++ crc % 256 :: crc / 256 :: ETX ::
              (List.replicate 10 0xEE).drop (7 + ([0x4E, 0x12] : List Nat).length)))) :=
  ⟨by decide, by decide, by decide, by decide,
    framePayload_crc_trailer [0x4E, 0x12] (List.replicate 10 0xEE) 9 (by decide) (by decide)
      (by decide) (by decide)⟩

/-- C3, as the code has it: for every application-mode encoder call that
returns `true`, the LEN byte of the frame (offset 2 of the buffer, after the
report ID and STX) equals 4 + payloadLength: the LEN byte itself, TYPE, the
payload and the two CRC bytes. -/
theorem encode_len_is_four_plus_payload (c : EncodeCall) (buf out : List Nat) (bufLen : Int)
    (h : c.run (some buf) bufLen = some (true, some out)) :
    out[2]? = some (4 + c.payload.length) := by
  obtain ⟨_, _, _, hout⟩ := c.run_true buf out bufLen h
  obtain ⟨_, _, _, h14, _⟩ := c.msg_len
  subst hout
  have : lsb_int ((c.payload.length : Int) + 4) = 4 + c.payload.length := by
    unfold lsb_int; omega
  simp [frameBytes, this]

theorem encode_len_is_four_plus_payload_witness :
    (EncodeCall.GetRequest 0x12).run (some (List.replicate 9 0)) 9 =
        some (true, some [0x05, 0x02, 0x06, 0x66, 0x4E, 0x12, 0xE2, 0x12, 0x03]) ∧
      [0x05, 0x02, 0x06, 0x66, 0x4E, 0x12, 0xE2, 0x12, 0x03][2]? =
        some (4 + (EncodeCall.GetRequest 0x12).payload.length) :=
  ⟨by decide, encode_len_is_four_plus_payload (EncodeCall.GetRequest 0x12) (List.replicate 9 0)
    [0x05, 0x02, 0x06, 0x66, 0x4E, 0x12, 0xE2, 0x12, 0x03] 9 (by decide)⟩

/-- C3 as stated fails: `zul_encodeRestoreDefaults` on an 8-byte buffer returns
`true` with a one-byte payload, and the LEN byte is 5, not 3 + 1. -/
theorem encode_len_three_plus_payload_fails :
    zul_encodeRestoreDefaults (some [0, 0, 0, 0, 0, 0, 0, 0]) 8 =
        some (true, some [0x05, 0x02, 0x05, 0x66, 0x29, 0x37, 0xFF, 0x03]) ∧
      EncodeCall.RestoreDefaults.payload = [0x29] ∧
      [0x05, 0x02, 0x05, 0x66, 0x29, 0x37, 0xFF, 0x03][2]? ≠
        some (3 + EncodeCall.RestoreDefaults.payload.length) := by
  decide

/-- C4, as the code has it: every frame produced by a successful encode call
is `STX LEN TYPE payload CRC1 CRC2 ETX` behind the report ID, and its LEN byte
satisfies LEN == 1 + 1 + len(payload) + 2, that is len(payload) + 4: the LEN
byte, TYPE, the payload and the two CRC bytes. -/
theorem frame_len_invariant (c : EncodeCall) (buf out : List Nat) (bufLen : Int)
    (h : c.run (some buf) bufLen = some (true, some out)) :
    ∃ len crc1 crc2,
      out = ZCC :: STX :: len :: MasterRequest ::
        (c.payload ++ crc1 :: crc2 :: ETX :: buf.drop (7 + c.payload.length)) ∧
      len = 1 + 1 + c.payload.length + 2 := by
  obtain ⟨_, _, _, hout⟩ := c.run_true buf out bufLen h
  obtain ⟨_, _, _, h14, _⟩ := c.msg_len
  subst hout
  have hl : lsb_int ((c.payload.length : Int) + 4) = 1 + 1 + c.payload.length + 2 := by
    unfold lsb_int; omega
  refine ⟨lsb_int ((c.payload.length : Int) + 4),
    lsb_16 (crc16_reference (lsb_int ((c.payload.length : Int) + 4) :: u8 MasterRequest :: c.payload)),
    msb_16 (crc16_reference (lsb_int ((c.payload.length : Int) + 4) :: u8 MasterRequest :: c.payload)),
    ?_, hl⟩
  simp only [frameBytes, List.cons_append, List.append_assoc, List.nil_append]
  rfl

theorem frame_len_invariant_witness :
    (EncodeCall.SetRequest 0x01 0x1234).run (some (List.replicate 12 0xEE)) 11 =
        some (true, some [0x05, 0x02, 0x08, 0x66, 0x4D, 0x01, 0x34, 0x12, 0x13, 0x42, 0x03, 0xEE]) ∧
      ∃ len crc1 crc2,
        [0x05, 0x02, 0x08, 0x66, 0x4D, 0x01, 0x34, 0x12, 0x13, 0x42, 0x03, 0xEE] =
          ZCC :: STX :: len :: MasterRequest ::
            ((EncodeCall.SetRequest 0x01 0x1234).payload ++ crc1 :: crc2 :: ETX ::
              (List.replicate 12 0xEE).drop (7 + (EncodeCall.SetRequest 0x01 0x1234).payload.length)) ∧
        len = 1 + 1 + (EncodeCall.SetRequest 0x01 0x1234).payload.length + 2 :=
  ⟨by decide, frame_len_invariant (EncodeCall.SetRequest 0x01 0x1234) (List.replicate 12 0xEE)
    [0x05, 0x02, 0x08, 0x66, 0x4D, 0x01, 0x34, 0x12, 0x13, 0x42, 0x03, 0xEE] 11 (by decide)⟩

/-- C4 as stated fails: `zul_encodeSetRequest` on an 11-byte buffer returns
`true` with a four-byte payload, and the LEN byte is 8, not 2 + 1 + 4 + 2. -/
theorem frame_len_two_one_payload_two_fails :
    zul_encodeSetRequest (some [0, 0, 0, 0, 0, 0, 0, 0, 0, 0, 0]) 11 0x01 0x1234 =
        some (true, some [0x05, 0x02, 0x08, 0x66, 0x4D, 0x01, 0x34, 0x12, 0x13, 0x42, 0x03]) ∧
      (EncodeCall.SetRequest 0x01 0x1234).payload = [0x4D, 0x01, 0x34, 0x12] ∧
      [0x05, 0x02, 0x08, 0x66, 0x4D, 0x01, 0x34, 0x12, 0x13, 0x42, 0x03][2]? ≠
        some (2 + 1 + (EncodeCall.SetRequest 0x01 0x1234).payload.length + 2) := by
  decide

/-- C5: in every frame produced by a successful encode call, the LEN byte is
the number of bytes between STX and ETX (the LEN byte itself, TYPE, the payload
and the two CRC bytes), so the frame from STX to ETX inclusive is LEN + 2 bytes
long; a one-byte payload gives LEN = 0x05. -/
theorem len_counts_all_but_stx_etx (c : EncodeCall) (buf out : List Nat) (bufLen : Int)
    (h : c.run (some buf) bufLen = some (true, some out)) :
    ∃ len crc1 crc2,
      out = ZCC :: (STX :: (len :: MasterRequest :: c.payload ++ [crc1, crc2]) ++ [ETX]) ++
        buf.drop (7 + c.payload.length) ∧
      (len :: MasterRequest :: c.payload ++ [crc1, crc2]).length = len ∧
      (STX :: (len :: MasterRequest :: c.payload ++ [crc1, crc2]) ++ [ETX]).length = len + 2 ∧
      (c.payload.length = 1 → len = 0x05) := by
  obtain ⟨_, _, _, hout⟩ := c.run_true buf out bufLen h
  obtain ⟨_, _, _, h14, _⟩ := c.msg_len
  subst hout
  have hl : lsb_int ((c.payload.length : Int) + 4) = c.payload.length + 4 := by
    unfold lsb_int; omega
  refine ⟨lsb_int ((c.payload.length : Int) + 4),
    lsb_16 (crc16_reference (lsb_int ((c.payload.length : Int) + 4) :: u8 MasterRequest :: c.payload)),
    msb_16 (crc16_reference (lsb_int ((c.payload.length : Int) + 4) :: u8 MasterRequest :: c.payload)),
    ?_, ?_, ?_, ?_⟩
  · simp only [frameBytes, List.cons_append, List.append_assoc, List.nil_append]
    rfl
  · rw [hl]; simp
  · rw [hl]; simp
  · intro h1
    rw [hl, h1]

theorem len_counts_all_but_stx_etx_witness :
    (EncodeCall.ResetController).run (some (List.replicate 8 0)) 8 =
        some (true, some [0x05, 0x02, 0x05, 0x66, 0x3D, 0x82, 0xAD, 0x03]) ∧
      ∃ len crc1 crc2,
        [0x05, 0x02, 0x05, 0x66, 0x3D, 0x82, 0xAD, 0x03] =
          ZCC :: (STX :: (len :: MasterRequest :: EncodeCall.ResetController.payload ++
            [crc1, crc2]) ++ [ETX]) ++
            (List.replicate 8 0).drop (7 + EncodeCall.ResetController.payload.length) ∧
        (len :: MasterRequest :: EncodeCall.ResetController.payload ++ [crc1, crc2]).length = len ∧
        (STX :: (len :: MasterRequest :: EncodeCall.ResetController.payload ++ [crc1, crc2]) ++
          [ETX]).length = len + 2 ∧
        (EncodeCall.ResetController.payload.length = 1 → len = 0x05) :=
  ⟨by decide, len_counts_all_but_stx_etx EncodeCall.ResetController (List.replicate 8 0)
    [0x05, 0x02, 0x05, 0x66, 0x3D, 0x82, 0xAD, 0x03] 8 (by decide)⟩

/-- C6, as the code has it: `zul_encodeGetStatus` called with index 0x05 and a
9-byte buffer returns `true`; the frame's LEN byte is 0x06 and the first two
payload bytes are 0x71 then 0x05. -/
theorem encodeGetStatus_scenario (buf : List Nat) (hbuf : buf.length = 9) :
    zul_encodeGetStatus (some buf) 9 0x05 =
      some (true, some [0x05, 0x02, 0x06, 0x66, 0x71, 0x05, 0x9F, 0x65, 0x03]) := by
  have h := (EncodeCall.GetStatus 0x05).run_eq buf 9 (by rw [hbuf]; decide)
  have hd : buf.drop 9 = [] := List.drop_eq_nil_of_le (by omega)
  have hp : (EncodeCall.GetStatus 0x05).payload = [0x71, 0x05] := by decide
  have hf : frameBytes [0x71, 0x05] = [0x05, 0x02, 0x06, 0x66, 0x71, 0x05, 0x9F, 0x65, 0x03] := by
    decide
  have hm : (EncodeCall.GetStatus 0x05).minLen = 8 := rfl
  rw [hp, hm] at h
  simp only [List.length_cons, List.length_nil] at h
  rw [if_neg (by decide), hd, hf] at h
  exact h

theorem encodeGetStatus_scenario_witness :
    [0x11, 0x22, 0x33, 0x44, 0x55, 0x66, 0x77, 0x88, 0x99].length = 9 ∧
      zul_encodeGetStatus (some [0x11, 0x22, 0x33, 0x44, 0x55, 0x66, 0x77, 0x88, 0x99]) 9 0x05 =
        some (true, some [0x05, 0x02, 0x06, 0x66, 0x71, 0x05, 0x9F, 0x65, 0x03]) :=
  ⟨by decide, encodeGetStatus_scenario [0x11, 0x22, 0x33, 0x44, 0x55, 0x66, 0x77, 0x88, 0x99]
    (by decide)⟩

/-- C6 as stated fails: `zul_encodeGetStatus` with index 0x05 and a 9-byte
buffer returns `true` with payload 0x71 0x05, but the LEN byte is 0x06, not
0x07. -/
theorem encodeGetStatus_len_seven_fails :
    zul_encodeGetStatus (some [0, 0, 0, 0, 0, 0, 0, 0, 0]) 9 0x05 =
        some (true, some [0x05, 0x02, 0x06, 0x66, 0x71, 0x05, 0x9F, 0x65, 0x03]) ∧
      [0x05, 0x02, 0x06, 0x66, 0x71, 0x05, 0x9F, 0x65, 0x03][2]? ≠ some 0x07 := by
  decide

/-- C7: `zul_encodeRestoreDefaults` into a buffer of at least 8 bytes returns
`true` and leaves, after the report-ID byte 0x05, exactly the documented frame
02 05 66 29 37 FF 03, the bytes from offset 8 on untouched; and `zul_getCRC`
over 05 66 29 is 0xFF37. -/
theorem encodeRestoreDefaults_documented_frame (buf : List Nat) (bufLen : Int)
    (hlen : 8 ≤ bufLen) (hbuf : bufLen ≤ buf.length) :
    zul_encodeRestoreDefaults (some buf) bufLen =
        some (true, some (0x05 :: [0x02, 0x05, 0x66, 0x29, 0x37, 0xFF, 0x03] ++ buf.drop 8)) ∧
      zul_getCRC [0x05, 0x66, 0x29] 3 = some 0xFF37 := by
  have h := EncodeCall.RestoreDefaults.run_eq buf bufLen hbuf
  have hp : EncodeCall.RestoreDefaults.payload = [0x29] := by decide
  have hf : frameBytes [0x29] = [0x05, 0x02, 0x05, 0x66, 0x29, 0x37, 0xFF, 0x03] := by decide
  have hm : EncodeCall.RestoreDefaults.minLen = 8 := rfl
  rw [hp, hm] at h
  simp only [List.length_cons, List.length_nil] at h
  rw [if_neg (by omega), hf] at h
  exact ⟨h, by decide⟩

theorem encodeRestoreDefaults_documented_frame_witness :
    (8 : Int) ≤ 8 ∧ (8 : Int) ≤ (List.replicate 10 0xEE).length ∧
      zul_encodeRestoreDefaults (some (List.replicate 10 0xEE)) 8 =
        some (true, some (0x05 :: [0x02, 0x05, 0x66, 0x29, 0x37, 0xFF, 0x03] ++
          (List.replicate 10 0xEE).drop 8)) ∧
      zul_getCRC [0x05, 0x66, 0x29] 3 = some 0xFF37 :=
  ⟨by decide, by decide,
    encodeRestoreDefaults_documented_frame (List.replicate 10 0xEE) 8 (by decide) (by decide)⟩

/-- C8: for every application-mode encoder and for `framePayload` itself, a
call whose `bufLen` is smaller than the frame (7 + payload length) returns
`false` and leaves the buffer as it was; a call that returns `true` has put the
frame, which is 7 + payload length bytes long and does not depend on what the
buffer held, into the first 7 + payload length bytes of the buffer, all of them
inside it, and has left every later byte as it was. -/
theorem encode_all_or_nothing (c : EncodeCall) (payload : List Nat) (n : Nat)
    (buf : List Nat) (bufLen : Int) (hint : bufLen < 2 ^ 31) :
    (bufLen < 7 + (c.payload.length : Int) → c.run (some buf) bufLen = some (false, some buf)) ∧
    (∀ out, c.run (some buf) bufLen = some (true, some out) →
      7 + c.payload.length ≤ buf.length ∧ (frameBytes c.payload).length = 7 + c.payload.length ∧
        out.take (7 + c.payload.length) = frameBytes c.payload ∧
        out.drop (7 + c.payload.length) = buf.drop (7 + c.payload.length)) ∧
    (bufLen < 7 + (n : Int) → framePayload (some buf) bufLen payload n = some (false, some buf)) ∧
    (∀ out, framePayload (some buf) bufLen payload n = some (true, some out) →
      7 + n ≤ buf.length ∧ (frameBytes ((payload.take n).map u8)).length = 7 + n ∧
        out.take (7 + n) = frameBytes ((payload.take n).map u8) ∧
        out.drop (7 + n) = buf.drop (7 + n)) := by
  have hfl : ∀ p : List Nat, (frameBytes p).length = 7 + p.length := by
    intro p; simp [frameBytes]; omega
  refine ⟨c.run_short buf bufLen, ?_, framePayload_short buf payload bufLen n, ?_⟩
  · intro out h
    obtain ⟨_, _, hb, hout⟩ := c.run_true buf out bufLen h
    subst hout
    refine ⟨hb, hfl _, ?_, ?_⟩
    · rw [← hfl c.payload, List.take_left]
    · rw [← hfl c.payload, List.drop_left]
  · intro out h
    obtain ⟨hl, hb, hp⟩ := framePayload_true_length buf out bufLen payload n h
    rw [framePayload_ok buf payload bufLen n hp hl hb (by omega)] at h
    simp only [Option.some.injEq, Prod.mk.injEq, true_and] at h
    subst h
    have hlen : (frameBytes ((payload.take n).map u8)).length = 7 + n := by
      rw [hfl]; simp [hp]
    refine ⟨hb, hlen, ?_, ?_⟩
    · rw [← hlen, List.take_left]
    · rw [← hlen, List.drop_left]

theorem encode_all_or_nothing_witness :
    ((8 : Int) < 2 ^ 31 ∧ (8 : Int) < 7 + ((EncodeCall.GetStatus 0x05).payload.length : Int) ∧
      (EncodeCall.GetStatus 0x05).run (some (List.replicate 8 0xEE)) 8 =
        some (false, some (List.replicate 8 0xEE))) ∧
    ((EncodeCall.GetStatus 0x05).run (some (List.replicate 10 0xEE)) 9 =
        some (true, some [0x05, 0x02, 0x06, 0x66, 0x71, 0x05, 0x9F, 0x65, 0x03, 0xEE]) ∧
      7 + (EncodeCall.GetStatus 0x05).payload.length ≤ (List.replicate 10 0xEE).length ∧
      (frameBytes (EncodeCall.GetStatus 0x05).payload).length =
        7 + (EncodeCall.GetStatus 0x05).payload.length ∧
      [0x05, 0x02, 0x06, 0x66, 0x71, 0x05, 0x9F, 0x65, 0x03, 0xEE].take
          (7 + (EncodeCall.GetStatus 0x05).payload.length) =
        frameBytes (EncodeCall.GetStatus 0x05).payload ∧
      [0x05, 0x02, 0x06, 0x66, 0x71, 0x05, 0x9F, 0x65, 0x03, 0xEE].drop
          (7 + (EncodeCall.GetStatus 0x05).payload.length) =
        (List.replicate 10 0xEE).drop (7 + (EncodeCall.GetStatus 0x05).payload.length)) ∧
    ((8 : Int) < 7 + ((2 : Nat) : Int) ∧
      framePayload (some (List.replicate 8 0xEE)) 8 [0x71, 0x05, 0x00] (2 : Nat) =
        some (false, some (List.replicate 8 0xEE))) ∧
    (framePayload (some (List.replicate 10 0xEE)) 9 [0x71, 0x05, 0x00] (2 : Nat) =
        some (true, some [0x05, 0x02, 0x06, 0x66, 0x71, 0x05, 0x9F, 0x65, 0x03, 0xEE]) ∧
      7 + 2 ≤ (List.replicate 10 0xEE).length ∧
      (frameBytes (([0x71, 0x05, 0x00] : List Nat).take 2 |>.map u8)).length = 7 + 2 ∧
      [0x05, 0x02, 0x06, 0x66, 0x71, 0x05, 0x9F, 0x65, 0x03, 0xEE].take (7 + 2) =
        frameBytes (([0x71, 0x05, 0x00] : List Nat).take 2 |>.map u8) ∧
      [0x05, 0x02, 0x06, 0x66, 0x71, 0x05, 0x9F, 0x65, 0x03, 0xEE].drop (7 + 2) =
        (List.replicate 10 0xEE).drop (7 + 2)) :=
  ⟨⟨by decide, by decide,
      (encode_all_or_nothing (EncodeCall.GetStatus 0x05) [0x71, 0x05, 0x00] 2
        (List.replicate 8 0xEE) 8 (by decide)).1 (by decide)⟩,
    ⟨by decide,
      (encode_all_or_nothing (EncodeCall.GetStatus 0x05) [0x71, 0x05, 0x00] 2
        (List.replicate 10 0xEE) 9 (by decide)).2.1 _ (by decide)⟩,
    ⟨by decide,
      (encode_all_or_nothing (EncodeCall.GetStatus 0x05) [0x71, 0x05, 0x00] 2
        (List.replicate 8 0xEE) 8 (by decide)).2.2.1 (by decide)⟩,
    ⟨by decide,
      (encode_all_or_nothing (EncodeCall.GetStatus 0x05) [0x71, 0x05, 0x00] 2
        (List.replicate 10 0xEE) 9 (by decide)).2.2.2 _ (by decide)⟩⟩

/-- C9: every bootloader ID of the product ID table (0x000A, 0x000D, 0x0015,
0x000B, 0x000C, 0x0017) makes `zul_isBLDevicePID` return true and gets from
`zul_getDevStrByPID` the same family name as each application-mode product ID
of its family; `zul_isBLDevicePID` returns false for every application-mode
product ID, and indeed for every product ID other than those six.  The names
are `ZXY100`, `ZXY110`, `ZXY150`, `ZXY200`, `ZXY300` and `ZXY500`, for the
bootloader IDs in the order above and for the application-mode product IDs of
the same family. -/
theorem bootloader_pid_lookup :
    productTable.map (fun f => f.bootldr) = [0x000A, 0x000D, 0x0015, 0x000B, 0x000C, 0x0017] ∧
    (∀ f ∈ productTable, zul_isBLDevicePID f.bootldr = true ∧
      ∀ pid ∈ f.product, zul_getDevStrByPID f.bootldr = zul_getDevStrByPID pid ∧
        zul_getDevStrByPID pid ≠ "UNKNWN" ∧ zul_isBLDevicePID pid = false) ∧
    (∀ pid : Int, zul_isBLDevicePID pid = true ↔
      pid ∈ [(0x000A : Int), 0x000D, 0x0015, 0x000B, 0x000C, 0x0017]) ∧
    [(0x000A : Int), 0x000D, 0x0015, 0x000B, 0x000C, 0x0017].map zul_getDevStrByPID =
      ["ZXY100", "ZXY110", "ZXY150", "ZXY200", "ZXY300", "ZXY500"] ∧
    productTable.map (fun f => f.product.map zul_getDevStrByPID) =
      [["ZXY100"], ["ZXY110"], ["ZXY150"], ["ZXY200", "ZXY200"], ["ZXY300"],
        ["ZXY500", "ZXY500"]] := by
  refine ⟨by decide, by decide, ?_, by decide, by decide⟩
  intro pid
  simp only [zul_isBLDevicePID, usb_isBLDevicePID, ZXY100_BOOTLDR_ID, ZXY110_BOOTLDR_ID,
    ZXY150_BOOTLDR_ID, ZXY200_BOOTLDR_ID, ZXY300_BOOTLDR_ID, ZXY500_BOOTLDR_ID]
  constructor
  · intro h
    split at h
    · rename_i hc
      simp only [List.mem_cons, List.mem_singleton, List.not_mem_nil, or_false]
      omega
    · simp at h
  · intro h
    simp only [List.mem_cons, List.mem_singleton, List.not_mem_nil, or_false] at h
    rw [if_pos (by omega)]

/-- C10, as the code has it.  The transport is a finite sequence of receive
results.  With a non-null reply handler, a request of 1 to 64 bytes, and a
device open: `usb_ControlRequest` sends the request once, padded to 64 bytes;
it makes `k` receive attempts, at most `msv_CtrlRetry`; no attempt before the
last brings a reply of positive length with a non-zero byte, and polling ends
early only on such a reply, on a fatal error or when the send has failed; the
handler is invoked exactly once, with the buffer holding that reply, when the
last attempt brings one, and never otherwise.  `usb_ControlRequestMR` with
`replies = n` invokes the handler at most `n` times (never for `n < 1`).  With
no device open `usb_ControlRequest` returns `LIBUSB_ERROR_NO_DEVICE`: nothing
is sent or received and the handler is not invoked. -/
theorem usb_ControlRequest_transaction (req : List Nat) (reqLen : Nat) (u : Usb)
    (calls : List (List Nat)) (n : Int)
    (h0 : reqLen ≠ 0) (h64 : reqLen ≤ 64) (hreq : reqLen ≤ req.length) :
    (u.msv_dev_handle = true →
      ∃ res u1 calls1 k,
        usb_ControlRequest (some recordReply) (some req) reqLen u calls =
          some (res, u1, calls1) ∧
        u1.sent = u.sent ++ [⟨if u.msv_bootloader then 0x0300 else 0x0305,
          u.msv_activeInterface, req.take reqLen ++ List.replicate (64 - reqLen) 0⟩] ∧
        u1.received = u.received + k ∧ (k : Int) ≤ max u.msv_CtrlRetry 0 ∧
        (∀ i, i + 1 < k → (u.rxAt i).good = false) ∧
        (k < u.msv_CtrlRetry.toNat → u.txResults.headD LibusbError.TIMEOUT.code < 0 ∨
          (0 < k ∧ ((u.rxAt (k - 1)).good = true ∨ (u.rxAt (k - 1)).fatal = true))) ∧
        ((0 < k ∧ (u.rxAt (k - 1)).good = true) →
          ∃ d, calls1 = calls ++ [d] ∧
            d.take (u.rxAt (k - 1)).data.length = (u.rxAt (k - 1)).data) ∧
        (¬(0 < k ∧ (u.rxAt (k - 1)).good = true) → calls1 = calls)) ∧
    (u.msv_dev_handle = true →
      ∃ res u1 extra,
        usb_ControlRequestMR (some recordReply) (some req) reqLen n u calls =
          some (res, u1, calls ++ extra) ∧
        (extra.length : Int) ≤ max n 0) ∧
    (u.msv_dev_handle = false →
      usb_ControlRequest (some recordReply) (some req) reqLen u calls =
        some (LibusbError.NO_DEVICE.code, u, calls)) := by
  refine ⟨?_, ?_, ?_⟩
  · intro hdev
    obtain ⟨res, u1, calls1, k, hrun, hsent, _, hrec, hk, hbefore, hend, hcall, hnone⟩ :=
      usb_ControlRequest_open req reqLen u calls h0 h64 hreq hdev
    refine ⟨res, u1, calls1, k, hrun, hsent, hrec, ?_, fun i hi => (hbefore i hi).1, hend,
      hcall, hnone⟩
    omega
  · intro hdev
    unfold usb_ControlRequestMR
    by_cases hn : n < 1
    · rw [if_pos hn]
      exact ⟨-1, u, [], by simp, by simp⟩
    · rw [if_neg hn]
      obtain ⟨res, u1, calls1, k, hrun, _, hdev1, _, _, _, _, hcall, hnone⟩ :=
        usb_ControlRequest_open req reqLen u calls h0 h64 hreq hdev
      have hfirst : ∃ e1 : List (List Nat), calls1 = calls ++ e1 ∧ e1.length ≤ 1 := by
        by_cases hc : 0 < k ∧ (u.rxAt (k - 1)).good = true
        · obtain ⟨d, hd, _⟩ := hcall hc
          exact ⟨[d], hd, by simp⟩
        · exact ⟨[], by simp [hnone hc], by simp⟩
      obtain ⟨e1, he1, hl1⟩ := hfirst
      rw [hrun]
      simp only
      by_cases h1 : n = 1
      · rw [if_pos h1]
        refine ⟨res, u1, e1, by rw [he1], ?_⟩
        omega
      · rw [if_neg h1]
        obtain ⟨res2, u2, e2, hout, hl2⟩ := mrOuter_spec (n - 1).toNat res u1 calls1 hdev1
        refine ⟨res2, u2, e1 ++ e2, ?_, ?_⟩
        · rw [hout, he1, List.append_assoc]
        · rw [List.length_append]
          push_cast
          omega
  · intro hdev
    unfold usb_ControlRequest
    simp [hdev]

theorem usb_ControlRequest_transaction_witness :
    ((8 : Nat) ≠ 0 ∧ (8 : Nat) ≤ 64 ∧
      8 ≤ ([0x05, 0x02, 0x06, 0x66, 0x71, 0x05, 0x9F, 0x65, 0x03] : List Nat).length ∧
      (scriptedUsb true).msv_dev_handle = true ∧ (scriptedUsb false).msv_dev_handle = false) ∧
    (∃ res u1 calls1 k,
      usb_ControlRequest (some recordReply)
          (some [0x05, 0x02, 0x06, 0x66, 0x71, 0x05, 0x9F, 0x65, 0x03]) 8 (scriptedUsb true) [] =
        some (res, u1, calls1) ∧
      u1.sent = (scriptedUsb true).sent ++
        [⟨if (scriptedUsb true).msv_bootloader then 0x0300 else 0x0305,
          (scriptedUsb true).msv_activeInterface,
          ([0x05, 0x02, 0x06, 0x66, 0x71, 0x05, 0x9F, 0x65, 0x03] : List Nat).take 8 ++
            List.replicate (64 - 8) 0⟩] ∧
      u1.received = (scriptedUsb true).received + k ∧
      (k : Int) ≤ max (scriptedUsb true).msv_CtrlRetry 0 ∧
      (∀ i, i + 1 < k → ((scriptedUsb true).rxAt i).good = false) ∧
      (k < (scriptedUsb true).msv_CtrlRetry.toNat →
        (scriptedUsb true).txResults.headD LibusbError.TIMEOUT.code < 0 ∨
        (0 < k ∧ (((scriptedUsb true).rxAt (k - 1)).good = true ∨
          ((scriptedUsb true).rxAt (k - 1)).fatal = true))) ∧
      ((0 < k ∧ ((scriptedUsb true).rxAt (k - 1)).good = true) →
        ∃ d, calls1 = [] ++ [d] ∧
          d.take ((scriptedUsb true).rxAt (k - 1)).data.length =
            ((scriptedUsb true).rxAt (k - 1)).data) ∧
      (¬(0 < k ∧ ((scriptedUsb true).rxAt (k - 1)).good = true) → calls1 = [])) ∧
    (∃ res u1 extra,
      usb_ControlRequestMR (some recordReply)
          (some [0x05, 0x02, 0x06, 0x66, 0x71, 0x05, 0x9F, 0x65, 0x03]) 8 2 (scriptedUsb true) [] =
        some (res, u1, [] ++ extra) ∧
      (extra.length : Int) ≤ max 2 0) ∧
    usb_ControlRequest (some recordReply)
        (some [0x05, 0x02, 0x06, 0x66, 0x71, 0x05, 0x9F, 0x65, 0x03]) 8 (scriptedUsb false) [] =
      some (LibusbError.NO_DEVICE.code, scriptedUsb false, []) :=
  ⟨⟨by decide, by decide, by decide, rfl, rfl⟩,
    (usb_ControlRequest_transaction [0x05, 0x02, 0x06, 0x66, 0x71, 0x05, 0x9F, 0x65, 0x03] 8
      (scriptedUsb true) [] 2 (by decide) (by decide) (by decide)).1 rfl,
    (usb_ControlRequest_transaction [0x05, 0x02, 0x06, 0x66, 0x71, 0x05, 0x9F, 0x65, 0x03] 8
      (scriptedUsb true) [] 2 (by decide) (by decide) (by decide)).2.1 rfl,
    (usb_ControlRequest_transaction [0x05, 0x02, 0x06, 0x66, 0x71, 0x05, 0x9F, 0x65, 0x03] 8
      (scriptedUsb false) [] 2 (by decide) (by decide) (by decide)).2.2 rfl⟩

/-- C10 as stated fails: with a non-null reply handler but no device open,
`usb_ControlRequest` returns `LIBUSB_ERROR_NO_DEVICE` (-4) and the request is
not sent (no OUT transfer is made), although a non-zero reply is waiting; with
the device open the same call makes one OUT transfer, three receive attempts
and one handler call. -/
theorem usb_ControlRequest_no_device_sends_nothing :
    (usb_ControlRequest (some recordReply)
        (some [0x05, 0x02, 0x06, 0x66, 0x71, 0x05, 0x9F, 0x65, 0x03]) 8 (scriptedUsb false) []).map
        (fun r => (r.1, r.2.1.sent.length, r.2.1.received, r.2.2.length)) =
      some (-4, 0, 0, 0) ∧
    (usb_ControlRequest (some recordReply)
        (some [0x05, 0x02, 0x06, 0x66, 0x71, 0x05, 0x9F, 0x65, 0x03]) 8 (scriptedUsb true) []).map
        (fun r => (r.1, r.2.1.sent.length, r.2.1.received, r.2.2.map (fun d => d.take 8))) =
      some (8, 1, 3, [[0x05, 0x02, 0x07, 0x6A, 0x71, 0x05, 0x34, 0x12]]) := by
  decide

/-- C11 fails on the code.  When every one of the `msv_CtrlRetry` = 10 receive
attempts brings 64 zero bytes, no reply is handed to the handler, yet
`zul_getStatusByID` and `zul_getConfigParamByID` return `SUCCESS` and store the
value an earlier transaction left behind (here 0x1234) through the output
pointer; when every attempt times out they return `FAILURE` and store
nothing. -/
theorem get_by_id_zero_replies_report_success :
    (zul_getStatusByID 0x05
        (openUsb false 10 (List.replicate 10 (RxResult.reply (List.replicate 64 0))))
        { msv_getStatusVal := 0x1234 }).map
        (fun r => (r.1, r.2.1, r.2.2.1.received, r.2.2.2.msv_getStatusVal)) =
      some (SUCCESS, some 0x1234, 10, 0x1234) ∧
    (zul_getConfigParamByID 0x05
        (openUsb false 10 (List.replicate 10 (RxResult.reply (List.replicate 64 0))))
        { msv_getConfigParam := 0x1234 }).map
        (fun r => (r.1, r.2.1, r.2.2.1.received, r.2.2.2.msv_getConfigParam)) =
      some (SUCCESS, some 0x1234, 10, 0x1234) ∧
    (zul_getStatusByID 0x05
        (openUsb false 10 (List.replicate 10 (RxResult.error LibusbError.TIMEOUT)))
        { msv_getStatusVal := 0x1234 }).map (fun r => (r.1, r.2.1, r.2.2.1.received)) =
      some (FAILURE, none, 10) := by
  decide

/-- C12 fails on the code for `zul_restoreDefaults`.  From the state any
profile `e` has been set in: `zul_setConfigParamByID` returns with the profile
and the retry count, delay and timeout that were in force before the call;
`zul_restoreDefaults` returns with the profile high still active, 200 retries
and a timeout of 10000, only the delay being put back to its default 5. -/
theorem restoreDefaults_leaves_profile_high (e ID value : Nat) (u : Usb) (s : Services) :
    (∃ r u1 s1,
      zul_setConfigParamByID ID value (zul_setCommsEndurance e u s).1
          (zul_setCommsEndurance e u s).2 = some (r, u1, s1) ∧
        zul_getCommsEndurance s1 = zul_getCommsEndurance (zul_setCommsEndurance e u s).2 ∧
        u1.msv_CtrlRetry = (zul_setCommsEndurance e u s).1.msv_CtrlRetry ∧
        u1.msv_CtrlDelay = (zul_setCommsEndurance e u s).1.msv_CtrlDelay ∧
        u1.msv_CtrlTimeout = (zul_setCommsEndurance e u s).1.msv_CtrlTimeout) ∧
    (∃ u1 s1,
      zul_restoreDefaults (zul_setCommsEndurance e u s).1 (zul_setCommsEndurance e u s).2 =
          some (u1, s1) ∧
        zul_getCommsEndurance s1 = COM_ENDUR_HIGH ∧ u1.msv_CtrlRetry = 200 ∧
        u1.msv_CtrlDelay = 5 ∧ u1.msv_CtrlTimeout = 10000) := by
  constructor
  · obtain ⟨frame, henc, hlen⟩ := zul_encodeSetRequest_fits ID value
    unfold zul_setConfigParamByID
    simp only [henc, if_true]
    obtain ⟨res, u2, s2, hrun, _, _, _, _, _⟩ :=
      usb_ControlRequest_gen (some default_CTRL_handler) frame (DUAL_BYTE_MSG_LEN + 2)
        (zul_setCommsEndurance COM_ENDUR_MEDIUM (zul_setCommsEndurance e u s).1
          (zul_setCommsEndurance e u s).2).1
        { (zul_setCommsEndurance COM_ENDUR_MEDIUM (zul_setCommsEndurance e u s).1
            (zul_setCommsEndurance e u s).2).2 with msv_xfrIndex := u8 ID }
        (by decide) (by rw [hlen]; decide)
    rw [hrun]
    obtain ⟨a1, a2, a3, a4⟩ := zul_setCommsEndurance_again e u u2 s s2
    exact ⟨_, _, _, rfl, a1, a2, a3, a4⟩
  · have henc : zul_encodeRestoreDefaults (some (List.replicate SINGLE_BYTE_MSG_LEN 0)) 8 =
        some (true, some [0x05, 0x02, 0x05, 0x66, 0x29, 0x37, 0xFF, 0x03]) := by decide
    unfold zul_restoreDefaults
    simp only [henc, if_true]
    obtain ⟨res, u2, s2, hrun, hcfg, _, _, _, hs⟩ :=
      usb_ControlRequest_gen (some default_CTRL_handler)
        [0x05, 0x02, 0x05, 0x66, 0x29, 0x37, 0xFF, 0x03] SINGLE_BYTE_MSG_LEN
        (zul_setCommsEndurance COM_ENDUR_HIGH (zul_setCommsEndurance e u s).1
          (zul_setCommsEndurance e u s).2).1
        (zul_setCommsEndurance COM_ENDUR_HIGH (zul_setCommsEndurance e u s).1
          (zul_setCommsEndurance e u s).2).2
        (by decide) (by decide)
    rw [hrun]
    have hs2 := default_CTRL_handler_state (hs _ rfl)
    obtain ⟨b1, b2, _, b4⟩ := zul_setCommsEndurance_high (zul_setCommsEndurance e u s).1
      (zul_setCommsEndurance e u s).2
    obtain ⟨_, _, _, c4, _, c6⟩ := hcfg
    refine ⟨_, _, rfl, ?_, ?_, ?_, ?_⟩
    · rw [hs2]; exact b1
    · show (usb_defaultCtrlDelay u2).msv_CtrlRetry = 200
      simp only [usb_defaultCtrlDelay, usb_setCtrlDelay]
      rw [c4]; exact b2
    · rfl
    · show (usb_defaultCtrlDelay u2).msv_CtrlTimeout = 10000
      simp only [usb_defaultCtrlDelay, usb_setCtrlDelay]
      rw [c6]; exact b4

/-- C16 fails on the code.  With a device that acknowledges every block
(reply byte 0xAA): for an image of 60 bytes `numBlocks` is 60 / 64 = 0 and the
first turn of the loop divides by it in `100*loopCount/numBlocks`; for an image
of 100 bytes the second block transaction takes 64 bytes at offset 64 of the
104 bytes allocated; for an image of 128 bytes the two block transactions at
offsets 0 and 64 are made and the result is `SUCCESS`. -/
theorem transferFirmware_acked_image_faults :
    (zul_transferFirmware true (openUsb true 1 (List.replicate 2 (RxResult.reply [0xAA])))
        (loadedImage 60)).faultOf = some Fault.divisionByZero ∧
    (zul_transferFirmware true (openUsb true 1 (List.replicate 2 (RxResult.reply [0xAA])))
        (loadedImage 100)).faultOf = some Fault.outOfBounds ∧
    (zul_transferFirmware true (openUsb true 1 (List.replicate 2 (RxResult.reply [0xAA])))
        (loadedImage 128)).resultOf.map (fun r => (r.1, r.2.1.map (fun b => b.block_start),
          r.2.2.1.sent.length)) = some (SUCCESS, [0, 64], 2) := by
  decide

/-- C20 fails on the code in its last part: `errorCount` is a `static` local
that no call sets to 0 at its start.  A first call on an image of 448 bytes in
which the recorded reply code is 0 at five blocks is aborted at the sixth block
with `errorCount` = 5; a second call, to a device that acknowledges, finds
`errorCount` = 5 at its first block, records a comms error (8) and returns
`FAILURE` with the reason "Unspecified error in communications.". -/
theorem transferFirmware_errorCount_survives_call :
    ((zul_transferFirmware true (openUsb true 1 (List.replicate 6 (RxResult.reply [0])))
        (loadedImage 448)).resultOf.bind (fun r1 =>
      (zul_transferFirmware true (openUsb true 1 (List.replicate 7 (RxResult.reply [0xAA])))
        r1.2.2.2).resultOf.map (fun r2 =>
          ((r1.1, r1.2.1.map (fun b => (b.errorCount, b.reply)), r1.2.2.2.errorCount),
            (r2.1, r2.2.1, r2.2.2.2.msv_fwXferResultStr))))) =
      some ((FAILURE, [(0, 0), (1, 0), (2, 0), (3, 0), (4, 0), (5, 8)], 5),
        (FAILURE, [⟨0, 1, 5, 8⟩], ResultStr.text "Unspecified error in communications.")) := by
  decide

/-- C17 as stated fails: on an image of 448 bytes with the replies 0xAA, then a
reply with first byte 0, then one with first byte 9, then 0x06, the block
transactions are made at the offsets 0, 64, 128 and 192: the offset moved on
after the recorded reply codes 0 and 9 as well. -/
theorem transferFirmware_advances_after_code_zero :
    (zul_transferFirmware true
        (openUsb true 1 [RxResult.reply [0xAA], RxResult.reply [0x00, 0x01], RxResult.reply [0x09],
          RxResult.reply [0x06]])
        (loadedImage 448)).resultOf.map (fun r =>
          (r.1, r.2.1.map (fun b => (b.block_start, b.reply)))) =
      some (FAILURE, [(0, 0xAA), (64, 0), (128, 9), (192, 6)]) := by
  decide

/-- C13: for a file holding the bytes `f`, `zul_loadAndValidateZyf` fails with
"size error" exactly when the length is above 131072 or below 5.  Otherwise the
CRC is computed over the body `f[0 .. len-4)`, the stored CRC is
`f[len-2] + 256*f[len-1]`, the call returns `SUCCESS` exactly when the two are
equal, then with the byte count `len-4` and the hardware info `f[len-4]`,
`f[len-3]`, and it fails with "CRC filecheck failed" when they differ. -/
theorem loadAndValidateZyf_size_then_crc (f : List Nat) (s : Services)
    (hb : ∀ x ∈ f, x < 256) :
    ((zul_loadAndValidateZyf (ZyfFile.ofBytes f) s).map
        (fun r => (r.1, zul_getZyfXferResultStr r.2)) =
          some (FAILURE, ResultStr.text "size error") ↔
        (f.length > 131072 ∨ f.length < 5)) ∧
    (¬ (f.length > 131072 ∨ f.length < 5) →
      ∃ crc, zul_getCRC (f.take (f.length - 4)) (f.length - 4) = some crc ∧
        ((zul_loadAndValidateZyf (ZyfFile.ofBytes f) s).map (fun r => r.1) = some SUCCESS ↔
          f.getD (f.length - 2) 0 + 256 * f.getD (f.length - 1) 0 = crc) ∧
        (f.getD (f.length - 2) 0 + 256 * f.getD (f.length - 1) 0 = crc →
          (zul_loadAndValidateZyf (ZyfFile.ofBytes f) s).map
              (fun r => (r.2.msv_fwInfo.byteCount, r.2.msv_fwInfo.pinfo, r.2.msv_fwInfo.crc,
                r.2.msv_fwInfo.content)) =
            some (f.length - 4, (f.getD (f.length - 4) 0, f.getD (f.length - 3) 0), crc, some f)) ∧
        (f.getD (f.length - 2) 0 + 256 * f.getD (f.length - 1) 0 ≠ crc →
          (zul_loadAndValidateZyf (ZyfFile.ofBytes f) s).map
              (fun r => (r.1, zul_getZyfXferResultStr r.2)) =
            some (FAILURE, ResultStr.text "CRC filecheck failed"))) := by
  by_cases hsz : f.length > 131072 ∨ f.length < 5
  · refine ⟨⟨fun _ => hsz, fun _ => ?_⟩, fun h => absurd hsz h⟩
    rw [zul_loadAndValidateZyf_size f s hsz]
    rfl
  · have h5 : 5 ≤ f.length := by omega
    have hmax : f.length ≤ 131072 := by omega
    have hload := zul_loadAndValidateZyf_ofBytes f s hb h5 hmax
    have hcrc := zul_getCRC_take f (f.length - 4) (by omega) (by omega)
    refine ⟨⟨fun h => ?_, fun h => absurd h hsz⟩, fun _ => ⟨_, hcrc, ?_, ?_, ?_⟩⟩
    · rw [hload] at h
      by_cases hc : f.getD (f.length - 2) 0 + 256 * f.getD (f.length - 1) 0 =
          crc16_reference (f.take (f.length - 4))
      · rw [if_pos hc] at h
        simp [zul_getZyfXferResultStr, SUCCESS, FAILURE] at h
      · rw [if_neg hc] at h
        simp [zul_getZyfXferResultStr] at h
    · rw [hload]
      by_cases hc : f.getD (f.length - 2) 0 + 256 * f.getD (f.length - 1) 0 =
          crc16_reference (f.take (f.length - 4))
      · rw [if_pos hc]
        exact ⟨fun _ => hc, fun _ => rfl⟩
      · rw [if_neg hc]
        refine ⟨fun h => ?_, fun h => absurd h hc⟩
        have h1 : FAILURE = SUCCESS := Option.some.inj h
        exact absurd h1 (by decide)
    · intro hc
      rw [hload, if_pos hc, ← hc]
      rfl
    · intro hc
      rw [hload, if_neg hc]
      rfl

theorem loadAndValidateZyf_size_then_crc_witness :
    (∀ x ∈ [1, 2, 3, 4, 5, 6, 3, 13], x < 256) ∧
      ((zul_loadAndValidateZyf (ZyfFile.ofBytes [1, 2, 3, 4, 5, 6, 3, 13]) { }).map
          (fun r => (r.1, zul_getZyfXferResultStr r.2)) =
            some (FAILURE, ResultStr.text "size error") ↔
          ([1, 2, 3, 4, 5, 6, 3, 13].length > 131072 ∨ [1, 2, 3, 4, 5, 6, 3, 13].length < 5)) :=
  ⟨by decide, (loadAndValidateZyf_size_then_crc [1, 2, 3, 4, 5, 6, 3, 13] { } (by decide)).1⟩

/-- C14 as stated fails for a file that the size check turns away, since that
check comes before the CRC check.  A file of the four bytes 0 0 1 0 has the
stored CRC 1 and the CRC 0 over its empty body; loaded after a good image of 8
bytes it gives `FAILURE` with the reason "size error", and the image loaded
before stays: `byteCount` is 4, the content is kept and
`zul_getFwTransferCount` is 0.  A file of 131071 zero bytes followed by 1 0 has
the stored CRC 1 and the CRC 0 over its body of 131069 bytes, and gives
"size error" as well. -/
theorem loadAndValidateZyf_size_check_precedes_crc :
    zul_getCRC ([] : List Nat) 0 = some 0 ∧
    ((zul_loadAndValidateZyf (ZyfFile.ofBytes [1, 2, 3, 4, 5, 6, 3, 13]) { }).bind (fun r1 =>
        (zul_loadAndValidateZyf (ZyfFile.ofBytes [0, 0, 1, 0]) r1.2).map (fun r2 =>
          ((r1.1, r2.1, zul_getZyfXferResultStr r2.2),
            (r2.2.msv_fwInfo.byteCount, r2.2.msv_fwInfo.content, zul_getFwTransferCount r2.2))))) =
      some ((SUCCESS, FAILURE, ResultStr.text "size error"),
        (4, some [1, 2, 3, 4, 5, 6, 3, 13], 0)) ∧
    zul_getCRC (List.replicate 131069 0) 131069 = some 0 ∧
    (zul_loadAndValidateZyf (ZyfFile.ofBytes (List.replicate 131071 0 ++ [1, 0])) { }).map
        (fun r => (r.1, zul_getZyfXferResultStr r.2)) =
      some (FAILURE, ResultStr.text "size error") := by
  refine ⟨by decide, by decide, ?_, ?_⟩
  · have h := zul_getCRC_append (List.replicate 131069 0) []
      (by rw [List.length_replicate]; norm_num)
    rw [List.append_nil, List.length_replicate, crc16_reference_zeros] at h
    exact h
  · have hl : (List.replicate 131071 0 ++ [1, 0]).length > 131072 := by
      rw [List.length_append, List.length_replicate]
      norm_num
    rw [zul_loadAndValidateZyf_size _ _ (Or.inl hl)]
    simp only [Option.map_some', zul_getZyfXferResultStr]

/-- C14, amended: for every file of 5 to 131072 bytes whose stored CRC
`f[len-2] + 256*f[len-1]` differs from the CRC over its body,
`zul_loadAndValidateZyf` returns `FAILURE` with the reason
"CRC filecheck failed" and leaves `byteCount` = 0 and no content; afterwards
`zul_getFwTransferCount` is -1, `zul_testProgDataBlock` returns `FAILURE` and
leaves the transport as it was, and `zul_transferFirmware` makes no block
transaction. -/
theorem loadAndValidateZyf_crc_mismatch_unloads (f : List Nat) (s : Services) (u : Usb)
    (hb : ∀ x ∈ f, x < 256) (h5 : 5 ≤ f.length) (hmax : f.length ≤ 131072)
    (hcrc : zul_getCRC (f.take (f.length - 4)) (f.length - 4) ≠
      some (f.getD (f.length - 2) 0 + 256 * f.getD (f.length - 1) 0)) :
    ∃ s1, zul_loadAndValidateZyf (ZyfFile.ofBytes f) s = some (FAILURE, s1) ∧
      zul_getZyfXferResultStr s1 = ResultStr.text "CRC filecheck failed" ∧
      s1.msv_fwInfo.byteCount = 0 ∧ s1.msv_fwInfo.content = none ∧
      zul_getFwTransferCount s1 = -1 ∧
      zul_testProgDataBlock u s1 = some (FAILURE, u, s1) ∧
      ∃ s2, zul_transferFirmware true u s1 = Run.done (SUCCESS, [], u, s2) := by
  have hload := zul_loadAndValidateZyf_ofBytes f s hb h5 hmax
  have hc : ¬ f.getD (f.length - 2) 0 + 256 * f.getD (f.length - 1) 0 =
      crc16_reference (f.take (f.length - 4)) := by
    intro h
    apply hcrc
    rw [zul_getCRC_take f (f.length - 4) (by omega) (by omega), h]
  rw [if_neg hc] at hload
  refine ⟨_, hload, rfl, rfl, rfl, ?_, ?_, ?_⟩
  · unfold zul_getFwTransferCount
    rw [if_pos rfl]
  · unfold zul_testProgDataBlock
    rw [if_pos rfl]
  · exact ⟨_, zul_transferFirmware_empty true u _ rfl⟩

theorem loadAndValidateZyf_crc_mismatch_unloads_witness :
    zul_getCRC ((List.replicate 100 0 ++ [1, 2, 1, 0]).take
        ((List.replicate 100 0 ++ [1, 2, 1, 0]).length - 4))
        ((List.replicate 100 0 ++ [1, 2, 1, 0]).length - 4) ≠
      some ((List.replicate 100 0 ++ [1, 2, 1, 0]).getD
          ((List.replicate 100 0 ++ [1, 2, 1, 0]).length - 2) 0 +
        256 * (List.replicate 100 0 ++ [1, 2, 1, 0]).getD
          ((List.replicate 100 0 ++ [1, 2, 1, 0]).length - 1) 0) ∧
    ∃ s1, zul_loadAndValidateZyf (ZyfFile.ofBytes (List.replicate 100 0 ++ [1, 2, 1, 0])) { } =
        some (FAILURE, s1) ∧ zul_getZyfXferResultStr s1 = ResultStr.text "CRC filecheck failed" ∧
      zul_getFwTransferCount s1 = -1 :=
  have hcrc : zul_getCRC ((List.replicate 100 0 ++ [1, 2, 1, 0]).take
        ((List.replicate 100 0 ++ [1, 2, 1, 0]).length - 4))
        ((List.replicate 100 0 ++ [1, 2, 1, 0]).length - 4) ≠
      some ((List.replicate 100 0 ++ [1, 2, 1, 0]).getD
          ((List.replicate 100 0 ++ [1, 2, 1, 0]).length - 2) 0 +
        256 * (List.replicate 100 0 ++ [1, 2, 1, 0]).getD
          ((List.replicate 100 0 ++ [1, 2, 1, 0]).length - 1) 0) := by
    have hf : (List.replicate 100 0 ++ [1, 2, 1, 0]).take
        ((List.replicate 100 0 ++ [1, 2, 1, 0]).length - 4) = List.replicate 100 0 := by decide
    have hl : (List.replicate 100 0 ++ [1, 2, 1, 0]).length - 4 = 100 := by decide
    have hs : (List.replicate 100 0 ++ [1, 2, 1, 0]).getD
          ((List.replicate 100 0 ++ [1, 2, 1, 0]).length - 2) 0 +
        256 * (List.replicate 100 0 ++ [1, 2, 1, 0]).getD
          ((List.replicate 100 0 ++ [1, 2, 1, 0]).length - 1) 0 = 1 := by decide
    have h := zul_getCRC_append (List.replicate 100 0) []
      (by rw [List.length_replicate]; norm_num)
    rw [List.append_nil, List.length_replicate, crc16_reference_zeros] at h
    rw [hf, hl, hs, h]
    decide
  ⟨hcrc,
    let ⟨s1, h1, h2, _, _, h5, _⟩ :=
      loadAndValidateZyf_crc_mismatch_unloads (List.replicate 100 0 ++ [1, 2, 1, 0]) { }
        (openUsb true 1 []) (by decide) (by decide) (by simp) hcrc
    ⟨s1, h1, h2, h5⟩⟩

/-- C15: loading the same file twice in succession with
`zul_loadAndValidateZyf`, from any state, gives the same result, the same
`byteCount` and the same two bytes `pinfo` both times; for a well-formed image
(5 to 131072 bytes, stored CRC equal to the CRC over the body) the result is
`SUCCESS`, the byte count is the file length less 4 and `pinfo` holds the
bytes `f[len-4]`, `f[len-3]`. -/
theorem loadAndValidateZyf_twice (f : List Nat) (s : Services) (hb : ∀ x ∈ f, x < 256) :
    ∃ r s1 s2, zul_loadAndValidateZyf (ZyfFile.ofBytes f) s = some (r, s1) ∧
      zul_loadAndValidateZyf (ZyfFile.ofBytes f) s1 = some (r, s2) ∧
      s2.msv_fwInfo.byteCount = s1.msv_fwInfo.byteCount ∧
      s2.msv_fwInfo.pinfo = s1.msv_fwInfo.pinfo ∧
      (5 ≤ f.length → f.length ≤ 131072 →
        zul_getCRC (f.take (f.length - 4)) (f.length - 4) =
          some (f.getD (f.length - 2) 0 + 256 * f.getD (f.length - 1) 0) →
        r = SUCCESS ∧ s1.msv_fwInfo.byteCount = f.length - 4 ∧
          s1.msv_fwInfo.pinfo = (f.getD (f.length - 4) 0, f.getD (f.length - 3) 0)) := by
  by_cases hsz : f.length > 131072 ∨ f.length < 5
  · refine ⟨_, _, _, zul_loadAndValidateZyf_size f s hsz, zul_loadAndValidateZyf_size f _ hsz,
      rfl, rfl, fun h5 hmax _ => ?_⟩
    omega
  · have h5 : 5 ≤ f.length := by omega
    have hmax : f.length ≤ 131072 := by omega
    have hcrc := zul_getCRC_take f (f.length - 4) (by omega) (by omega)
    by_cases hc : f.getD (f.length - 2) 0 + 256 * f.getD (f.length - 1) 0 =
        crc16_reference (f.take (f.length - 4))
    · have key : ∀ t : Services, ∃ t1, zul_loadAndValidateZyf (ZyfFile.ofBytes f) t =
            some (SUCCESS, t1) ∧ t1.msv_fwInfo.byteCount = f.length - 4 ∧
          t1.msv_fwInfo.pinfo = (f.getD (f.length - 4) 0, f.getD (f.length - 3) 0) := by
        intro t
        have h := zul_loadAndValidateZyf_ofBytes f t hb h5 hmax
        rw [if_pos hc] at h
        exact ⟨_, h, rfl, rfl⟩
      obtain ⟨s1, a1, a2, a3⟩ := key s
      obtain ⟨s2, b1, b2, b3⟩ := key s1
      exact ⟨_, s1, s2, a1, b1, b2.trans a2.symm, b3.trans a3.symm, fun _ _ _ => ⟨rfl, a2, a3⟩⟩
    · have key : ∀ t : Services, ∃ t1, zul_loadAndValidateZyf (ZyfFile.ofBytes f) t =
            some (FAILURE, t1) ∧ t1.msv_fwInfo.byteCount = 0 ∧
          t1.msv_fwInfo.pinfo = (0, f.getD (f.length - 3) 0) := by
        intro t
        have h := zul_loadAndValidateZyf_ofBytes f t hb h5 hmax
        rw [if_neg hc] at h
        exact ⟨_, h, rfl, rfl⟩
      obtain ⟨s1, a1, a2, a3⟩ := key s
      obtain ⟨s2, b1, b2, b3⟩ := key s1
      refine ⟨_, s1, s2, a1, b1, b2.trans a2.symm, b3.trans a3.symm, fun _ _ h => ?_⟩
      rw [hcrc] at h
      exact absurd (Option.some.inj h).symm hc

theorem loadAndValidateZyf_twice_witness :
    (∀ x ∈ [1, 2, 3, 4, 5, 6, 3, 13], x < 256) ∧
    ∃ r s1 s2, zul_loadAndValidateZyf (ZyfFile.ofBytes [1, 2, 3, 4, 5, 6, 3, 13])
        (loadedImage 128) = some (r, s1) ∧
      zul_loadAndValidateZyf (ZyfFile.ofBytes [1, 2, 3, 4, 5, 6, 3, 13]) s1 = some (r, s2) ∧
      r = SUCCESS ∧ s1.msv_fwInfo.byteCount = 4 ∧ s2.msv_fwInfo.byteCount = 4 ∧
      s1.msv_fwInfo.pinfo = (5, 6) ∧ s2.msv_fwInfo.pinfo = (5, 6) :=
  ⟨by decide,
    let ⟨r, s1, s2, h1, h2, h3, h4, h5⟩ :=
      loadAndValidateZyf_twice [1, 2, 3, 4, 5, 6, 3, 13] (loadedImage 128) (by decide)
    ⟨r, s1, s2, h1, h2, (h5 (by decide) (by decide) (by decide)).1,
      (h5 (by decide) (by decide) (by decide)).2.1,
      h3.trans (h5 (by decide) (by decide) (by decide)).2.1,
      (h5 (by decide) (by decide) (by decide)).2.2,
      h4.trans (h5 (by decide) (by decide) (by decide)).2.2⟩⟩

/-- C17, amended: in a turn of the loop of `zul_transferFirmware` with
`numBlocks` not 0 and the 64 bytes of the block inside the loaded bytes, the
block transaction has a recorded reply code `c`, and the block offset is
increased by 64 exactly when `c` is not one of the codes at which the function
returns (size error, programming complete, ping, versions, CRC error,
programming failed, comms error): after acknowledge and block-written, and also
after 0, after any unlisted value and after a reply buffer left at its previous
value, the loop goes on with the offset moved on by 64; at a code of the list
the function returns with the offset unchanged.  For a loaded image of at least
64 bytes whose length is a multiple of 64 or at most 4 short of the next one,
`zul_transferFirmware` returns whatever the device replies, its block
transactions are at the offsets 0, 64, 128, ..., and every transaction that is
followed by another one has a recorded reply code that is not of the list. -/
theorem transferFirmware_advances_unless_return (nb : Int) (l : XferLoop) (u : Usb)
    (s : Services) (content : List Nat) (fuel : Nat) (hnb : nb ≠ 0)
    (hcont : s.msv_fwInfo.content = some content) (h0 : 0 ≤ l.block_start)
    (hin : l.block_start.toNat + 64 ≤ content.length)
    (hloop : l.block_end < castInt s.msv_fwInfo.byteCount) :
    (∃ c r l1 u1 s1, blockReply nb l u s = some c ∧
      transferBlock nb l u s = Run.done (r, l1, u1, s1) ∧
      (replyEndsTransfer c = false →
        r = none ∧ l1.block_start = l.block_start + 64 ∧
          transferLoop nb (fuel + 1) l u s = transferLoop nb fuel l1 u1 s1) ∧
      (replyEndsTransfer c = true →
        ∃ v, r = some v ∧ l1.block_start = l.block_start ∧
          transferLoop nb (fuel + 1) l u s = Run.done (v, l1, u1, s1))) ∧
    (∀ c : Nat, (replyEndsTransfer c = true ↔ c ∈ [1, 3, 4, 5, 6, 7, 8]) ∧
      (c = BL_RSP_Acknowledge ∨ c = BL_RSP_BLOCK_WRITTEN ∨ c = 0 ∨ 8 < c →
        replyEndsTransfer c = false)) ∧
    (∀ (track : Bool) (u0 : Usb) (s0 : Services) (image : List Nat),
      s0.msv_fwInfo.content = some image → 64 ≤ s0.msv_fwInfo.byteCount →
      s0.msv_fwInfo.byteCount < 2 ^ 31 →
      (s0.msv_fwInfo.byteCount % 64 = 0 ∨ 60 ≤ s0.msv_fwInfo.byteCount % 64) →
      s0.msv_fwInfo.byteCount + 4 ≤ image.length →
      ∃ r tr u1 s1, zul_transferFirmware track u0 s0 = Run.done (r, tr, u1, s1) ∧
        (∀ (i : Nat) (b : BlockRecord), tr[i]? = some b → b.block_start = 64 * (i : Int)) ∧
        (∀ (i : Nat) (b : BlockRecord), tr[i]? = some b → i + 1 < tr.length →
          replyEndsTransfer b.reply = false)) := by
  refine ⟨?_, ?_, ?_⟩
  · obtain ⟨r, l1, u1, s1, hb⟩ := transferBlock_total nb l u s content hnb hcont h0 hin
    obtain ⟨st, c, htr, hstart, _, hr, _⟩ := transferBlock_inv nb l u s r l1 u1 s1 hb
    have hrep : blockReply nb l u s = some c := by
      unfold blockReply
      rw [hb]
      simp only [htr, List.getLast?_append, List.getLast?_singleton]
      rfl
    have hstep : transferLoop nb (fuel + 1) l u s =
        match transferBlock nb l u s with
        | Run.fault f => Run.fault f
        | Run.done (some r, l1, u1, s1) => Run.done (r, l1, u1, s1)
        | Run.done (none, l1, u1, s1) => transferLoop nb fuel l1 u1 s1 := by
      rw [transferLoop, if_pos hloop]
    rw [hb] at hstep
    refine ⟨c, r, l1, u1, s1, hrep, hb, fun h0 => ?_, fun h1 => ?_⟩
    · rw [h0] at hr hstart
      simp only [Bool.false_eq_true, if_false] at hr hstart
      subst hr
      exact ⟨rfl, hstart, hstep⟩
    · rw [h1] at hr hstart
      simp only [if_true] at hr hstart
      subst hr
      exact ⟨_, rfl, hstart, hstep⟩
  · intro c
    simp only [replyEndsTransfer, BL_RSP_SIZE_ERROR, BL_RSP_PROGRAMMING_COMPLETE, BL_RSP_PING,
      BL_RSP_BL_VERSIONS, BL_RSP_CRC_ERROR, BL_RSP_PROGRAMMING_FAILED, BL_RSP_COMMS_ERROR,
      BL_RSP_Acknowledge, BL_RSP_BLOCK_WRITTEN, Bool.or_eq_true, decide_eq_true_eq,
      Bool.or_eq_false_iff, decide_eq_false_iff_not, List.mem_cons, List.mem_singleton,
      List.not_mem_nil, or_false]
    constructor
    · constructor <;> intro h <;> omega
    · intro h
      omega
  · intro track u0 s0 image hcont0 h64 hN hshape hlen
    obtain ⟨r, tr, u1, s1, hrun⟩ :=
      zul_transferFirmware_total track u0 s0 image hcont0 h64 hN hshape hlen
    obtain ⟨hoff, hends, _⟩ := zul_transferFirmware_inv track u0 s0 r tr u1 s1 hrun
    refine ⟨r, tr, u1, s1, hrun, hoff, ?_⟩
    intro i b hi hlt
    rcases hends with ⟨hall, _⟩ | ⟨pre, b1, htr, hpre, _⟩
    · exact hall b (getElem?_mem_list hi)
    · rw [htr] at hi hlt
      simp only [List.length_append, List.length_singleton] at hlt
      rw [List.getElem?_append_left (by omega)] at hi
      exact hpre b (getElem?_mem_list hi)

theorem transferFirmware_advances_unless_return_witness :
    ((7 : Int) ≠ 0 ∧ (0 : Int).toNat + 64 ≤ (List.replicate (448 + 4) 7).length) ∧
      blockReply 7 ⟨0, 0, 0, []⟩ (openUsb true 1 [RxResult.reply [0x00, 0x01]]) (loadedImage 448) =
        some 0 ∧
      ∃ r l1 u1 s1, transferBlock 7 ⟨0, 0, 0, []⟩ (openUsb true 1 [RxResult.reply [0x00, 0x01]])
          (loadedImage 448) = Run.done (r, l1, u1, s1) ∧ r = none ∧ l1.block_start = 0 + 64 := by
  obtain ⟨c, r, l1, u1, s1, hc, hb, hf, _⟩ :=
    (transferFirmware_advances_unless_return 7 ⟨0, 0, 0, []⟩
      (openUsb true 1 [RxResult.reply [0x00, 0x01]]) (loadedImage 448)
      (List.replicate (448 + 4) 7) 6 (by decide) rfl (by decide) (by decide) (by decide)).1
  have h0 : blockReply 7 ⟨0, 0, 0, []⟩ (openUsb true 1 [RxResult.reply [0x00, 0x01]])
      (loadedImage 448) = some 0 := by decide
  have hc0 : c = 0 := Option.some.inj (hc.symm.trans h0)
  subst hc0
  exact ⟨⟨by decide, by decide⟩, h0, r, l1, u1, s1, hb, (hf rfl).1, (hf rfl).2.1⟩

/-- C18 fails on the code.  The file with a body of 60 zero bytes is accepted
by `zul_loadAndValidateZyf`; `numBlocks` is then 60 / 64 = 0, and when the
device answers the block with the CRC error code 0x06, `zul_transferFirmware`
divides by `numBlocks` before the `switch` on the reply code: it does not
return `FAILURE`, sets no reason string, and the driver does not get to
`zul_BL_RebootToApp`.  On an image of 448 bytes the same reply gives `FAILURE`
after the one block transaction, with the reason
"The data sent to the controller has been corrupted. CRC.", and the driver
then sends the transfer that starts with the opcode 2. -/
theorem transferFirmware_error_reply_small_image_faults :
    (zul_loadAndValidateZyf (ZyfFile.ofBytes (List.replicate 60 0 ++ [1, 2, 0, 0])) { }).map
        (fun r => (r.1, r.2.msv_fwInfo.byteCount,
          (zul_transferFirmware true (openUsb true 1 [RxResult.reply [0x06]]) r.2).faultOf,
          (firmwareUpdate_finish (openUsb true 1 [RxResult.reply [0x06]]) r.2).faultOf)) =
      some (SUCCESS, 60, some Fault.divisionByZero, some Fault.divisionByZero) ∧
    (firmwareUpdate_finish (openUsb true 1 [RxResult.reply [0x06]]) (loadedImage 448)).resultOf.map
        (fun r => (r.1, r.2.1.map (fun b => (b.block_start, b.reply)),
          r.2.2.1.sent.map (fun t => t.data.take 2), zul_getZyfXferResultStr r.2.2.2)) =
      some (FAILURE, [(0, 6)], [[7, 7], [BLRebootToApp, 0]],
        ResultStr.text "The data sent to the controller has been corrupted. CRC.") := by
  constructor
  · rw [zul_loadAndValidateZyf_zero_body 60 { } (by decide) (by decide)]
    decide
  · decide

/-- C21 fails on the code: the test before the loop is
`(colIndex >= msv_xWires) && (rowIndex >= msv_yWires)`, so a packet is dropped
only when both indices are out of range.  On a sensor of 2 by 2 wires with an
image of 4 bytes: a packet with column 0 and row 2 writes its value 0x99 at
image index 2; a packet with column 5 and row 0 writes at index 10, outside
the image; a packet with column 5 and row 7 writes nothing. -/
theorem rawdata_mt_one_index_out_of_range_writes :
    (handle_IN_rawdata_mt ([6, 0, 2, 1, 0x99] ++ List.replicate 59 0)
        { msv_xWires := 2, msv_yWires := 2, msv_RawDataMode := 1,
          msv_image := some [0, 0, 0, 0] }).map (fun r => (r.1.msv_image, r.2)) =
      some (some [0, 0, 0x99, 0], [⟨0, 2, 2, 0x99⟩]) ∧
    handle_IN_rawdata_mt ([6, 5, 0, 1, 0x99] ++ List.replicate 59 0)
        { msv_xWires := 2, msv_yWires := 2, msv_RawDataMode := 1,
          msv_image := some [0, 0, 0, 0] } = none ∧
    (handle_IN_rawdata_mt ([6, 5, 7, 1, 0x99] ++ List.replicate 59 0)
        { msv_xWires := 2, msv_yWires := 2, msv_RawDataMode := 1,
          msv_image := some [0, 0, 0, 0] }).map (fun r => (r.1.msv_image, r.2)) =
      some (some [0, 0, 0, 0], []) := by
  decide

/-- C22 as stated fails in the order of the cells: on a sensor of 2 by 2 wires
the packet with start column 0, start row 0 and 4 cells has its values written
at (column, row) = (0,0), (0,1), (1,0), (1,1), the image indices 0, 1, 2, 3:
the second value goes to column 0, row 1, not to column 1, row 0.  The row
index advances first. -/
theorem rawdata_mt_second_value_same_column :
    (handle_IN_rawdata_mt ([6, 0, 0, 4, 0x11, 0x22, 0x33, 0x44] ++ List.replicate 56 0)
        { msv_xWires := 2, msv_yWires := 2, msv_RawDataMode := 1,
          msv_image := some [0, 0, 0, 0] }).map (fun r => (r.1.msv_image, r.2)) =
      some (some [0x11, 0x22, 0x33, 0x44],
        [⟨0, 0, 0, 0x11⟩, ⟨0, 1, 1, 0x22⟩, ⟨1, 0, 2, 0x33⟩, ⟨1, 1, 3, 0x44⟩]) := by
  decide

/-- C22, amended: with raw mode on and an image bound that holds the sensor, a
packet with start column `c` and start row `r` inside the sensor and `n` cells,
which holds the values of the `n` cells or of the cells that are left in the
sensor from the start cell on (sensor of at most 255 by 255 wires), is handled
without fault; the `k`-th write takes the `k`-th packet value, at
image index `msv_yWires*colIndex+rowIndex` below `xWires*yWires`; the first
write is at (`c`, `r`); from one write to the next the row index advances, and
where it reaches `yWires` it goes back to 0 and the column index advances;
writing stops before `n` cells only where the column index reaches `xWires`.
On a sensor of 2 by 2 wires a packet with start 0, 0 and 4 cells writes its
values at (column, row) = (0,0), (0,1), (1,0), (1,1), image indices 0 to 3. -/
theorem rawdata_mt_column_major (s : Reports) (image : List Nat) (c r n : Nat) (vals : List Nat)
    (hmode : s.msv_RawDataMode ≠ 0) (himage : s.msv_image = some image)
    (hsize : s.msv_xWires * s.msv_yWires ≤ image.length)
    (hc : c < s.msv_xWires) (hr : r < s.msv_yWires)
    (hn : n ≤ vals.length ∨ (s.msv_xWires ≤ 255 ∧ s.msv_yWires ≤ 255 ∧
      (s.msv_xWires - c) * s.msv_yWires - r ≤ vals.length)) :
    (∃ (image1 : List Nat) (writes : List CellWrite),
      handle_IN_rawdata_mt (RAW_DATA :: c :: r :: n :: vals) s =
        some ({ s with msv_image := some image1 }, writes) ∧
      image1.length = image.length ∧ writes.length ≤ n ∧ (n ≠ 0 → writes ≠ []) ∧
      (∀ (k : Nat) (w : CellWrite), writes[k]? = some w → vals[k]? = some w.value ∧
        w.index = s.msv_yWires * w.colIndex + w.rowIndex ∧ w.colIndex < s.msv_xWires ∧
        w.rowIndex < s.msv_yWires ∧ w.index < s.msv_xWires * s.msv_yWires) ∧
      (∀ w : CellWrite, writes[0]? = some w → w.colIndex = c ∧ w.rowIndex = r) ∧
      (∀ (k : Nat) (w w1 : CellWrite), writes[k]? = some w → writes[k + 1]? = some w1 →
        if u8 (w.rowIndex + 1) = s.msv_yWires then
          w1.rowIndex = 0 ∧ w1.colIndex = u8 (w.colIndex + 1)
        else w1.rowIndex = u8 (w.rowIndex + 1) ∧ w1.colIndex = w.colIndex) ∧
      (writes.length < n → ∃ w, writes.getLast? = some w ∧
        u8 (w.rowIndex + 1) = s.msv_yWires ∧ u8 (w.colIndex + 1) = s.msv_xWires)) ∧
    (∀ v0 v1 v2 v3 rest, s.msv_xWires = 2 → s.msv_yWires = 2 →
      (handle_IN_rawdata_mt (RAW_DATA :: 0 :: 0 :: 4 :: v0 :: v1 :: v2 :: v3 :: rest) s).map
          (fun x => x.2) =
        some [⟨0, 0, 0, v0⟩, ⟨0, 1, 1, v1⟩, ⟨1, 0, 2, v2⟩, ⟨1, 1, 3, v3⟩]) := by
  constructor
  · obtain ⟨image1, new, hrun, hlen, hle, hall, hfirst, hne, hchain, hstop⟩ :=
      rawdataLoop_spec s.msv_xWires s.msv_yWires (RAW_DATA :: c :: r :: n :: vals) n 4 c r image
        [] hc hr hsize (by
          simp only [List.length_cons]
          rcases hn with h | ⟨hx, hy, h⟩
          · exact Or.inl (by omega)
          · exact Or.inr ⟨hx, hy, by omega⟩)
    rw [List.nil_append] at hrun
    refine ⟨image1, new, ?_, hlen, hle, hne, ?_, hfirst, hchain, hstop⟩
    · unfold handle_IN_rawdata_mt
      have hguard : ¬ (c ≥ s.msv_xWires ∧ r ≥ s.msv_yWires) := by omega
      simp only [List.getElem?_cons_zero, List.getElem?_cons_succ, ne_eq, not_true_eq_false,
        if_false, if_neg hmode, himage, if_neg hguard, hrun]
    · intro k w hk
      obtain ⟨h1, h2⟩ := hall k w hk
      refine ⟨?_, h2⟩
      rw [← h1, show 4 + k = k + 1 + 1 + 1 + 1 by omega]
      simp only [List.getElem?_cons_succ]
  · intro v0 v1 v2 v3 rest hx hy
    have h4 : 4 ≤ image.length := by rw [hx, hy] at hsize; omega
    unfold handle_IN_rawdata_mt
    have hguard : ¬ ((0 : Nat) ≥ s.msv_xWires ∧ (0 : Nat) ≥ s.msv_yWires) := by omega
    simp only [List.getElem?_cons_zero, List.getElem?_cons_succ, ne_eq, not_true_eq_false,
      if_false, if_neg hmode, himage, if_neg hguard, hx, hy]
    have i0 : 0 < image.length := by omega
    have i1 : 1 < image.length := by omega
    have i2 : 2 < image.length := by omega
    have i3 : 3 < image.length := by omega
    simp [rawdataLoop, store, u8, List.length_set, i0, i1, i2, i3]

theorem rawdata_mt_column_major_witness :
    ((1 : Int) ≠ 0 ∧ (0 : Nat) < 2 ∧
      (2 - 0) * 2 - 0 ≤ ([0x11, 0x22, 0x33, 0x44] ++ List.replicate 56 0).length) ∧
      (handle_IN_rawdata_mt
          (RAW_DATA :: 0 :: 0 :: 4 :: 0x11 :: 0x22 :: 0x33 :: 0x44 :: List.replicate 56 0)
          { msv_xWires := 2, msv_yWires := 2, msv_RawDataMode := 1,
            msv_image := some [0, 0, 0, 0] }).map (fun x => x.2) =
        some [⟨0, 0, 0, 0x11⟩, ⟨0, 1, 1, 0x22⟩, ⟨1, 0, 2, 0x33⟩, ⟨1, 1, 3, 0x44⟩] ∧
      (handle_IN_rawdata_mt
          (RAW_DATA :: 0 :: 0 :: 200 :: 0x11 :: 0x22 :: 0x33 :: 0x44 :: List.replicate 56 0)
          { msv_xWires := 2, msv_yWires := 2, msv_RawDataMode := 1,
            msv_image := some [0, 0, 0, 0] }).map (fun x => (x.1.msv_image, x.2)) =
        some (some [0x11, 0x22, 0x33, 0x44],
          [⟨0, 0, 0, 0x11⟩, ⟨0, 1, 1, 0x22⟩, ⟨1, 0, 2, 0x33⟩, ⟨1, 1, 3, 0x44⟩]) :=
  ⟨⟨by decide, by decide, by decide⟩,
    (rawdata_mt_column_major
      { msv_xWires := 2, msv_yWires := 2, msv_RawDataMode := 1, msv_image := some [0, 0, 0, 0] }
      [0, 0, 0, 0] 0 0 200 ([0x11, 0x22, 0x33, 0x44] ++ List.replicate 56 0)
      (by decide) rfl (by decide) (by decide) (by decide)
      (Or.inr ⟨by decide, by decide, by decide⟩)).2
      0x11 0x22 0x33 0x44 (List.replicate 56 0) rfl rfl,
    by decide⟩

/-- C23: after `handle_IN_heartbeat` has taken a packet `d` of 64 bytes with
`d[0]` = 7, the first call of `zul_GetHeartBeatData` returns the buffer, whose
bytes 1 to 63 are those of `d` (byte 0 is then the mark 0xFF); in any run of
further calls and of packets with another report ID that follows, every call
returns `NULL` and the buffer stays as it is; and a packet with another report
ID leaves any state unchanged. -/
theorem heartbeat_read_once (d : List Nat) (s : Reports) (evs : List HbEvent)
    (hlen : d.length = 64) (h0 : d[0]? = some HEARTBEAT_REPORT)
    (hev : ∀ p, HbEvent.packet p ∈ evs → ∃ x, p[0]? = some x ∧ x ≠ HEARTBEAT_REPORT) :
    (∃ (s1 : Reports) (buf : List Nat) (s2 : Reports),
      handle_IN_heartbeat d s = some s1 ∧
      zul_GetHeartBeatData s1 = some (some buf, s2) ∧ buf.length = 64 ∧
      (∀ i, 1 ≤ i → i < 64 → buf[i]? = d[i]?) ∧
      ∃ rs, hbRun evs s2 = some (rs, s2) ∧ ∀ r ∈ rs, r = none) ∧
    (∀ (p : List Nat) (x : Nat) (t : Reports), p[0]? = some x → x ≠ HEARTBEAT_REPORT →
      handle_IN_heartbeat p t = some t) := by
  constructor
  · have hh : handle_IN_heartbeat d s = some { s with msv_heartBeatData := d } := by
      unfold handle_IN_heartbeat
      rw [h0]
      simp only [if_true, if_neg (by omega : ¬ d.length < 64)]
      rw [List.take_of_length_le (by omega)]
    have hget : zul_GetHeartBeatData { s with msv_heartBeatData := d } =
        some (some (d.set 0 (u8 0xFF)),
          { s with msv_heartBeatData := d.set 0 (u8 0xFF) }) := by
      unfold zul_GetHeartBeatData
      simp only [h0, if_true, store, if_pos (by omega : 0 < d.length)]
    have hb0 : (d.set 0 (u8 0xFF))[0]? = some 255 := by
      rw [List.getElem?_set_self (by omega)]
      rfl
    obtain ⟨rs, hrun, hall⟩ := hbRun_consumed evs
      { s with msv_heartBeatData := d.set 0 (u8 0xFF) } 255 hb0 (by decide) hev
    refine ⟨_, _, _, hh, hget, by rw [List.length_set, hlen], ?_, rs, hrun, hall⟩
    intro i hi _
    rw [List.getElem?_set_ne (by omega)]
  · intro p x t hx hne
    unfold handle_IN_heartbeat
    rw [hx]
    simp only [if_neg hne]

theorem heartbeat_read_once_witness :
    ((HEARTBEAT_REPORT :: List.replicate 63 0x5A).length = 64 ∧
      (HEARTBEAT_REPORT :: List.replicate 63 0x5A)[0]? = some HEARTBEAT_REPORT) ∧
    ∃ (s1 : Reports) (buf : List Nat) (s2 : Reports),
      handle_IN_heartbeat (HEARTBEAT_REPORT :: List.replicate 63 0x5A) { } = some s1 ∧
      zul_GetHeartBeatData s1 = some (some buf, s2) ∧ buf.length = 64 ∧
      (∀ i, 1 ≤ i → i < 64 → buf[i]? = (HEARTBEAT_REPORT :: List.replicate 63 0x5A)[i]?) ∧
      ∃ rs, hbRun [HbEvent.get, HbEvent.packet (RAW_DATA :: List.replicate 63 0), HbEvent.get]
        s2 = some (rs, s2) ∧ ∀ r ∈ rs, r = none :=
  ⟨⟨by decide, by decide⟩,
    (heartbeat_read_once (HEARTBEAT_REPORT :: List.replicate 63 0x5A) { }
      [HbEvent.get, HbEvent.packet (RAW_DATA :: List.replicate 63 0), HbEvent.get]
      (by decide) (by decide) (by
        intro p hp
        simp only [List.mem_cons, HbEvent.packet.injEq, List.mem_singleton, reduceCtorEq,
          false_or, or_false, List.not_mem_nil] at hp
        subst hp
        exact ⟨RAW_DATA, rfl, by decide⟩)).1⟩

/-- C24: for a packet `d` of at least 7 bytes, `zul_Get1TouchFromData` sets
`flags` to `d[1] & 7`; for `flags` 0 or 3 the contact ID is `d[2]`,
X = `d[3] + 256*d[4]` and Y = `d[5] + 256*d[6]`; for `flags` 4 or 7 the contact
ID is left alone, X = `d[2] + 256*d[3]` and Y = `d[4] + 256*d[5]`; the
return value is true exactly when `flags` is 3 or 7; for a null packet the
return value is false and the contact is left alone. -/
theorem get1Touch_decodes (d : List Nat) (c : Contact) (hlen : 7 ≤ d.length)
    (hb : ∀ x ∈ d, x < 256) :
    (∃ (touched : Bool) (c1 : Contact), zul_Get1TouchFromData (some d) c = some (touched, c1) ∧
      c1.flags = d.getD 1 0 &&& 7 ∧
      (c1.flags = 0 ∨ c1.flags = 3 →
        c1.ID = d.getD 2 0 ∧ c1.x = ((d.getD 3 0 + 256 * d.getD 4 0 : Nat) : Int) ∧
          c1.y = ((d.getD 5 0 + 256 * d.getD 6 0 : Nat) : Int)) ∧
      (c1.flags = 4 ∨ c1.flags = 7 →
        c1.ID = c.ID ∧ c1.x = ((d.getD 2 0 + 256 * d.getD 3 0 : Nat) : Int) ∧
          c1.y = ((d.getD 4 0 + 256 * d.getD 5 0 : Nat) : Int)) ∧
      (touched = true ↔ c1.flags = 3 ∨ c1.flags = 7)) ∧
    zul_Get1TouchFromData none c = some (false, c) := by
  refine ⟨?_, rfl⟩
  rcases d with _ | ⟨a0, _ | ⟨a1, _ | ⟨a2, _ | ⟨a3, _ | ⟨a4, _ | ⟨a5, _ | ⟨a6, rest⟩⟩⟩⟩⟩⟩⟩
  all_goals try (simp only [List.length_nil, List.length_cons] at hlen; omega)
  have b1 : u8 a1 = a1 := Nat.mod_eq_of_lt (hb a1 (by simp))
  have b2 : u8 a2 = a2 := Nat.mod_eq_of_lt (hb a2 (by simp))
  have b3 : u8 a3 = a3 := Nat.mod_eq_of_lt (hb a3 (by simp))
  have b4 : u8 a4 = a4 := Nat.mod_eq_of_lt (hb a4 (by simp))
  have b5 : u8 a5 = a5 := Nat.mod_eq_of_lt (hb a5 (by simp))
  have b6 : u8 a6 = a6 := Nat.mod_eq_of_lt (hb a6 (by simp))
  have hf : a1 &&& 7 < 8 := Nat.lt_of_le_of_lt Nat.and_le_right (by decide)
  unfold zul_Get1TouchFromData
  simp only [List.getElem?_cons_zero, List.getElem?_cons_succ, List.getD_cons_zero,
    List.getD_cons_succ, b1, b2, b3, b4, b5, b6]
  generalize a1 &&& 7 = f at hf ⊢
  interval_cases f <;> simp [b2, b3, b4, b5, b6]

theorem get1Touch_decodes_witness :
    (7 ≤ [1, 0x03, 0x09, 0x34, 0x12, 0x78, 0x56].length ∧
      ∀ x ∈ [1, 0x03, 0x09, 0x34, 0x12, 0x78, 0x56], x < 256) ∧
    ∃ (touched : Bool) (c1 : Contact),
      zul_Get1TouchFromData (some [1, 0x03, 0x09, 0x34, 0x12, 0x78, 0x56]) ⟨0, 0, 0, 0⟩ =
        some (touched, c1) ∧
      c1.flags = [1, 0x03, 0x09, 0x34, 0x12, 0x78, 0x56].getD 1 0 &&& 7 ∧
      (touched = true ↔ c1.flags = 3 ∨ c1.flags = 7) :=
  ⟨⟨by decide, by decide⟩,
    let ⟨t, c1, h1, h2, _, _, h5⟩ :=
      (get1Touch_decodes [1, 0x03, 0x09, 0x34, 0x12, 0x78, 0x56] ⟨0, 0, 0, 0⟩ (by decide)
        (by decide)).1
    ⟨t, c1, h1, h2, h5⟩⟩

/-- C25: a handler handed a buffer that starts with the 64 bytes `r` decodes
`r[5] + 256*r[6]`; and when, on an open device whose OUT transfer succeeds,
the first reply with a non-zero byte is the 64-byte reply `r`, arriving within
the retry count with no fatal error before it, `zul_getStatusByID` and
`zul_getConfigParamByID` return `SUCCESS` and store exactly that value through
the output pointer. -/
theorem get_and_status_value (ID : Nat) (u : Usb) (s : Services) (k : Nat) (r : List Nat)
    (hdev : u.msv_dev_handle = true) (htx : 0 ≤ u.txResults.headD LibusbError.TIMEOUT.code)
    (hk : k < u.msv_CtrlRetry.toNat)
    (hbefore : ∀ i, i < k → (u.rxAt i).good = false ∧ (u.rxAt i).fatal = false)
    (hreply : u.rxAt k = RxResult.reply r) (hlen : r.length = 64) (hb : ∀ x ∈ r, x < 256)
    (hnz : ∃ x ∈ r, x ≠ 0) :
    (∀ (buf : List Nat) (t : Services), buf.take 64 = r →
      (get_response buf t).msv_getConfigParam = r.getD 5 0 + 256 * r.getD 6 0 ∧
      (status_response buf t).msv_getStatusVal = r.getD 5 0 + 256 * r.getD 6 0) ∧
    (zul_getStatusByID ID u s).map (fun x => (x.1, x.2.1)) =
      some (SUCCESS, some (r.getD 5 0 + 256 * r.getD 6 0)) ∧
    (zul_getConfigParamByID ID u s).map (fun x => (x.1, x.2.1)) =
      some (SUCCESS, some (r.getD 5 0 + 256 * r.getD 6 0)) := by
  have hval : ∀ (buf : List Nat) (t : Services), buf.take 64 = r →
      (get_response buf t).msv_getConfigParam = r.getD 5 0 + 256 * r.getD 6 0 ∧
      (status_response buf t).msv_getStatusVal = r.getD 5 0 + 256 * r.getD 6 0 :=
    fun buf t hbuf => ⟨response_value r buf hb hbuf, response_value r buf hb hbuf⟩
  have hdata : (u.rxAt k).data = r := by
    rw [hreply, RxResult.data, List.take_of_length_le (by rw [hlen]; decide)]
  have hres : (u.rxAt k).res = 64 := by
    rw [hreply, RxResult.res, List.take_of_length_le (by rw [hlen]; decide), hlen]
    rfl
  have hgood : (u.rxAt k).good = true := by
    rw [RxResult.good_iff, hres, hdata]
    refine ⟨by decide, ?_⟩
    obtain ⟨x, hx, hx0⟩ := hnz
    exact List.any_eq_true.mpr ⟨x, hx, by simpa using hx0⟩
  refine ⟨hval, ?_, ?_⟩
  · obtain ⟨henc, hfl⟩ := zul_encodeGetStatus_fits ID
    obtain ⟨u1, buf, hrun, htake, _⟩ :=
      usb_ControlRequest_first_good status_response (frameBytes (EncodeCall.GetStatus ID).payload)
        DUAL_BYTE_MSG_LEN u { s with msv_xfrIndex := u8 ID } k (by decide) (by decide)
        (by rw [hfl]; decide) hdev htx hk hbefore hgood
    rw [hdata, hlen] at htake
    unfold zul_getStatusByID
    simp only [henc, if_true, hrun, hres]
    rw [(hval buf _ htake).2]
    rfl
  · obtain ⟨henc, hfl⟩ := zul_encodeGetRequest_fits ID
    obtain ⟨u1, buf, hrun, htake, _⟩ :=
      usb_ControlRequest_first_good get_response (frameBytes (EncodeCall.GetRequest ID).payload)
        DUAL_BYTE_MSG_LEN u { s with msv_xfrIndex := u8 ID } k (by decide) (by decide)
        (by rw [hfl]; decide) hdev htx hk hbefore hgood
    rw [hdata, hlen] at htake
    unfold zul_getConfigParamByID
    simp only [henc, if_true, hrun, hres]
    rw [(hval buf _ htake).1]
    rfl

theorem get_and_status_value_witness :
    ((1 : Nat) < (openUsb false 10 [RxResult.error LibusbError.TIMEOUT,
        RxResult.reply ([5, 2, 6, 0x71, 5, 0x34, 0x12] ++ List.replicate 57 0)]).msv_CtrlRetry.toNat ∧
      ([5, 2, 6, 0x71, 5, 0x34, 0x12] ++ List.replicate 57 0).length = 64) ∧
    (zul_getStatusByID 0x05
        (openUsb false 10 [RxResult.error LibusbError.TIMEOUT,
          RxResult.reply ([5, 2, 6, 0x71, 5, 0x34, 0x12] ++ List.replicate 57 0)]) { }).map
        (fun x => (x.1, x.2.1)) =
      some (SUCCESS, some (([5, 2, 6, 0x71, 5, 0x34, 0x12] ++ List.replicate 57 0).getD 5 0 +
        256 * ([5, 2, 6, 0x71, 5, 0x34, 0x12] ++ List.replicate 57 0).getD 6 0)) :=
  ⟨⟨by decide, by decide⟩,
    (get_and_status_value 0x05
      (openUsb false 10 [RxResult.error LibusbError.TIMEOUT,
        RxResult.reply ([5, 2, 6, 0x71, 5, 0x34, 0x12] ++ List.replicate 57 0)]) { } 1
      ([5, 2, 6, 0x71, 5, 0x34, 0x12] ++ List.replicate 57 0) rfl (by decide) (by decide)
      (fun i hi => by
        have hi0 : i = 0 := by omega
        subst hi0
        decide)
      rfl (by decide) (by decide) ⟨5, by decide, by decide⟩).2.1⟩

/-- C27 fails on the code: `zul_getFwTransferCount` returns `byteCount / 64`
rounded down.  For the accepted file with a body of 124 zero bytes it
returns 1, while `zul_transferFirmware`, with every block acknowledged, makes
two block transactions, at offsets 0 and 64, and returns `SUCCESS`.  With no
image loaded it returns -1, and for a body of 128 bytes it returns 2. -/
theorem fwTransferCount_rounds_down :
    (zul_loadAndValidateZyf (ZyfFile.ofBytes (List.replicate 124 0 ++ [1, 2, 0, 0])) { }).map
        (fun r => (r.1, zul_getFwTransferCount r.2,
          (zul_transferFirmware true (openUsb true 1 (List.replicate 2 (RxResult.reply [0xAA])))
            r.2).resultOf.map (fun x => (x.1, x.2.1.map (fun b => b.block_start))))) =
      some (SUCCESS, 1, some (SUCCESS, [0, 64])) ∧
    zul_getFwTransferCount { } = -1 ∧
    zul_getFwTransferCount (loadedImage 128) = 2 := by
  refine ⟨?_, by decide, by decide⟩
  rw [zul_loadAndValidateZyf_zero_body 124 { } (by decide) (by decide)]
  decide

/-- C30 fails on the code.  The file with a body of 60 zero bytes is accepted
by `zul_loadAndValidateZyf`; then `numBlocks` is 60 / 64 = 0, and
`zul_transferFirmware` divides by it after the first block transaction.  The
file with a body of 100 zero bytes is accepted; the second block transaction
takes 64 bytes at offset 64 of the 104 bytes loaded. -/
theorem transferFirmware_accepted_image_faults :
    (zul_loadAndValidateZyf (ZyfFile.ofBytes (List.replicate 60 0 ++ [1, 2, 0, 0])) { }).map
        (fun r => (r.1, r.2.msv_fwInfo.byteCount,
          (zul_transferFirmware true (openUsb true 1 (List.replicate 2 (RxResult.reply [0xAA])))
            r.2).faultOf)) =
      some (SUCCESS, 60, some Fault.divisionByZero) ∧
    (zul_loadAndValidateZyf (ZyfFile.ofBytes (List.replicate 100 0 ++ [1, 2, 0, 0])) { }).map
        (fun r => (r.1, r.2.msv_fwInfo.byteCount,
          (zul_transferFirmware true (openUsb true 1 (List.replicate 2 (RxResult.reply [0xAA])))
            r.2).faultOf)) =
      some (SUCCESS, 100, some Fault.outOfBounds) := by
  constructor
  · rw [zul_loadAndValidateZyf_zero_body 60 { } (by decide) (by decide)]
    decide
  · rw [zul_loadAndValidateZyf_zero_body 100 { } (by decide) (by decide)]
    decide

/-- C28: for a packet of 64 bytes with report ID 6, raw mode on and an image
bound whose `wireSig` has 128 entries, `handle_IN_rawdata_100` has a result and
changes `wireSig` only in the block of the offset byte `data[1]`: 62, 62 and 4
values at wire positions 0, 62 and 124 for the offsets 0, 1 and 2, the `j`-th
value being the byte `data[2+j]`, and nothing for another offset;
`handle_IN_rawdata_110` does the same with 31, 31 and 2 values at positions 0,
31 and 62, the `j`-th value being `data[2+2j] + 256*data[3+2j]`.  Every block
ends inside the 128 entries.  With another report ID, raw mode off or no image
bound the state stays as it is. -/
theorem rawdata_self_cap_blocks (data : List Nat) (hlen : data.length = 64)
    (hb : ∀ x ∈ data, x < 256) :
    (∀ (s : SelfCap ZXY100_rawImage) (img : ZXY100_rawImage), data[0]? = some RAW_DATA →
      s.msv_RawDataMode100 ≠ 0 → s.msv_image100 = some img → img.wireSig.length = 128 →
      ∃ img1 : ZXY100_rawImage,
        handle_IN_rawdata_100 data s = some { s with msv_image100 := some img1 } ∧
        img1.wireSig.length = 128 ∧ img1.sensorSz = img.sensorSz ∧
        ∀ i, img1.wireSig[i]? =
          if (wireBlock100 (data.getD 1 0)).1 ≤ i ∧
              i < (wireBlock100 (data.getD 1 0)).1 + (wireBlock100 (data.getD 1 0)).2 then
            data[2 + (i - (wireBlock100 (data.getD 1 0)).1)]?
          else img.wireSig[i]?) ∧
    (∀ (s : SelfCap ZXY110_rawImage) (img : ZXY110_rawImage), data[0]? = some RAW_DATA →
      s.msv_RawDataMode100 ≠ 0 → s.msv_image100 = some img → img.wireSig.length = 128 →
      ∃ img1 : ZXY110_rawImage,
        handle_IN_rawdata_110 data s = some { s with msv_image100 := some img1 } ∧
        img1.wireSig.length = 128 ∧ img1.sensorSz = img.sensorSz ∧
        ∀ i, img1.wireSig[i]? =
          if (wireBlock110 (data.getD 1 0)).1 ≤ i ∧
              i < (wireBlock110 (data.getD 1 0)).1 + (wireBlock110 (data.getD 1 0)).2 then
            some (data.getD (2 + 2 * (i - (wireBlock110 (data.getD 1 0)).1)) 0 +
              256 * data.getD (2 + 2 * (i - (wireBlock110 (data.getD 1 0)).1) + 1) 0)
          else img.wireSig[i]?) ∧
    (∀ s : SelfCap ZXY100_rawImage,
      data[0]? ≠ some RAW_DATA ∨ s.msv_RawDataMode100 = 0 ∨ s.msv_image100 = none →
      handle_IN_rawdata_100 data s = some s) ∧
    (∀ s : SelfCap ZXY110_rawImage,
      data[0]? ≠ some RAW_DATA ∨ s.msv_RawDataMode100 = 0 ∨ s.msv_image100 = none →
      handle_IN_rawdata_110 data s = some s) ∧
    (∀ offset, (wireBlock100 offset).1 + (wireBlock100 offset).2 ≤ 128 ∧
      (wireBlock110 offset).1 + (wireBlock110 offset).2 ≤ 128) := by
  have h0 : data[0]? = some (data.getD 0 0) := by
    rw [List.getD_eq_getElem _ _ (by omega), List.getElem?_eq_getElem]
  have h1 : data[1]? = some (data.getD 1 0) := by
    rw [List.getD_eq_getElem _ _ (by omega), List.getElem?_eq_getElem]
  have hbyte : ∀ j : Nat, (data[j]?).map u8 = data[j]? := by
    intro j
    by_cases hj : j < data.length
    · rw [List.getElem?_eq_getElem hj]
      exact congrArg some (Nat.mod_eq_of_lt (hb _ (List.getElem_mem hj)))
    · rw [List.getElem?_eq_none (by omega)]
      rfl
  have hword : ∀ j : Nat, u16 (u16 (data.getD j 0) + 0x100 * data.getD (j + 1) 0) =
      data.getD j 0 + 256 * data.getD (j + 1) 0 := by
    intro j
    have a := getD_lt_of_bytes hb j
    have b := getD_lt_of_bytes hb (j + 1)
    unfold u16
    omega
  refine ⟨?_, ?_, ?_, ?_, ?_⟩
  · intro s img hd hmode himg hsig
    have key : ∀ plan : Nat × Nat × ZXY100_rawImage, plan.2.2.wireSig = img.wireSig →
        plan.2.2.sensorSz = img.sensorSz → plan.1 + plan.2.1 ≤ 128 → plan.2.1 ≤ 62 →
        wireBlock100 (data.getD 1 0) = (plan.1, plan.2.1) →
        ∃ img1 : ZXY100_rawImage,
          (match wireLoop100 data plan.2.1 2 plan.1 plan.2.2.wireSig with
            | none => none
            | some wireSig1 =>
              some ({ s with msv_image100 := some { plan.2.2 with wireSig := wireSig1 } } :
                SelfCap ZXY100_rawImage)) = some { s with msv_image100 := some img1 } ∧
          img1.wireSig.length = 128 ∧ img1.sensorSz = img.sensorSz ∧
          ∀ i, img1.wireSig[i]? =
            if (wireBlock100 (data.getD 1 0)).1 ≤ i ∧
                i < (wireBlock100 (data.getD 1 0)).1 + (wireBlock100 (data.getD 1 0)).2 then
              data[2 + (i - (wireBlock100 (data.getD 1 0)).1)]?
            else img.wireSig[i]? := by
      intro plan hw hsz hbn hn hblock
      obtain ⟨sig1, hrun, hl, hall⟩ := wireLoop100_spec data plan.2.1 2 plan.1 plan.2.2.wireSig
        (by omega) (by rw [hw, hsig]; exact hbn)
      rw [hrun]
      refine ⟨{ plan.2.2 with wireSig := sig1 }, rfl, by simp only; rw [hl, hw, hsig], hsz,
        fun i => ?_⟩
      simp only [hblock]
      rw [hall i, hbyte, hw]
    unfold handle_IN_rawdata_100
    simp only [hd, ne_eq, not_true_eq_false, if_false, if_neg hmode, himg, h1]
    refine key _ ?_ ?_ ?_ ?_ ?_
    · split_ifs <;> rfl
    · split_ifs <;> rfl
    · split_ifs <;> simp
    · split_ifs <;> simp
    · unfold wireBlock100
      split_ifs <;> rfl
  · intro s img hd hmode himg hsig
    have key : ∀ plan : Nat × Nat × ZXY110_rawImage, plan.2.2.wireSig = img.wireSig →
        plan.2.2.sensorSz = img.sensorSz → plan.1 + plan.2.1 ≤ 128 → plan.2.1 ≤ 31 →
        wireBlock110 (data.getD 1 0) = (plan.1, plan.2.1) →
        ∃ img1 : ZXY110_rawImage,
          (match wireLoop110 data plan.2.1 2 plan.1 plan.2.2.wireSig with
            | none => none
            | some wireSig1 =>
              some ({ s with msv_image100 := some { plan.2.2 with wireSig := wireSig1 } } :
                SelfCap ZXY110_rawImage)) = some { s with msv_image100 := some img1 } ∧
          img1.wireSig.length = 128 ∧ img1.sensorSz = img.sensorSz ∧
          ∀ i, img1.wireSig[i]? =
            if (wireBlock110 (data.getD 1 0)).1 ≤ i ∧
                i < (wireBlock110 (data.getD 1 0)).1 + (wireBlock110 (data.getD 1 0)).2 then
              some (data.getD (2 + 2 * (i - (wireBlock110 (data.getD 1 0)).1)) 0 +
                256 * data.getD (2 + 2 * (i - (wireBlock110 (data.getD 1 0)).1) + 1) 0)
            else img.wireSig[i]? := by
      intro plan hw hsz hbn hn hblock
      obtain ⟨sig1, hrun, hl, hall⟩ := wireLoop110_spec data plan.2.1 2 plan.1 plan.2.2.wireSig
        (by omega) (by rw [hw, hsig]; exact hbn)
      rw [hrun]
      refine ⟨{ plan.2.2 with wireSig := sig1 }, rfl, by simp only; rw [hl, hw, hsig], hsz,
        fun i => ?_⟩
      simp only [hblock]
      rw [hall i, hword, hw]
    unfold handle_IN_rawdata_110
    simp only [hd, ne_eq, not_true_eq_false, if_false, if_neg hmode, himg, h1]
    refine key _ ?_ ?_ ?_ ?_ ?_
    · split_ifs <;> rfl
    · split_ifs <;> rfl
    · split_ifs <;> simp
    · split_ifs <;> simp
    · unfold wireBlock110
      split_ifs <;> rfl
  · intro s hg
    unfold handle_IN_rawdata_100
    rw [h0]
    rw [h0] at hg
    dsimp only
    rcases hg with hg | hg | hg
    · have hd : data.getD 0 0 ≠ RAW_DATA := fun hc => hg (congrArg some hc)
      rw [if_pos hd]
    · by_cases hd : data.getD 0 0 ≠ RAW_DATA
      · rw [if_pos hd]
      · rw [if_neg hd, if_pos hg]
    · by_cases hd : data.getD 0 0 ≠ RAW_DATA
      · rw [if_pos hd]
      · rw [if_neg hd]
        by_cases hm : s.msv_RawDataMode100 = 0
        · rw [if_pos hm]
        · rw [if_neg hm, hg]
  · intro s hg
    unfold handle_IN_rawdata_110
    rw [h0]
    rw [h0] at hg
    dsimp only
    rcases hg with hg | hg | hg
    · have hd : data.getD 0 0 ≠ RAW_DATA := fun hc => hg (congrArg some hc)
      rw [if_pos hd]
    · by_cases hd : data.getD 0 0 ≠ RAW_DATA
      · rw [if_pos hd]
      · rw [if_neg hd, if_pos hg]
    · by_cases hd : data.getD 0 0 ≠ RAW_DATA
      · rw [if_pos hd]
      · rw [if_neg hd]
        by_cases hm : s.msv_RawDataMode100 = 0
        · rw [if_pos hm]
        · rw [if_neg hm, hg]
  · intro offset
    unfold wireBlock100 wireBlock110
    split_ifs <;> simp

theorem rawdata_self_cap_blocks_witness :
    (([6, 2, 9, 8, 7, 6] ++ List.replicate 58 0).length = 64 ∧
      ∀ x ∈ [6, 2, 9, 8, 7, 6] ++ List.replicate 58 0, x < 256) ∧
    ∃ img1 : ZXY100_rawImage,
      handle_IN_rawdata_100 ([6, 2, 9, 8, 7, 6] ++ List.replicate 58 0)
          ⟨1, some ⟨⟨64, 0⟩, false, List.replicate 128 1⟩⟩ =
        some ⟨1, some img1⟩ ∧ img1.wireSig.length = 128 :=
  ⟨⟨by decide, by decide⟩,
    let ⟨img1, h1, h2, _⟩ :=
      (rawdata_self_cap_blocks ([6, 2, 9, 8, 7, 6] ++ List.replicate 58 0) (by decide)
        (by decide)).1 ⟨1, some ⟨⟨64, 0⟩, false, List.replicate 128 1⟩⟩
        ⟨⟨64, 0⟩, false, List.replicate 128 1⟩ (by decide) (by decide) rfl (by decide)
    ⟨img1, h1, h2⟩⟩

/-- C29: on an open application-mode device with a product ID other than that
of the ZXY100, `zul_getVersionStr(STR_CPUID, v, len)` returns `SUCCESS`; it
sends six status requests, for the indices 37 to 42 on a ZXY110 and 17 to 22 on
any other product; the string it builds is the four upper-case hexadecimal
digits of each of the six byte-swapped status values, 24 characters, of which
`v` gets the first `len - 1`; when each request is answered at once by a
64-byte reply `r`, the status value is `r[5] + 256*r[6]`; and `zul_byteSwap`
exchanges the two bytes of a 16-bit value and is its own inverse.  The digits
are those of the values: the four characters written for a value read as a
hexadecimal number give the value back, the `i`-th group of four characters of
the string reads as the byte-swapped `i`-th status value, and for the status
value `a + 256*b` of two bytes the group reads as `256*a + b`. -/
theorem cpuid_string (len : Int)
    (zxy100 : Usb → Services → Int × Option (List Nat) × Usb × Services) (indet : Nat → Nat)
    (u : Usb) (s : Services) (hdev : u.msv_dev_handle = true) (happ : u.msv_bootloader = false)
    (hpid : 0 ≤ u.msv_device_pid) (hold : u.msv_device_pid ≠ ZXY100_PRODUCT_ID) :
    (∃ (st : List Nat) (u1 : Usb) (s1 : Services),
      zul_getVersionStr_STR_CPUID len zxy100 indet u s =
        some (SUCCESS, snprintfS len (st.flatMap (fun v => sprintf04X (zul_byteSwap v))),
          u1, s1) ∧
      st.length = 6 ∧
      (st.flatMap (fun v => sprintf04X (zul_byteSwap v))).length = 24 ∧
      (∀ c ∈ st.flatMap (fun v => sprintf04X (zul_byteSwap v)),
        (48 ≤ c ∧ c ≤ 57) ∨ (65 ≤ c ∧ c ≤ 70)) ∧
      (0 < len → snprintfS len (st.flatMap (fun v => sprintf04X (zul_byteSwap v))) =
        some ((st.flatMap (fun v => sprintf04X (zul_byteSwap v))).take (len.toNat - 1))) ∧
      u1.sent = u.sent ++ (List.range 6).map (fun i =>
        statusRequest u ((if u.msv_device_pid = ZXY110_PRODUCT_ID then 37 else 17) + i)) ∧
      ∀ ID, (statusRequest u ID).wValue = 0x0305) ∧
    (∀ (rs : List (List Nat)) (rest : List RxResult) (txs trest : List Int),
      rs.length = 6 → txs.length = 6 → u.rxResults = rs.map RxResult.reply ++ rest →
      u.txResults = txs ++ trest → (∀ t ∈ txs, 0 ≤ t) → 0 < u.msv_CtrlRetry →
      (∀ r ∈ rs, r.length = 64 ∧ (∀ b ∈ r, b < 256) ∧ ∃ b ∈ r, b ≠ 0) →
      (zul_getVersionStr_STR_CPUID len zxy100 indet u s).map (fun x => (x.1, x.2.1)) =
        some (SUCCESS, snprintfS len (rs.flatMap (fun r =>
          sprintf04X (zul_byteSwap (r.getD 5 0 + 256 * r.getD 6 0)))))) ∧
    (∀ v, v < 65536 →
      zul_byteSwap (zul_byteSwap v) = v ∧ zul_byteSwap v = v / 256 + v % 256 * 256) ∧
    (∀ v, v < 65536 → hexNumber (sprintf04X v) = some v) ∧
    (∀ (st : List Nat) (i : Nat), i < st.length →
      hexNumber (((st.flatMap (fun v => sprintf04X (zul_byteSwap v))).drop (4 * i)).take 4) =
        some (zul_byteSwap (st.getD i 0))) ∧
    (∀ a b, a < 256 → b < 256 →
      hexNumber (sprintf04X (zul_byteSwap (a + 256 * b))) = some (256 * a + b)) := by
  have hpidv : zul_getDevicePID u = some u.msv_device_pid := by
    unfold zul_getDevicePID usb_getDevicePID
    rw [if_neg (by omega)]
  have hbase : (if u.msv_device_pid ≠ ZXY110_PRODUCT_ID then ZXYMT_SI_PROCESSOR_ID_BASE
      else ZXY110_SI_PROCESSOR_ID_0) = (if u.msv_device_pid = ZXY110_PRODUCT_ID then 37 else 17) := by
    by_cases h : u.msv_device_pid = ZXY110_PRODUCT_ID
    · rw [if_neg (by simpa using h), if_pos h]
      rfl
    · rw [if_pos h, if_neg h]
      rfl
  have hunfold : ∀ (hx : List Nat) (u1 : Usb) (s1 : Services),
      cpuIdLoop (if u.msv_device_pid = ZXY110_PRODUCT_ID then 37 else 17) indet 6 0 [] u s =
        some (hx, u1, s1) →
      zul_getVersionStr_STR_CPUID len zxy100 indet u s =
        some (SUCCESS, snprintfS len hx, u1, s1) := by
    intro hx u1 s1 hrun
    unfold zul_getVersionStr_STR_CPUID
    simp only [hpidv, if_neg hold, hbase, false_and, if_false, hrun]
    rw [if_neg (fun h => hold h.1)]
    cases snprintfS len hx <;> rfl
  have hswap : ∀ v, zul_byteSwap v < 65536 := by
    intro v
    rw [zul_byteSwap_eq]
    omega
  refine ⟨?_, ?_, ?_, ?_, ?_, ?_⟩
  · obtain ⟨st, u1, s1, hrun, hlen, _, hsent⟩ :=
      cpuIdLoop_total (if u.msv_device_pid = ZXY110_PRODUCT_ID then 37 else 17) indet 6 0 [] u s
    rw [List.nil_append] at hrun
    have hlen24 : ∀ l : List Nat,
        (l.flatMap (fun v => sprintf04X (zul_byteSwap v))).length = 4 * l.length := by
      intro l
      induction l with
      | nil => rfl
      | cons a l ih =>
        rw [List.flatMap_cons, List.length_append, ih, List.length_cons]
        simp only [sprintf04X, List.length_cons, List.length_nil]
        omega
    refine ⟨st, u1, s1, hunfold _ u1 s1 hrun, hlen, by rw [hlen24, hlen], ?_, ?_, ?_, ?_⟩
    · intro c hc
      obtain ⟨v, _, hv⟩ := List.mem_flatMap.mp hc
      exact (sprintf04X_upper _).2 c hv
    · intro hpos
      unfold snprintfS
      rw [if_neg (by omega), if_neg (by omega)]
    · have h := hsent hdev
      simp only [Nat.zero_add] at h
      exact h
    · intro ID
      unfold statusRequest
      simp only [happ, Bool.false_eq_true, if_false]
  · intro rs rest txs trest hrs htxs hrx htx ht hretry hr
    obtain ⟨u1, s1, hrun⟩ :=
      cpuIdLoop_replies (if u.msv_device_pid = ZXY110_PRODUCT_ID then 37 else 17) indet rs 0 []
        u s rest txs trest hdev hretry hrx htx (by rw [htxs, hrs]) ht hr
    rw [hrs, List.nil_append] at hrun
    rw [hunfold _ u1 s1 hrun]
    rfl
  · intro v hv
    refine ⟨zul_byteSwap_involutive v hv, ?_⟩
    rw [zul_byteSwap_eq, Nat.mod_eq_of_lt (by omega : v / 256 < 256)]
  · intro v hv
    rw [hexNumber_sprintf04X, Nat.mod_eq_of_lt hv]
  · intro st i hi
    rw [flatMap_group (fun v => sprintf04X (zul_byteSwap v)) (fun _ => rfl) st i hi,
      hexNumber_sprintf04X, Nat.mod_eq_of_lt (hswap _)]
  · intro a b ha hb
    rw [hexNumber_sprintf04X, Nat.mod_eq_of_lt (hswap _), zul_byteSwap_eq]
    congr 1
    omega

theorem cpuid_string_witness :
    (({ openUsb false 10 (List.replicate 6
          (RxResult.reply ([5, 2, 6, 0x71, 5, 0x34, 0x12] ++ List.replicate 57 0))) with
        msv_device_pid := 9 } : Usb).msv_dev_handle = true ∧
      (0 : Int) ≤ ({ openUsb false 10 (List.replicate 6
          (RxResult.reply ([5, 2, 6, 0x71, 5, 0x34, 0x12] ++ List.replicate 57 0))) with
        msv_device_pid := 9 } : Usb).msv_device_pid) ∧
    (zul_getVersionStr_STR_CPUID 25 (fun u s => (FAILURE, none, u, s)) (fun _ => 0)
        { openUsb false 10 (List.replicate 6
            (RxResult.reply ([5, 2, 6, 0x71, 5, 0x34, 0x12] ++ List.replicate 57 0))) with
          msv_device_pid := 9 } { }).map (fun x => (x.1, x.2.1)) =
      some (SUCCESS, some [51, 52, 49, 50, 51, 52, 49, 50, 51, 52, 49, 50, 51, 52, 49, 50,
        51, 52, 49, 50, 51, 52, 49, 50]) :=
  ⟨⟨rfl, by decide⟩,
    ((cpuid_string 25 (fun u s => (FAILURE, none, u, s)) (fun _ => 0)
      { openUsb false 10 (List.replicate 6
          (RxResult.reply ([5, 2, 6, 0x71, 5, 0x34, 0x12] ++ List.replicate 57 0))) with
        msv_device_pid := 9 } { } rfl rfl (by decide) (by decide)).2.1
      (List.replicate 6 ([5, 2, 6, 0x71, 5, 0x34, 0x12] ++ List.replicate 57 0)) []
      (List.replicate 6 64) (List.replicate 10 64) (by decide) (by decide) rfl rfl (by decide)
      (by decide) (by decide)).trans (by decide)⟩

/-- C26, the case the claim misses: the file with the one line
`CONFIG 01 0002` and no validation line makes `loadConfig` issue the set
command with the text `01 0002`. -/
theorem loadConfig_without_validation_sets :
    loadConfig (some [67, 79, 78, 70, 73, 71, 32, 48, 49, 32, 48, 48, 48, 50, 10]) =
        some [[48, 49, 32, 48, 48, 48, 50]] ∧
      zysValidationLines [([67, 79, 78, 70, 73, 71, 32, 48, 49, 32, 48, 48, 48, 50], false)] = [] ∧
      zysFile [([67, 79, 78, 70, 73, 71, 32, 48, 49, 32, 48, 48, 48, 50], false)] =
        [67, 79, 78, 70, 73, 71, 32, 48, 49, 32, 48, 48, 48, 50, 10] := by
  decide

/-- C26, amended: for a text file of lines of at most 177 characters (no 0,
line feed or carriage return inside a line, each line ended by LF or CRLF)
whose lines with `VERSION`, `STATUS`, `ARVAL` or `CONFIG` hold at most 9999
characters and at most 256 commands, `loadConfig` returns, and it issues the
set commands of the `CONFIG` lines exactly when the file has no line starting
with `# Validati`, or the four characters behind the last space of the last
such line are the four upper-case hex digits of `zul_getCRC` over the
concatenation of the keyword lines with terminators removed; with a
validation line that does not match no command is issued, and none when the
file cannot be opened. -/
theorem loadConfig_validation (ls : List (List Nat × Bool))
    (hplain : ∀ l ∈ ls, l.1.length ≤ 177 ∧ ∀ c ∈ l.1, c ≠ 0 ∧ c ≠ 10 ∧ c ≠ 13)
    (htext : (zysCrcText ls).length ≤ 9999) (hcmds : (zysCommands ls).length ≤ 256) :
    (∃ crc, zul_getCRC (zysCrcText ls) (zysCrcText ls).length = some crc ∧
      loadConfig (some (zysFile ls)) =
        some
          (match (zysValidationLines ls).getLast? with
            | none => zysCommands ls
            | some v =>
              if (afterLastSpace v.1).map (List.take 4) = some (sprintf04X crc) then
                zysCommands ls
              else [])) ∧
      loadConfig none = some [] := by
  refine ⟨⟨crc16_reference (zysCrcText ls), ?_, ?_⟩, rfl⟩
  · have := zul_getCRC_append (zysCrcText ls) [] (by omega)
    rwa [List.append_nil] at this
  · have hcrc : zul_getCRC (zysCrcText ls) (zysCrcText ls).length =
        some (crc16_reference (zysCrcText ls)) := by
      have := zul_getCRC_append (zysCrcText ls) [] (by omega)
      rwa [List.append_nil] at this
    unfold loadConfig
    simp only
    rw [fgetsChunks_zysFile ls (fun l hl => ⟨(hplain l hl).1, fun c hc =>
        ⟨((hplain l hl).2 c hc).2.1, ((hplain l hl).2 c hc).2.2⟩⟩),
      zysScan_lines ls hplain ⟨[], [], []⟩ (by simpa using htext) (by simpa using hcmds)]
    simp only [List.nil_append, hcrc]
    cases hv : (zysValidationLines ls).getLast? with
    | none => simp
    | some v =>
      have hmem : v ∈ zysValidationLines ls := by
        obtain ⟨ys, hys⟩ := List.getLast?_eq_some_iff.1 hv
        rw [hys]; simp
      have htag : v.1.take 10 = zysValidationTag := by
        unfold zysValidationLines at hmem
        simpa using (List.mem_filter.1 hmem).2
      have hm : 32 ∈ v.1 := by
        have : 32 ∈ v.1.take 10 := by rw [htag]; decide
        exact List.mem_of_mem_take this
      obtain ⟨p, hp⟩ := afterLastSpace_of_mem v.1 hm
      have hup := sprintf04X_upper (crc16_reference (zysCrcText ls))
      have hdis : ∀ c ∈ sprintf04X (crc16_reference (zysCrcText ls)), c ∉ zysTerminator v.2 := by
        intro c hc hmm
        have h1 := hup.2 c hc
        have h2 : c = 10 ∨ c = 13 := by
          revert hmm; cases v.2 <;> simp [zysTerminator] <;> omega
        omega
      have hiff := take_append_disjoint _ (zysTerminator v.2) p hdis
      rw [hup.1] at hiff
      have hne : List.take 4 (p ++ zysTerminator v.2) ≠ [] := by
        cases v.2 <;> cases p <;> simp [zysTerminator]
      simp only [hp, Option.getD_some, Option.map_some']
      by_cases he : p.take 4 = sprintf04X (crc16_reference (zysCrcText ls))
      · simp [hne, hiff.2 he, he]
      · have he2 : ¬ List.take 4 (p ++ zysTerminator v.2) =
            sprintf04X (crc16_reference (zysCrcText ls)) := fun h => he (hiff.1 h)
        simp [hne, he2, he]

theorem loadConfig_validation_witness :
    ((∃ crc, zul_getCRC (zysCrcText [([67, 79, 78, 70, 73, 71, 32, 49, 32, 50], true),
          ([35, 32, 86, 97, 108, 105, 100, 97, 116, 105, 111, 110, 32, 57, 49, 51, 50], false)])
        (zysCrcText [([67, 79, 78, 70, 73, 71, 32, 49, 32, 50], true),
          ([35, 32, 86, 97, 108, 105, 100, 97, 116, 105, 111, 110, 32, 57, 49, 51, 50],
            false)]).length = some crc ∧
      loadConfig (some (zysFile [([67, 79, 78, 70, 73, 71, 32, 49, 32, 50], true),
          ([35, 32, 86, 97, 108, 105, 100, 97, 116, 105, 111, 110, 32, 57, 49, 51, 50],
            false)])) =
        some
          (match (zysValidationLines [([67, 79, 78, 70, 73, 71, 32, 49, 32, 50], true),
              ([35, 32, 86, 97, 108, 105, 100, 97, 116, 105, 111, 110, 32, 57, 49, 51, 50],
                false)]).getLast? with
            | none => zysCommands [([67, 79, 78, 70, 73, 71, 32, 49, 32, 50], true),
                ([35, 32, 86, 97, 108, 105, 100, 97, 116, 105, 111, 110, 32, 57, 49, 51, 50],
                  false)]
            | some v =>
              if (afterLastSpace v.1).map (List.take 4) = some (sprintf04X crc) then
                zysCommands [([67, 79, 78, 70, 73, 71, 32, 49, 32, 50], true),
                  ([35, 32, 86, 97, 108, 105, 100, 97, 116, 105, 111, 110, 32, 57, 49, 51, 50],
                    false)]
              else [])) ∧
      loadConfig none = some []) ∧
      loadConfig (some (zysFile [([67, 79, 78, 70, 73, 71, 32, 49, 32, 50], true),
          ([35, 32, 86, 97, 108, 105, 100, 97, 116, 105, 111, 110, 32, 57, 49, 51, 50],
            false)])) = some [[49, 32, 50]] :=
  ⟨loadConfig_validation [([67, 79, 78, 70, 73, 71, 32, 49, 32, 50], true),
      ([35, 32, 86, 97, 108, 105, 100, 97, 116, 105, 111, 110, 32, 57, 49, 51, 50], false)]
    (by decide) (by decide) (by decide), by decide⟩

end Zytronic
